import Mathlib

/-!
# The CPU code generator of `lang/compiler.cpp`

A shallow embedding of `CPUCodeGen` (address text, per-node emission with the
load instruction selection, macro-loop scaffolding, `codegen`, `get`) and of
`Program::compile`, and the properties of them that the specification states.

Conventions of the embedding.

* C++ `int` values are mathematical integers (`Int`).  Signed overflow is
  undefined in C++, so the embedding describes the executions in which no
  overflow occurs.  `/` and `%` truncate towards zero (`Int.tdiv`, `Int.tmod`).
* A run that aborts (`TC_ASSERT`, `TC_NOT_IMPLEMENTED`, `TC_ERROR`) returns
  `Except.error`.  Operations that C++ leaves undefined and that crash on the
  target (division or remainder by zero, reading a `std::vector` out of range)
  are reported as `Fatal.undefined`.
* `std::string code; code += piece` is kept as the list of pieces appended by
  `emit_code`, oldest first; the source text is their concatenation.
* `Expr` is a shared handle.  Handles are natural numbers, and a `Heap` gives
  the node behind each handle, so that two parents can share one child.
* Console output (`fmt::print`, `TC_P`, `TC_WARN_IF`) is not part of the state.
-/

namespace Tlang

/-- Ways in which a run stops without a result: a failed `TC_ASSERT`,
`TC_NOT_IMPLEMENTED`, `TC_ERROR`, an operation that C++ leaves undefined, and
the exhaustion of the recursion budget that the embedding gives to the graph
traversal (which has no counterpart in the C++ code). -/
inductive Fatal where
  | assertion
  | not_implemented
  | error
  | undefined
  | out_of_fuel
  deriving DecidableEq

/-- The macro `TC_ASSERT(cond)`. -/
def TC_ASSERT (cond : Bool) : Except Fatal Unit :=
  if cond then .ok () else .error Fatal.assertion

/-- C++ `a / b` on `int`: truncating, undefined for `b == 0`. -/
def c_div (a b : Int) : Except Fatal Int :=
  if b = 0 then .error Fatal.undefined else .ok (Int.tdiv a b)

/-- C++ `a % b` on `int`: remainder of the truncating division, undefined for
`b == 0`. -/
def c_mod (a b : Int) : Except Fatal Int :=
  if b = 0 then .error Fatal.undefined else .ok (Int.tmod a b)

/-- C++ `v[i]` on a `std::vector`: undefined when `i` is out of range. -/
def c_index {α : Type} (v : List α) (i : Nat) : Except Fatal α :=
  match v.get? i with
  | some x => .ok x
  | none => .error Fatal.undefined

/-- What `fmt::format("{}", i)` prints for an `int`. -/
def fmt_d (i : Int) : String := toString i

/-- What `fmt::format("{:0Wd}", i)` prints for an `int`: the sign, then zeros
up to a total width of `w`, then the digits. -/
def fmt_0d (w : Nat) (i : Int) : String :=
  let sign := if i < 0 then "-" else ""
  let digits := toString i.natAbs
  sign ++ String.mk (List.replicate (w - (sign.length + digits.length)) '0') ++ digits

/-- Modelled from the spec: the struct `Address` is declared in `tlang.h`,
which is not among the sources.  Fields as listed in the data model. -/
structure Address where
  buffer_id : Int
  coeff_i : Int
  coeff_imax : Int
  coeff_const : Int
  coeff_aosoa_group_size : Int
  coeff_aosoa_stride : Int
  deriving DecidableEq

/-- Modelled from the spec: `Address::same_type` (in `tlang.h`), "true iff all
coefficients except `coeff_const` match". -/
def Address.same_type (a o : Address) : Bool :=
  a.coeff_i == o.coeff_i && a.coeff_imax == o.coeff_imax &&
    a.coeff_aosoa_group_size == o.coeff_aosoa_group_size &&
    a.coeff_aosoa_stride == o.coeff_aosoa_stride

/-- Modelled from the spec: `Address::offset` (in `tlang.h`), "returns
`coeff_const`". -/
def Address.offset (a : Address) : Int := a.coeff_const

/-- Modelled from the spec: the node tags of `tlang.h` that the data model
lists.  `binary op` is an arithmetic binary operation with tag `op`. -/
inductive NodeType where
  | binary (op : Nat)
  | load | store | pointer | combine | index | addr
  | cache_store | cache_load | imm
  deriving DecidableEq

/-- Modelled from the spec: the node behind an `Expr` handle (`tlang.h`).
`ch` and `members` hold handles; `addr` is the address that `expr->addr()`
returns. -/
structure Node where
  type : NodeType
  is_vectorized : Bool
  var_name : String
  addr : Address
  ch : List Nat
  members : List Nat

/-- The node behind every handle. -/
abbrev Heap := Nat → Node

/-- The enum `CPUCodeGen::Mode`. -/
inductive Mode where
  | scalar
  | vector
  deriving DecidableEq

/-- The data members of `CPUCodeGen`, those inherited from `CodeGenBase`
(`tlang.h`) included: `code`, `code_suffix`, `var_count`, `num_groups`,
`func_name`, `suffix` and the table `binary_ops`, which is keyed by the tags
of the binary operations.  The inherited helper `get_scalar_suffix` is carried
as a field as well. -/
structure CPUCodeGen where
  code : List String
  code_suffix : String
  var_count : Int
  num_groups : Int
  func_name : String
  suffix : String
  binary_ops : Nat → Option String
  get_scalar_suffix : Int → String
  unroll : Int
  prefetch : Int
  mode : Mode
  simd_width : Int
  group_size : Int

/-- The source text accumulated so far. -/
def CPUCodeGen.text (g : CPUCodeGen) : String := String.join g.code

/-- Modelled from the spec: `CodeGenBase::emit_code` (in `tlang.h`) appends
the formatted text followed by the current line suffix to the source buffer.
The argument is the text after formatting. -/
def CPUCodeGen.emit_code (g : CPUCodeGen) (s : String) : CPUCodeGen :=
  { g with code := g.code ++ [s ++ g.code_suffix] }

/-- Modelled from the spec: `CodeGenBase::create_variable` (in `tlang.h`)
"allocates a fresh temporary name" from the "monotonically increasing
temporary-variable counter". -/
def CPUCodeGen.create_variable (g : CPUCodeGen) : String × CPUCodeGen :=
  ("var_" ++ fmt_0d 4 g.var_count, { g with var_count := g.var_count + 1 })

/-- `CPUCodeGen::get_vectorized_address(addr, extra_offset)`. -/
def CPUCodeGen.get_vectorized_address (g : CPUCodeGen) (addr : Address)
    (extra_offset : Int) : Except Fatal String := do
  TC_ASSERT (addr.buffer_id != -1)
  let buffer_name := "context.get_buffer<float32>(" ++ fmt_0d 2 addr.buffer_id ++ ")"
  let q ← c_div g.num_groups addr.coeff_aosoa_group_size
  let stride := addr.coeff_i * g.num_groups + q * addr.coeff_aosoa_stride
  let offset := addr.coeff_const
  pure ("&" ++ buffer_name ++ "[" ++ fmt_d addr.coeff_imax ++ " * n + " ++ fmt_d stride ++
    " * (g + loop_index) + " ++ fmt_d offset ++ " + " ++ fmt_d extra_offset ++ "]")

/-- `CPUCodeGen::get_cache_name(i)`. -/
def get_cache_name (i : Int) : Except Fatal String := do
  TC_ASSERT (i < 10000)
  pure ("cache" ++ fmt_0d 4 i)

/-- `CPUCodeGen::start_macro_loop()`. -/
def CPUCodeGen.start_macro_loop (g : CPUCodeGen) : CPUCodeGen :=
  { g with code_suffix := " \\\n" }.emit_code "#define LOOP(loop_index) \x7b"

/-- The loop `for (int i = 0; i < unroll; i++) emit_code("LOOP({});", i);` of
`end_macro_loop`, started at `i`, with `n` trips left. -/
def CPUCodeGen.emit_loop_calls (g : CPUCodeGen) (i : Int) : Nat → CPUCodeGen
  | 0 => g
  | n + 1 => (g.emit_code ("LOOP(" ++ fmt_d i ++ ");")).emit_loop_calls (i + 1) n

/-- `CPUCodeGen::end_macro_loop(unroll)`. -/
def CPUCodeGen.end_macro_loop (g : CPUCodeGen) (unroll : Int) : CPUCodeGen :=
  let g := { g with code_suffix := "\n" }
  let g := g.emit_code "\x7d\n"
  let g := g.emit_loop_calls 0 unroll.toNat
  g.emit_code "#undef LOOP\n"

/-- `CPUCodeGen::generate_header()`. -/
def CPUCodeGen.generate_header (g : CPUCodeGen) : Except Fatal CPUCodeGen := do
  TC_ASSERT (g.mode == Mode.vector)
  TC_ASSERT (g.group_size != 0)
  let num_groups ← c_div g.simd_width g.group_size
  let g := { g with num_groups := num_groups }
  let g := g.emit_code "#include <common.h>\n using namespace taichi; using namespace Tlang;"
  let g := g.emit_code ("extern \"C\" void " ++ g.func_name ++ "(Context context) \x7b\n")
  let g := g.emit_code "auto n = context.get_range(0);\n"
  pure (g.emit_code "for (int i = 0, g = 0; i < n; ) \x7b\n")

/-- `CPUCodeGen::generate_tail()`. -/
def CPUCodeGen.generate_tail (g : CPUCodeGen) : CPUCodeGen :=
  let g := g.emit_code ("i += " ++ fmt_d (g.num_groups * g.unroll) ++ "; g += " ++
    fmt_d g.unroll ++ ";")
  g.emit_code "\x7d\n\x7d\n"

/-- The loop `for (i = 0; i + 1 < members.size(); i++)
TC_ASSERT(members[i]->addr().same_type(members[i + 1]->addr()))` of `visit`,
on the addresses of the members. -/
def adjacent_same_type : List Address → Bool
  | a :: b :: rest => a.same_type b && adjacent_same_type (b :: rest)
  | _ => true

/-- The lambda `emit_shuffle(imm)` of `visit`; the caller clears
`needs_shuffle`. -/
def CPUCodeGen.emit_shuffle (g : CPUCodeGen) (var_name imm : String) : CPUCodeGen :=
  g.emit_code ("auto " ++ var_name ++ " = _mm256_shuffle_ps(" ++ var_name ++ "_immediate, " ++
    var_name ++ "_immediate, " ++ imm ++ ");")

/-- The statement `emit_code("auto {} = {}_immediate;", var_name, var_name)`. -/
def CPUCodeGen.emit_immediate (g : CPUCodeGen) (var_name : String) : CPUCodeGen :=
  g.emit_code ("auto " ++ var_name ++ " = " ++ var_name ++ "_immediate;")

/-- The pattern detection of `visit` for a load with `group_size != 1`
(the `else` branch that starts with `TC_ASSERT(group_size <= 8)`, without the
closing `TC_ASSERT(needs_shuffle == false)`).  Returns the generator and the
value of `needs_shuffle`.  `orig` is `expr->addr()`. -/
def CPUCodeGen.load_pattern (g : CPUCodeGen) (var_name : String) (orig : Address)
    (offsets : List Int) (needs_shuffle : Bool) : Except Fatal (CPUCodeGen × Bool) := do
  TC_ASSERT (g.group_size ≤ 8)
  let o0 ← c_index offsets 0
  let offset_const ← c_mod o0 g.simd_width
  let o1 ← c_index offsets 1
  let offset_inc := o1 - o0
  if g.group_size = 2 then
    if offset_const = 0 ∧ offset_inc = 1 then
      pure (g.emit_immediate var_name, needs_shuffle)
    else if offset_inc = 0 then
      if offset_const = 0 then pure (g.emit_shuffle var_name "0xA0", false)
      else if offset_const = 1 then pure (g.emit_shuffle var_name "0xF5", false)
      else .error Fatal.not_implemented
    else .error Fatal.not_implemented
  else if g.group_size = 4 then
    if offset_const = 0 ∧ offset_inc = 1 then
      pure (g.emit_immediate var_name, needs_shuffle)
    else if offset_inc = 0 then
      if offset_const = 0 then pure (g.emit_shuffle var_name "0x00", false)
      else if offset_const = 1 then pure (g.emit_shuffle var_name "0x55", false)
      else if offset_const = 2 then pure (g.emit_shuffle var_name "0xAA", false)
      else if offset_const = 3 then pure (g.emit_shuffle var_name "0xFF", false)
      else .error Fatal.not_implemented
    else .error Fatal.not_implemented
  else if g.group_size = 8 then
    if offset_inc = 1 then do
      TC_ASSERT (offset_const == 0)
      pure (g.emit_immediate var_name, needs_shuffle)
    else do
      TC_ASSERT (offset_inc == 0)
      let a ← g.get_vectorized_address orig 0
      pure (g.emit_code ("auto " ++ var_name ++ " = _mm256_broadcast_ss(" ++ a ++ ");"), false)
  else .error Fatal.not_implemented

/-- The `load` branch of `visit` in vector mode.  `var_name` is the name just
given to the node, `node_addr` is `expr->addr()` and `member_addrs` lists
`expr->members[i]->addr()`. -/
def CPUCodeGen.visit_load (g : CPUCodeGen) (member_addrs : List Address) (node_addr : Address)
    (var_name : String) : Except Fatal CPUCodeGen := do
  TC_ASSERT (adjacent_same_type member_addrs)
  let offsets := member_addrs.map Address.offset
  let addr := node_addr
  let i_stride := g.num_groups
  TC_ASSERT (i_stride == addr.coeff_aosoa_group_size)
  let load_instr := if g.simd_width = 8 then "_mm256_load_ps" else "_mm512_load_ps"
  let r ← c_mod addr.coeff_const g.simd_width
  let needs_shuffle : Bool := r != 0
  let addr := if r != 0 then { addr with coeff_const := addr.coeff_const - r } else addr
  let g ← (if g.prefetch != 0 then do
      let a ← g.get_vectorized_address addr g.prefetch
      pure (g.emit_code ("if (loop_index == 0) _mm_prefetch(" ++ a ++ ", _MM_HINT_NTA);"))
    else pure g)
  let a ← g.get_vectorized_address addr 0
  let g := g.emit_code ("auto " ++ var_name ++ "_immediate = " ++ load_instr ++ "(" ++ a ++ ");")
  if g.group_size = 1 then
    pure (g.emit_immediate var_name)
  else do
    let (g, needs_shuffle) ← g.load_pattern var_name node_addr offsets needs_shuffle
    TC_ASSERT (needs_shuffle == false)
    pure g

/-- The scalar-mode loop of the binary-operation branch of `visit`:
`for (i = 0; i < simd_width; i++)`, started at `i`, with `n` trips left. -/
def CPUCodeGen.emit_scalar_binary (g : CPUCodeGen) (h : Heap) (node : Node)
    (var_name op : String) (i : Int) : Nat → Except Fatal CPUCodeGen
  | 0 => pure g
  | n + 1 => do
    let suf := g.get_scalar_suffix i
    let c0 ← c_index node.ch 0
    let c1 ← c_index node.ch 1
    let g := g.emit_code ("auto " ++ (var_name ++ suf) ++ " = " ++ ((h c0).var_name ++ suf) ++
      " " ++ op ++ " " ++ ((h c1).var_name ++ suf) ++ ";")
    g.emit_scalar_binary h node var_name op (i + 1) n

/-- The lookup `binary_ops.find(expr->type)`; `none` is `binary_ops.end()`. -/
def CPUCodeGen.find_binary_op (g : CPUCodeGen) : NodeType → Option String
  | NodeType.binary op => g.binary_ops op
  | _ => none

/-- The part of `visit` after the node got its name: the emission selected by
the node type.  `node` is the node of the visited handle, `var_name` its new
name, `h` the heap.  The local `buffer_name` of the load and store branches is
used only by the scalar loops that follow `TC_NOT_IMPLEMENTED` and is left
out. -/
def CPUCodeGen.visit_emit (g : CPUCodeGen) (h : Heap) (node : Node) (var_name : String) :
    Except Fatal CPUCodeGen :=
  match g.find_binary_op node.type with
  | some op =>
    match g.mode with
    | Mode.vector => do
      let c0 ← c_index node.ch 0
      let c1 ← c_index node.ch 1
      pure (g.emit_code ("auto " ++ var_name ++ " = " ++ (h c0).var_name ++ " " ++ op ++ " " ++
        (h c1).var_name ++ ";"))
    | Mode.scalar => g.emit_scalar_binary h node var_name op 0 g.simd_width.toNat
  | none =>
    if node.type = NodeType.cache_load then do
      let cache ← get_cache_name 0
      pure (g.emit_code ("auto " ++ var_name ++ " = _mm256_broadcast_ss(&" ++ cache ++
        "[loop_index]);"))
    else if node.type = NodeType.load then
      if g.mode = Mode.vector then
        g.visit_load (node.members.map fun m => (h m).addr) node.addr var_name
      else .error Fatal.not_implemented
    else if node.type = NodeType.cache_store then do
      let cache ← get_cache_name 0
      let c0 ← c_index node.ch 0
      pure (g.emit_code ("_mm256_store_ps(&" ++ cache ++ "[0], " ++ (h c0).var_name ++ ");"))
    else if node.type = NodeType.store then
      if g.mode = Mode.vector then do
        let store_instr := if g.simd_width = 8 then "_mm256_store_ps" else "_mm512_store_ps"
        let a ← g.get_vectorized_address node.addr 0
        let c1 ← c_index node.ch 1
        pure (g.emit_code (store_instr ++ "(" ++ a ++ ", " ++ (h c1).var_name ++ ");"))
      else .error Fatal.not_implemented
    else if node.type = NodeType.combine then pure g
    else if node.type = NodeType.imm then pure g
    else if node.type = NodeType.index then pure g
    else if node.type = NodeType.pointer then pure g
    else .error Fatal.error

/-- `CPUCodeGen::visit(expr)`.  The result is the generator and the heap, in
which the visited node may have received its `var_name`. -/
def CPUCodeGen.visit (g : CPUCodeGen) (h : Heap) (expr : Nat) :
    Except Fatal (CPUCodeGen × Heap) := do
  TC_ASSERT (h expr).is_vectorized
  TC_ASSERT ((h expr).members.length == 0 || ((h expr).members.length : Int) == g.group_size)
  if (h expr).type = NodeType.addr then pure (g, h)
  else if (h expr).var_name = "" then do
    let var_name := g.create_variable.1
    let g := g.create_variable.2
    let h := Function.update h expr { h expr with var_name := var_name }
    let g ← g.visit_emit h (h expr) var_name
    pure (g, h)
  else pure (g, h)

/-- Modelled from the spec: `Expr::accept` (in `tlang.h`) with the order of
the code generator, "a node is visited only after all of its children"
(post-order, children in operand order).  `fuel` bounds the depth of the
recursion. -/
def CPUCodeGen.accept : Nat → CPUCodeGen → Heap → Nat → Except Fatal (CPUCodeGen × Heap)
  | 0, _, _, _ => .error Fatal.out_of_fuel
  | fuel + 1, g, h, expr => do
    let (g, h) ← (h expr).ch.foldlM (fun (s : CPUCodeGen × Heap) c => s.1.accept fuel s.2 c) (g, h)
    g.visit h expr

/-- Modelled from the spec: one entry of `Program::caches` (`tlang.h`), the
root of a cache-store subgraph. -/
structure Cache where
  stores : Nat

/-- Modelled from the spec: `CompileConfig::Arch` (`tlang.h`). -/
inductive Arch where
  | x86_64
  | gpu
  deriving DecidableEq

/-- Modelled from the spec: `CompileConfig` (`tlang.h`). -/
structure CompileConfig where
  arch : Arch
  simd_width : Int
  group_size : Int

/-- Modelled from the spec: the members of `Program` (`tlang.h`) that the code
generator reads.  A null `ret` is `none`. -/
structure Program where
  caches : List Cache
  ret : Option Nat
  config : CompileConfig

/-- The external pass `Vectorizer(simd_width).run(expr, group_size)`: from the
heap and a root it gives the heap with the vectorized graph and its root. -/
abbrev VectorizerRun := Int → Heap → Nat → Int → Except Fatal (Heap × Nat)

/-- The loop `for (auto cache : prog.caches)` of `codegen`. -/
def CPUCodeGen.codegen_caches (run : VectorizerRun) (fuel : Nat) :
    CPUCodeGen → Heap → List Cache → Except Fatal (CPUCodeGen × Heap)
  | g, h, [] => pure (g, h)
  | g, h, cache :: rest => do
    let g := { g with group_size := 1 }
    let (h, vectorized_cache_stores) ← run g.simd_width h cache.stores 1
    let g := g.start_macro_loop
    let (g, h) ← g.accept fuel h vectorized_cache_stores
    let g := g.end_macro_loop 1
    g.codegen_caches run fuel h rest

/-- `CPUCodeGen::codegen(prog, group_size)`. -/
def CPUCodeGen.codegen (run : VectorizerRun) (fuel : Nat) (g : CPUCodeGen) (h : Heap)
    (prog : Program) (group_size : Int) : Except Fatal (CPUCodeGen × Heap) := do
  let g := { g with group_size := group_size }
  let g ← g.generate_header
  let cache ← get_cache_name 0
  let g := g.emit_code ("float32 " ++ cache ++ "[128];")
  let (g, h) ← g.codegen_caches run fuel h prog.caches
  match prog.ret with
  | none => .error Fatal.assertion
  | some ret => do
    let g := { g with group_size := group_size }
    let (h, vectorized_stores) ← run g.simd_width h ret 1
    let g := g.start_macro_loop
    let (g, h) ← g.accept fuel h vectorized_stores
    let g := g.end_macro_loop 8
    let g := { g with code_suffix := "" }
    pure (g.generate_tail, h)

/-- The constructor `CPUCodeGen()`, applied to the state that the base-class
constructor `CodeGenBase()` leaves. -/
def CPUCodeGen.init (base : CPUCodeGen) : CPUCodeGen :=
  { base with suffix := "cpp", prefetch := 0, unroll := 1, var_count := 0 }

/-- `CPUCodeGen::get(prog)` up to the call of `compile()`: the generator with
the emitted source.  Writing the file, running the native compiler and loading
the library are outside the embedding. -/
def CPUCodeGen.get (run : VectorizerRun) (fuel : Nat) (g : CPUCodeGen) (h : Heap)
    (prog : Program) : Except Fatal (CPUCodeGen × Heap) :=
  let g := { g with mode := Mode.vector, simd_width := 8 }
  g.codegen run fuel h prog 1

/-- The `x86_64` branch of `Program::compile()`: `CPUCodeGen codegen;
codegen.unroll = 4; function = codegen.get(*this);`. -/
def Program.compile_x86_64 (run : VectorizerRun) (fuel : Nat) (base : CPUCodeGen) (h : Heap)
    (prog : Program) : Except Fatal (CPUCodeGen × Heap) :=
  let codegen := { CPUCodeGen.init base with unroll := 4 }
  codegen.get run fuel h prog

/-- The address that the load branch of `visit` passes to the aligned load:
`coeff_const` less its remainder modulo `simd_width`. -/
def Address.align_down (addr : Address) (simd_width : Int) : Address :=
  { addr with coeff_const := addr.coeff_const - Int.tmod addr.coeff_const simd_width }

/-- The pieces appended by the prefetch statement of the load branch of
`visit` for the address `addr`: none without a prefetch distance. -/
def CPUCodeGen.prefetch_code (g : CPUCodeGen) (addr : Address) : List String :=
  if g.prefetch = 0 then []
  else
    match g.get_vectorized_address addr g.prefetch with
    | .ok a => ["if (loop_index == 0) _mm_prefetch(" ++ a ++ ", _MM_HINT_NTA);" ++ g.code_suffix]
    | .error _ => []

/-- The name of the load intrinsic chosen by `visit`. -/
def CPUCodeGen.load_instr (g : CPUCodeGen) : String :=
  if g.simd_width = 8 then "_mm256_load_ps" else "_mm512_load_ps"

/-- The generator after the load branch of `visit` emitted the prefetch
statement, if any, and the aligned load of the node named `var_name` from the
address text `a`. -/
def CPUCodeGen.with_aligned_load (g : CPUCodeGen) (addr : Address) (var_name a : String) :
    CPUCodeGen :=
  { g with code := g.code ++ g.prefetch_code (addr.align_down g.simd_width) ++
      ["auto " ++ var_name ++ "_immediate = " ++ g.load_instr ++ "(" ++ a ++ ");" ++
        g.code_suffix] }

/-- The heap after `visit` gave the node of `expr` the name `var_name`. -/
def Heap.set_var_name (h : Heap) (expr : Nat) (var_name : String) : Heap :=
  Function.update h expr { h expr with var_name := var_name }

/-- A generator in vector mode with `simd_width = 8`, an empty buffer, line
suffix `"\n"`, no prefetch and `+` as the operator of the tag `0`, for the
examples. -/
def example_codegen (group_size num_groups : Int) : CPUCodeGen :=
  { code := [], code_suffix := "\n", var_count := 0, num_groups := num_groups,
    func_name := "func", suffix := "cpp",
    binary_ops := fun op => if op = 0 then some "+" else none,
    get_scalar_suffix := fun i => "_" ++ fmt_d i, unroll := 1, prefetch := 0,
    mode := Mode.vector, simd_width := 8, group_size := group_size }

/-- An address in buffer `buffer_id` with AoSoA group size `group_size` and
constant offset `coeff_const`, for the examples. -/
def example_address (buffer_id group_size coeff_const : Int) : Address :=
  { buffer_id := buffer_id, coeff_i := 1, coeff_imax := 0, coeff_const := coeff_const,
    coeff_aosoa_group_size := group_size, coeff_aosoa_stride := 0 }

/-- A heap for the examples: handle `0` is a vectorized load node without a
name, bound to `base`, whose members are the handles `1, 2, ...`; member `j`
is a load node at `base` with constant offset `offsets[j - 1]`. -/
def example_load_heap (base : Address) (offsets : List Int) : Heap := fun i =>
  match i with
  | 0 =>
    { type := NodeType.load, is_vectorized := true, var_name := "", addr := base, ch := [],
      members := List.range' 1 offsets.length }
  | j + 1 =>
    { type := NodeType.load, is_vectorized := true, var_name := "",
      addr := { base with coeff_const := offsets.getD j 0 }, ch := [], members := [] }

/-- A piece of text that starts like a statement emitted for a node: with
`a` (`auto ...`), `_` (`_mm256_store_ps(...`) or `i` (`if (loop_index ...`).
The pieces of the macro scaffolding start with `#`, `L` or a closing brace. -/
def body_line (s : String) : Prop :=
  ∃ c rest, s.data = c :: rest ∧ (c = 'a' ∨ c = '_' ∨ c = 'i')

/-- The generator `g'` is `g` after the statements `lines` were appended and
temporaries were allocated; nothing else differs. -/
def CPUCodeGen.emits (g g' : CPUCodeGen) (lines : List String) : Prop :=
  g' = { g with code := g.code ++ lines, var_count := g'.var_count } ∧
    ∀ l ∈ lines, body_line l

/-- The pieces of one macro block of the emitted source: the `#define` line
with its continuation suffix, the statements `body`, the closing brace, the
invocations `calls` and the `#undef` line. -/
def macro_block (body calls : List String) : List String :=
  ["#define LOOP(loop_index) \x7b \\\n"] ++ body ++ ["\x7d\n\n"] ++ calls ++ ["#undef LOOP\n\n"]

/-- The statements `body` are what the traversal of the vectorized graph of
`root` appends inside a macro block, for some generator state with the given
`group_size`. -/
def is_body_of (run : VectorizerRun) (fuel : Nat) (group_size : Int) (root : Nat)
    (body : List String) : Prop :=
  ∃ (g1 : CPUCodeGen) (h1 h2 : Heap) (v : Nat) (g3 : CPUCodeGen) (h3 : Heap),
    g1.group_size = group_size ∧ run g1.simd_width h1 root 1 = .ok (h2, v) ∧
      g1.start_macro_loop.accept fuel h2 v = .ok (g3, h3) ∧
      g3.code = g1.start_macro_loop.code ++ body

/-- A heap for the examples: handle `0` is a vectorized `combine` node over
the store node `1`; the store node writes the sum node `2` to buffer 2; the
sum node (`binary 0`) adds the load node `3` of buffer 1 to itself; every
other handle is an `addr` node.  All addresses have AoSoA group size 8. -/
def example_store_heap : Heap := fun i =>
  match i with
  | 0 =>
    { type := NodeType.combine, is_vectorized := true, var_name := "",
      addr := example_address (-1) 8 0, ch := [1], members := [] }
  | 1 =>
    { type := NodeType.store, is_vectorized := true, var_name := "",
      addr := example_address 2 8 0, ch := [4, 2], members := [] }
  | 2 =>
    { type := NodeType.binary 0, is_vectorized := true, var_name := "",
      addr := example_address (-1) 8 0, ch := [3, 3], members := [] }
  | 3 =>
    { type := NodeType.load, is_vectorized := true, var_name := "",
      addr := example_address 1 8 0, ch := [4], members := [] }
  | _ =>
    { type := NodeType.addr, is_vectorized := true, var_name := "",
      addr := example_address (-1) 8 0, ch := [], members := [] }

/-- A program for the examples: `cache_roots` are the roots of the cache-store
subgraphs and the return root is handle `0`. -/
def example_program (cache_roots : List Nat) : Program :=
  { caches := cache_roots.map fun r => { stores := r }, ret := some 0,
    config := { arch := Arch.x86_64, simd_width := -1, group_size := 1 } }

/-- A vectorizer for the examples, which returns the graph it is given (the
graphs of the examples are vectorized already). -/
def example_vectorizer : VectorizerRun := fun _ h e _ => .ok (h, e)

/-- The state left by the base-class constructor in the examples: an empty
buffer, an empty line suffix and `+` as the operator of the tag `0`. -/
def example_base : CPUCodeGen :=
  { code := [], code_suffix := "", var_count := 0, num_groups := 0, func_name := "func",
    suffix := "", binary_ops := fun op => if op = 0 then some "+" else none,
    get_scalar_suffix := fun i => "_" ++ fmt_d i, unroll := 0, prefetch := 0,
    mode := Mode.scalar, simd_width := 0, group_size := 0 }

/-- `Program::compile()`.  The helpers `materialize_layout` and
`default_simd_width` are not among the sources and are parameters; `run`,
`fuel` and `base` are those of the code generator.  The first component is the
`Program` as the run leaves it; the second is the outcome: an error leaves
`function` unset, and `ok` carries the generator whose source `function` is
compiled from. -/
def Program.compile (materialize_layout : Heap → Heap) (default_simd_width : Arch → Int)
    (run : VectorizerRun) (fuel : Nat) (base : CPUCodeGen) (h : Heap) (prog : Program) :
    Program × Except Fatal (CPUCodeGen × Heap) :=
  let h := materialize_layout h
  let prog :=
    if prog.config.simd_width = -1 then
      { prog with config := { prog.config with simd_width := default_simd_width prog.config.arch } }
    else prog
  (prog, do
    TC_ASSERT (prog.config.group_size > 0)
    if prog.config.arch = Arch.x86_64 then
      Program.compile_x86_64 run fuel base h prog
    else if prog.config.arch = Arch.gpu then
      .error Fatal.not_implemented
    else
      .error Fatal.not_implemented)

/-- The generator `g'` is `g` after the pieces `lines` were appended and
temporaries were allocated, and every piece ends with the line suffix of
`g`. -/
def CPUCodeGen.appends (g g' : CPUCodeGen) (lines : List String) : Prop :=
  g' = { g with code := g.code ++ lines, var_count := g'.var_count } ∧
    ∀ l ∈ lines, ∃ s, l = s ++ g.code_suffix

/-- A heap for the examples: handle `0` is a vectorized load node that has the
name `var_0000` already, with the members `1` and `2`; the address of member
`1` has `coeff_i = 1` and that of member `2` has `coeff_i = 2`. -/
def example_named_heap : Heap := fun i =>
  match i with
  | 0 =>
    { type := NodeType.load, is_vectorized := true, var_name := "var_0000",
      addr := example_address 3 4 0, ch := [], members := [1, 2] }
  | 1 =>
    { type := NodeType.load, is_vectorized := true, var_name := "",
      addr := example_address 3 4 0, ch := [], members := [] }
  | _ =>
    { type := NodeType.load, is_vectorized := true, var_name := "",
      addr := { example_address 3 4 1 with coeff_i := 2 }, ch := [], members := [] }

/-! ## Auxiliary facts -/

theorem set_var_name_addr (h : Heap) (e : Nat) (v : String) (m : Nat) :
    (h.set_var_name e v m).addr = (h m).addr := by
  unfold Heap.set_var_name
  by_cases hm : m = e
  · subst hm; simp
  · simp [Function.update_noteq hm]

theorem set_var_name_members (h : Heap) (e : Nat) (v : String) (m : Nat) :
    (h.set_var_name e v m).members = (h m).members := by
  unfold Heap.set_var_name
  by_cases hm : m = e
  · subst hm; simp
  · simp [Function.update_noteq hm]

theorem set_var_name_type (h : Heap) (e : Nat) (v : String) (m : Nat) :
    (h.set_var_name e v m).type = (h m).type := by
  unfold Heap.set_var_name
  by_cases hm : m = e
  · subst hm; simp
  · simp [Function.update_noteq hm]

theorem set_var_name_is_vectorized (h : Heap) (e : Nat) (v : String) (m : Nat) :
    (h.set_var_name e v m).is_vectorized = (h m).is_vectorized := by
  unfold Heap.set_var_name
  by_cases hm : m = e
  · subst hm; simp
  · simp [Function.update_noteq hm]

theorem set_var_name_same (h : Heap) (e : Nat) (v : String) :
    (h.set_var_name e v e).var_name = v := by
  simp [Heap.set_var_name]

theorem set_var_name_other (h : Heap) (e : Nat) (v : String) (m : Nat) (hm : m ≠ e) :
    h.set_var_name e v m = h m := by
  simp [Heap.set_var_name, Function.update_noteq hm]

theorem get_vectorized_address_ok (g : CPUCodeGen) (addr : Address) (e : Int)
    (hb : addr.buffer_id ≠ -1) (hz : addr.coeff_aosoa_group_size ≠ 0) :
    g.get_vectorized_address addr e = .ok ("&" ++
      ("context.get_buffer<float32>(" ++ fmt_0d 2 addr.buffer_id ++ ")") ++ "[" ++
      fmt_d addr.coeff_imax ++ " * n + " ++
      fmt_d (addr.coeff_i * g.num_groups +
        Int.tdiv g.num_groups addr.coeff_aosoa_group_size * addr.coeff_aosoa_stride) ++
      " * (g + loop_index) + " ++ fmt_d addr.coeff_const ++ " + " ++ fmt_d e ++ "]") := by
  simp [CPUCodeGen.get_vectorized_address, TC_ASSERT, c_div, hb, hz, bind, Except.bind, pure,
    Except.pure]

theorem get_vectorized_address_unbound (g : CPUCodeGen) (addr : Address) (e : Int)
    (hb : addr.buffer_id = -1) :
    g.get_vectorized_address addr e = .error Fatal.assertion := by
  simp [CPUCodeGen.get_vectorized_address, TC_ASSERT, hb, bind, Except.bind]

theorem get_vectorized_address_zero (g : CPUCodeGen) (addr : Address) (e : Int)
    (hb : addr.buffer_id ≠ -1) (hz : addr.coeff_aosoa_group_size = 0) :
    g.get_vectorized_address addr e = .error Fatal.undefined := by
  simp [CPUCodeGen.get_vectorized_address, TC_ASSERT, c_div, hb, hz, bind, Except.bind]

theorem get_vectorized_address_congr (g g' : CPUCodeGen) (addr : Address) (e : Int)
    (hn : g'.num_groups = g.num_groups) :
    g'.get_vectorized_address addr e = g.get_vectorized_address addr e := by
  simp [CPUCodeGen.get_vectorized_address, hn]

theorem align_down_buffer_id (addr : Address) (w : Int) :
    (addr.align_down w).buffer_id = addr.buffer_id := rfl

theorem align_down_group_size (addr : Address) (w : Int) :
    (addr.align_down w).coeff_aosoa_group_size = addr.coeff_aosoa_group_size := rfl

theorem align_down_of_aligned (addr : Address) (w : Int) (hr : Int.tmod addr.coeff_const w = 0) :
    addr.align_down w = addr := by
  cases addr
  simp_all [Address.align_down]

theorem size_guard (g : CPUCodeGen) (n : Node)
    (hsize : n.members.length = 0 ∨ (n.members.length : Int) = g.group_size) :
    (n.members.length == 0 || (n.members.length : Int) == g.group_size) = true := by
  rcases hsize with h0 | h1
  · simp [h0]
  · simp [h1]

/-- A node without a name, other than an `addr` node: `visit` names it and
runs the emission for its type. -/
theorem visit_fresh (g : CPUCodeGen) (h : Heap) (expr : Nat)
    (hvec : (h expr).is_vectorized = true)
    (hsize : (h expr).members.length = 0 ∨ ((h expr).members.length : Int) = g.group_size)
    (htype : (h expr).type ≠ NodeType.addr) (hname : (h expr).var_name = "") :
    g.visit h expr =
      (g.create_variable.2.visit_emit (h.set_var_name expr g.create_variable.1)
        (h.set_var_name expr g.create_variable.1 expr) g.create_variable.1).map
        (fun g' => (g', h.set_var_name expr g.create_variable.1)) := by
  unfold CPUCodeGen.visit Heap.set_var_name
  simp only [hvec, size_guard g (h expr) hsize, TC_ASSERT, if_true, bind, Except.bind,
    if_neg htype, hname, pure, Except.pure]
  generalize CPUCodeGen.visit_emit _ _ _ _ = x
  cases x <;> rfl

theorem visit_emit_load (g : CPUCodeGen) (h : Heap) (node : Node) (v : String)
    (htype : node.type = NodeType.load) (hmode : g.mode = Mode.vector) :
    g.visit_emit h node v =
      g.visit_load (node.members.map fun m => (h m).addr) node.addr v := by
  simp [CPUCodeGen.visit_emit, CPUCodeGen.find_binary_op, htype, hmode]

/-- A fresh vectorized load node in vector mode: `visit` names the node and
runs the load branch. -/
theorem visit_fresh_load (g : CPUCodeGen) (h : Heap) (expr : Nat)
    (hvec : (h expr).is_vectorized = true)
    (hsize : (h expr).members.length = 0 ∨ ((h expr).members.length : Int) = g.group_size)
    (htype : (h expr).type = NodeType.load) (hname : (h expr).var_name = "")
    (hmode : g.mode = Mode.vector) :
    g.visit h expr =
      (g.create_variable.2.visit_load ((h expr).members.map fun m => (h m).addr) (h expr).addr
        g.create_variable.1).map
        (fun g' => (g', h.set_var_name expr g.create_variable.1)) := by
  have hmap : List.map (fun m => (h.set_var_name expr g.create_variable.1 m).addr)
      (h expr).members = List.map (fun m => (h m).addr) (h expr).members := by
    apply List.map_congr_left
    intro m _
    exact set_var_name_addr h expr _ m
  rw [visit_fresh g h expr hvec hsize (by rw [htype]; decide) hname,
    visit_emit_load g.create_variable.2 _ _ _ (by rw [set_var_name_type]; exact htype) hmode,
    set_var_name_members, set_var_name_addr, hmap]

theorem get_vectorized_address_inv (g : CPUCodeGen) (addr : Address) (e : Int) (a : String)
    (ha : g.get_vectorized_address addr e = .ok a) :
    addr.buffer_id ≠ -1 ∧ addr.coeff_aosoa_group_size ≠ 0 := by
  by_cases hb : addr.buffer_id = -1
  · rw [get_vectorized_address_unbound g addr e hb] at ha
    cases ha
  · by_cases hz : addr.coeff_aosoa_group_size = 0
    · rw [get_vectorized_address_zero g addr e hb hz] at ha
      cases ha
    · exact ⟨hb, hz⟩

theorem align_down_eq (addr : Address) (w : Int) :
    (if (Int.tmod addr.coeff_const w != 0) = true then
      { addr with coeff_const := addr.coeff_const - Int.tmod addr.coeff_const w }
    else addr) = addr.align_down w := by
  by_cases hr : Int.tmod addr.coeff_const w = 0
  · simp [hr, align_down_of_aligned]
  · simp [hr, Address.align_down]

/-- The load branch of `visit` once its guards hold: the aligned load is
emitted, then the lane pattern is selected. -/
theorem visit_load_eq (g : CPUCodeGen) (addrs : List Address) (addr : Address) (v a : String)
    (hst : adjacent_same_type addrs = true) (hng : g.num_groups = addr.coeff_aosoa_group_size)
    (hsw : g.simd_width ≠ 0)
    (ha : g.get_vectorized_address (addr.align_down g.simd_width) 0 = .ok a) :
    g.visit_load addrs addr v =
      if g.group_size = 1 then .ok ((g.with_aligned_load addr v a).emit_immediate v)
      else
        match (g.with_aligned_load addr v a).load_pattern v addr (addrs.map Address.offset)
          (Int.tmod addr.coeff_const g.simd_width != 0) with
        | .ok r => if r.2 = false then .ok r.1 else .error Fatal.assertion
        | .error e => .error e := by
  obtain ⟨hb, hz⟩ := get_vectorized_address_inv _ _ _ _ ha
  have hp := get_vectorized_address_ok g (addr.align_down g.simd_width) g.prefetch hb hz
  unfold CPUCodeGen.visit_load
  simp only [hst, hng, TC_ASSERT, c_mod, hsw, if_true, if_false, bind, Except.bind, pure,
    Except.pure, beq_self_eq_true, align_down_eq]
  have e3 : (g.with_aligned_load addr v a).group_size = g.group_size := rfl
  by_cases hpre : g.prefetch = 0
  · have e1 : (g.prefetch != 0) = false := by simp [hpre]
    have e2 : g.emit_code ("auto " ++ v ++ "_immediate = " ++
        (if g.simd_width = 8 then "_mm256_load_ps" else "_mm512_load_ps") ++ "(" ++ a ++ ");") =
        g.with_aligned_load addr v a := by
      simp [CPUCodeGen.emit_code, CPUCodeGen.with_aligned_load, CPUCodeGen.prefetch_code, hpre,
        CPUCodeGen.load_instr]
    simp only [e1, Bool.false_eq_true, if_false, ha, e2, e3]
    split
    · rfl
    · generalize CPUCodeGen.load_pattern _ _ _ _ _ = x
      rcases x with e | ⟨g3, ns⟩
      · rfl
      · cases ns <;> rfl
  · have e1 : (g.prefetch != 0) = true := by simp [hpre]
    have e4 : ∀ s, (g.emit_code s).get_vectorized_address (addr.align_down g.simd_width) 0 =
        .ok a := fun s => by rw [get_vectorized_address_congr g (g.emit_code s) _ 0 rfl, ha]
    have e2 : ∀ p, g.get_vectorized_address (addr.align_down g.simd_width) g.prefetch = .ok p →
        (g.emit_code ("if (loop_index == 0) _mm_prefetch(" ++ p ++ ", _MM_HINT_NTA);")).emit_code
        ("auto " ++ v ++ "_immediate = " ++
        (if g.simd_width = 8 then "_mm256_load_ps" else "_mm512_load_ps") ++ "(" ++ a ++ ");") =
        g.with_aligned_load addr v a := by
      intro p hp
      simp [CPUCodeGen.emit_code, CPUCodeGen.with_aligned_load, CPUCodeGen.prefetch_code, hpre,
        CPUCodeGen.load_instr, hp]
    have e5 := e2 _ hp
    simp only [e1, if_true, hp, e4, e5, e3]
    split
    · rfl
    · generalize CPUCodeGen.load_pattern _ _ _ _ _ = x
      rcases x with e | ⟨g3, ns⟩
      · rfl
      · cases ns <;> rfl

/-- The load branch of `visit` stops with an error unless all its guards
hold. -/
theorem visit_load_error_or (g : CPUCodeGen) (addrs : List Address) (addr : Address)
    (v : String) :
    (∃ e, g.visit_load addrs addr v = .error e) ∨
      ∃ a, adjacent_same_type addrs = true ∧ g.num_groups = addr.coeff_aosoa_group_size ∧
        g.simd_width ≠ 0 ∧ addr.buffer_id ≠ -1 ∧
        g.get_vectorized_address (addr.align_down g.simd_width) 0 = .ok a := by
  by_cases hst : adjacent_same_type addrs = true
  swap
  · left
    simp [CPUCodeGen.visit_load, TC_ASSERT, hst, bind, Except.bind]
  by_cases hng : g.num_groups = addr.coeff_aosoa_group_size
  swap
  · left
    simp [CPUCodeGen.visit_load, TC_ASSERT, hst, hng, bind, Except.bind]
  by_cases hsw : g.simd_width = 0
  · left
    simp [CPUCodeGen.visit_load, TC_ASSERT, hst, hng, hsw, c_mod, bind, Except.bind]
  by_cases hb : addr.buffer_id = -1
  · left
    have e1 : ∀ (g' : CPUCodeGen) (e : Int),
        g'.get_vectorized_address (addr.align_down g.simd_width) e = .error Fatal.assertion :=
      fun g' e => get_vectorized_address_unbound g' _ e hb
    unfold CPUCodeGen.visit_load
    simp only [hst, hng, TC_ASSERT, c_mod, hsw, if_true, if_false, bind, Except.bind, pure,
      Except.pure, beq_self_eq_true, align_down_eq, e1]
    split <;> simp
  by_cases hz : addr.coeff_aosoa_group_size = 0
  · left
    have e1 : ∀ (g' : CPUCodeGen) (e : Int),
        g'.get_vectorized_address (addr.align_down g.simd_width) e = .error Fatal.undefined :=
      fun g' e => get_vectorized_address_zero g' _ e hb hz
    unfold CPUCodeGen.visit_load
    simp only [hst, hng, TC_ASSERT, c_mod, hsw, if_true, if_false, bind, Except.bind, pure,
      Except.pure, beq_self_eq_true, align_down_eq, e1]
    split <;> simp
  · right
    exact ⟨_, hst, hng, hsw, hb, get_vectorized_address_ok g _ 0 hb hz⟩

/-- The value of `needs_shuffle` and the generator handed to the pattern
detection by `visit` for the load node `expr`, given the text `a` of the
aligned address. -/
theorem visit_load_node (g : CPUCodeGen) (h : Heap) (expr : Nat) (a : String)
    (hmode : g.mode = Mode.vector) (htype : (h expr).type = NodeType.load)
    (hvec : (h expr).is_vectorized = true) (hname : (h expr).var_name = "")
    (hsize : (h expr).members.length = 0 ∨ ((h expr).members.length : Int) = g.group_size)
    (hst : adjacent_same_type ((h expr).members.map fun m => (h m).addr) = true)
    (hng : g.num_groups = (h expr).addr.coeff_aosoa_group_size) (hsw : g.simd_width ≠ 0)
    (ha : g.get_vectorized_address ((h expr).addr.align_down g.simd_width) 0 = .ok a) :
    g.visit h expr =
      (if g.group_size = 1 then
          Except.ok ((g.create_variable.2.with_aligned_load (h expr).addr g.create_variable.1
            a).emit_immediate g.create_variable.1)
        else
          match (g.create_variable.2.with_aligned_load (h expr).addr g.create_variable.1
              a).load_pattern g.create_variable.1 (h expr).addr
              ((h expr).members.map fun m => (h m).addr.offset)
              (Int.tmod (h expr).addr.coeff_const g.simd_width != 0) with
          | Except.ok r => if r.2 = false then Except.ok r.1 else Except.error Fatal.assertion
          | Except.error e => Except.error e).map
        (fun g' => (g', h.set_var_name expr g.create_variable.1)) := by
  rw [visit_fresh_load g h expr hvec hsize htype hname hmode,
    visit_load_eq g.create_variable.2 _ _ _ a hst hng hsw
      (by rw [get_vectorized_address_congr g g.create_variable.2 _ 0 rfl]; exact ha)]
  simp only [List.map_map]
  rfl

theorem load_pattern_two (g : CPUCodeGen) (v : String) (orig : Address) (o0 o1 : Int)
    (rest : List Int) (ns : Bool) (hgs : g.group_size = 2) (hsw : g.simd_width ≠ 0) :
    g.load_pattern v orig (o0 :: o1 :: rest) ns =
      if Int.tmod o0 g.simd_width = 0 ∧ o1 - o0 = 1 then .ok (g.emit_immediate v, ns)
      else if o1 - o0 = 0 then
        if Int.tmod o0 g.simd_width = 0 then .ok (g.emit_shuffle v "0xA0", false)
        else if Int.tmod o0 g.simd_width = 1 then .ok (g.emit_shuffle v "0xF5", false)
        else .error Fatal.not_implemented
      else .error Fatal.not_implemented := by
  simp [CPUCodeGen.load_pattern, TC_ASSERT, c_index, c_mod, hgs, hsw, bind, Except.bind, pure,
    Except.pure]

theorem load_pattern_four (g : CPUCodeGen) (v : String) (orig : Address) (o0 o1 : Int)
    (rest : List Int) (ns : Bool) (hgs : g.group_size = 4) (hsw : g.simd_width ≠ 0) :
    g.load_pattern v orig (o0 :: o1 :: rest) ns =
      if Int.tmod o0 g.simd_width = 0 ∧ o1 - o0 = 1 then .ok (g.emit_immediate v, ns)
      else if o1 - o0 = 0 then
        if Int.tmod o0 g.simd_width = 0 then .ok (g.emit_shuffle v "0x00", false)
        else if Int.tmod o0 g.simd_width = 1 then .ok (g.emit_shuffle v "0x55", false)
        else if Int.tmod o0 g.simd_width = 2 then .ok (g.emit_shuffle v "0xAA", false)
        else if Int.tmod o0 g.simd_width = 3 then .ok (g.emit_shuffle v "0xFF", false)
        else .error Fatal.not_implemented
      else .error Fatal.not_implemented := by
  simp [CPUCodeGen.load_pattern, TC_ASSERT, c_index, c_mod, hgs, hsw, bind, Except.bind, pure,
    Except.pure]

theorem load_pattern_eight (g : CPUCodeGen) (v : String) (orig : Address) (o0 o1 : Int)
    (rest : List Int) (ns : Bool) (hgs : g.group_size = 8) (hsw : g.simd_width ≠ 0) :
    g.load_pattern v orig (o0 :: o1 :: rest) ns =
      if o1 - o0 = 1 then
        if Int.tmod o0 g.simd_width = 0 then .ok (g.emit_immediate v, ns)
        else .error Fatal.assertion
      else if o1 - o0 = 0 then
        match g.get_vectorized_address orig 0 with
        | .ok a => .ok (g.emit_code ("auto " ++ v ++ " = _mm256_broadcast_ss(" ++ a ++ ");"), false)
        | .error e => .error e
      else .error Fatal.assertion := by
  simp only [CPUCodeGen.load_pattern, TC_ASSERT, c_index, c_mod, hgs, hsw, bind, Except.bind, pure,
    Except.pure, List.get?]
  simp only [show ¬ ((8 : Int) = 2) by decide, show ¬ ((8 : Int) = 4) by decide, if_false,
    show ((8 : Int) ≤ 8) by decide, decide_True, if_true, beq_iff_eq]
  by_cases h1 : o1 - o0 = 1
  · by_cases hc : Int.tmod o0 g.simd_width = 0 <;> simp [h1, hc]
  · by_cases h2 : o1 - o0 = 0
    · simp only [h1, h2, if_true, if_false]
      cases g.get_vectorized_address orig 0 <;> rfl
    · simp [h1, h2]

/-- The generator after the aligned load and the plain definition of the
node variable. -/
theorem after_load_immediate (g : CPUCodeGen) (addr : Address) (a : String) :
    (g.create_variable.2.with_aligned_load addr g.create_variable.1 a).emit_immediate
        g.create_variable.1 =
      { g with
        var_count := g.var_count + 1
        code := g.code ++ g.prefetch_code (addr.align_down g.simd_width) ++
          ["auto " ++ g.create_variable.1 ++ "_immediate = " ++ g.load_instr ++ "(" ++ a ++ ");" ++
              g.code_suffix,
            "auto " ++ g.create_variable.1 ++ " = " ++ g.create_variable.1 ++ "_immediate;" ++
              g.code_suffix] } := by
  have e : g.create_variable.2.prefetch_code (addr.align_down g.simd_width) =
      g.prefetch_code (addr.align_down g.simd_width) := rfl
  simp only [CPUCodeGen.with_aligned_load, CPUCodeGen.emit_immediate, CPUCodeGen.emit_code]
  rw [show g.create_variable.2.simd_width = g.simd_width from rfl, e]
  simp [CPUCodeGen.create_variable, CPUCodeGen.load_instr]

/-- The generator after the aligned load and one shuffle with the immediate
`imm`. -/
theorem after_load_shuffle (g : CPUCodeGen) (addr : Address) (a imm : String) :
    (g.create_variable.2.with_aligned_load addr g.create_variable.1 a).emit_shuffle
        g.create_variable.1 imm =
      { g with
        var_count := g.var_count + 1
        code := g.code ++ g.prefetch_code (addr.align_down g.simd_width) ++
          ["auto " ++ g.create_variable.1 ++ "_immediate = " ++ g.load_instr ++ "(" ++ a ++ ");" ++
              g.code_suffix,
            "auto " ++ g.create_variable.1 ++ " = _mm256_shuffle_ps(" ++ g.create_variable.1 ++
              "_immediate, " ++ g.create_variable.1 ++ "_immediate, " ++ imm ++ ");" ++
              g.code_suffix] } := by
  have e : g.create_variable.2.prefetch_code (addr.align_down g.simd_width) =
      g.prefetch_code (addr.align_down g.simd_width) := rfl
  simp only [CPUCodeGen.with_aligned_load, CPUCodeGen.emit_shuffle, CPUCodeGen.emit_code]
  rw [show g.create_variable.2.simd_width = g.simd_width from rfl, e]
  simp [CPUCodeGen.create_variable, CPUCodeGen.load_instr]

theorem load_instr_eight (g : CPUCodeGen) (hsw : g.simd_width = 8) :
    g.load_instr = "_mm256_load_ps" := by
  simp [CPUCodeGen.load_instr, hsw]

/-- The generator after the aligned load and the broadcast from the address
text `b`. -/
theorem after_load_broadcast (g : CPUCodeGen) (addr : Address) (a b : String) :
    (g.create_variable.2.with_aligned_load addr g.create_variable.1 a).emit_code
        ("auto " ++ g.create_variable.1 ++ " = _mm256_broadcast_ss(" ++ b ++ ");") =
      { g with
        var_count := g.var_count + 1
        code := g.code ++ g.prefetch_code (addr.align_down g.simd_width) ++
          ["auto " ++ g.create_variable.1 ++ "_immediate = " ++ g.load_instr ++ "(" ++ a ++ ");" ++
              g.code_suffix,
            "auto " ++ g.create_variable.1 ++ " = _mm256_broadcast_ss(" ++ b ++ ");" ++
              g.code_suffix] } := by
  have e : g.create_variable.2.prefetch_code (addr.align_down g.simd_width) =
      g.prefetch_code (addr.align_down g.simd_width) := rfl
  simp only [CPUCodeGen.with_aligned_load, CPUCodeGen.emit_code]
  rw [show g.create_variable.2.simd_width = g.simd_width from rfl, e]
  simp [CPUCodeGen.create_variable, CPUCodeGen.load_instr]

/-- A failing emission makes the visit of a node without a name fail. -/
theorem visit_error_of_emit_error (g : CPUCodeGen) (h : Heap) (expr : Nat)
    (htype : (h expr).type ≠ NodeType.addr) (hname : (h expr).var_name = "")
    (hfail : ∃ f, g.create_variable.2.visit_emit (h.set_var_name expr g.create_variable.1)
      (h.set_var_name expr g.create_variable.1 expr) g.create_variable.1 = .error f) :
    ∃ f, g.visit h expr = .error f := by
  by_cases hvec : (h expr).is_vectorized = true
  swap
  · exact ⟨Fatal.assertion, by simp [CPUCodeGen.visit, TC_ASSERT, hvec, bind, Except.bind]⟩
  by_cases hsize : (h expr).members.length = 0 ∨ ((h expr).members.length : Int) = g.group_size
  swap
  · refine ⟨Fatal.assertion, ?_⟩
    have e : ((h expr).members.length == 0 ||
        ((h expr).members.length : Int) == g.group_size) = false := by
      rw [not_or] at hsize
      simp [hsize.1, hsize.2]
    unfold CPUCodeGen.visit
    simp only [TC_ASSERT, hvec, e, if_true, bind, Except.bind]
    rfl
  obtain ⟨f, hf⟩ := hfail
  exact ⟨f, by rw [visit_fresh g h expr hvec hsize htype hname, hf]; rfl⟩

/-- A failing load branch makes the visit of a load node without a name fail,
in either mode. -/
theorem visit_error_of_load_error (g : CPUCodeGen) (h : Heap) (expr : Nat)
    (htype : (h expr).type = NodeType.load) (hname : (h expr).var_name = "")
    (hfail : g.mode = Mode.vector → ∃ f, g.create_variable.2.visit_load
      ((h expr).members.map fun m => (h m).addr) (h expr).addr g.create_variable.1 = .error f) :
    ∃ f, g.visit h expr = .error f := by
  apply visit_error_of_emit_error g h expr (by rw [htype]; decide) hname
  have ht : (h.set_var_name expr g.create_variable.1 expr).type = NodeType.load := by
    rw [set_var_name_type]; exact htype
  by_cases hmode : g.mode = Mode.vector
  · obtain ⟨f, hf⟩ := hfail hmode
    refine ⟨f, ?_⟩
    have hmap : List.map (fun m => (h.set_var_name expr g.create_variable.1 m).addr)
        (h expr).members = List.map (fun m => (h m).addr) (h expr).members := by
      apply List.map_congr_left
      intro m _
      exact set_var_name_addr h expr _ m
    rw [visit_emit_load g.create_variable.2 _ _ _ ht hmode, set_var_name_members,
      set_var_name_addr, hmap, hf]
  · refine ⟨Fatal.not_implemented, ?_⟩
    have hm : g.create_variable.2.mode = g.mode := rfl
    simp [CPUCodeGen.visit_emit, CPUCodeGen.find_binary_op, ht, hm, hmode]

/-- If the pattern detection fails for the offsets of the members whatever the
buffer and the shuffle mark are, the load branch fails for every group size
other than one. -/
theorem visit_load_error_of_pattern_error (g : CPUCodeGen) (addrs : List Address)
    (addr : Address) (v : String) (hgs : g.group_size ≠ 1)
    (hfail : ∀ (g' : CPUCodeGen) (ns : Bool), g'.group_size = g.group_size →
      g'.simd_width = g.simd_width →
      ∃ f, g'.load_pattern v addr (addrs.map Address.offset) ns = .error f) :
    ∃ f, g.visit_load addrs addr v = .error f := by
  rcases visit_load_error_or g addrs addr v with he | ⟨a, hst, hng, hsw, -, ha⟩
  · exact he
  · obtain ⟨f, hf⟩ := hfail (g.with_aligned_load addr v a)
      (Int.tmod addr.coeff_const g.simd_width != 0) rfl rfl
    exact ⟨f, by rw [visit_load_eq g addrs addr v a hst hng hsw ha, if_neg hgs, hf]⟩

theorem load_pattern_zero_width (g : CPUCodeGen) (v : String) (orig : Address)
    (offsets : List Int) (ns : Bool) (hsw : g.simd_width = 0) :
    ∃ f, g.load_pattern v orig offsets ns = .error f := by
  unfold CPUCodeGen.load_pattern
  by_cases h8 : g.group_size ≤ 8
  · cases offsets with
    | nil => exact ⟨Fatal.undefined, by simp [TC_ASSERT, h8, c_index, bind, Except.bind]⟩
    | cons o0 tl =>
      exact ⟨Fatal.undefined, by simp [TC_ASSERT, h8, c_index, c_mod, hsw, bind, Except.bind]⟩
  · exact ⟨Fatal.assertion, by simp [TC_ASSERT, h8, bind, Except.bind]⟩

theorem load_pattern_other (g : CPUCodeGen) (v : String) (orig : Address)
    (offsets : List Int) (ns : Bool) (h2 : g.group_size ≠ 2) (h4 : g.group_size ≠ 4)
    (h8 : g.group_size ≠ 8) :
    ∃ f, g.load_pattern v orig offsets ns = .error f := by
  by_cases hsw : g.simd_width = 0
  · exact load_pattern_zero_width g v orig offsets ns hsw
  unfold CPUCodeGen.load_pattern
  by_cases hle : g.group_size ≤ 8
  · cases offsets with
    | nil => exact ⟨Fatal.undefined, by simp [TC_ASSERT, hle, c_index, bind, Except.bind]⟩
    | cons o0 tl =>
      cases tl with
      | nil =>
        exact ⟨Fatal.undefined,
          by simp [TC_ASSERT, hle, c_index, c_mod, hsw, bind, Except.bind]⟩
      | cons o1 rest =>
        exact ⟨Fatal.not_implemented,
          by simp [TC_ASSERT, hle, c_index, c_mod, hsw, h2, h4, h8, bind, Except.bind]⟩
  · exact ⟨Fatal.assertion, by simp [TC_ASSERT, hle, bind, Except.bind]⟩

theorem body_line_append (s t : String) (hs : body_line s) : body_line (s ++ t) := by
  obtain ⟨c, rest, hd, hc⟩ := hs
  exact ⟨c, rest ++ t.data, by rw [String.data_append, hd]; rfl, hc⟩

theorem body_line_auto : body_line "auto " := ⟨'a', _, rfl, Or.inl rfl⟩

theorem body_line_prefetch : body_line "if (loop_index == 0) _mm_prefetch(" :=
  ⟨'i', _, rfl, Or.inr (Or.inr rfl)⟩

theorem body_line_cache_store : body_line "_mm256_store_ps(&" :=
  ⟨'_', _, rfl, Or.inr (Or.inl rfl)⟩

theorem body_line_store_instr (w : Int) :
    body_line (if w = 8 then "_mm256_store_ps" else "_mm512_store_ps") := by
  split
  · exact ⟨'_', _, rfl, Or.inr (Or.inl rfl)⟩
  · exact ⟨'_', _, rfl, Or.inr (Or.inl rfl)⟩

theorem emits_refl (g : CPUCodeGen) : g.emits g [] := by
  constructor
  · simp
  · intro l hl; cases hl

theorem emits_trans (g g1 g2 : CPUCodeGen) (l1 l2 : List String) (h1 : g.emits g1 l1)
    (h2 : g1.emits g2 l2) : g.emits g2 (l1 ++ l2) := by
  obtain ⟨e1, b1⟩ := h1
  obtain ⟨e2, b2⟩ := h2
  constructor
  · rw [e2, e1]
    simp
  · intro l hl
    rcases List.mem_append.mp hl with h | h
    · exact b1 l h
    · exact b2 l h

theorem emits_emit_code (g : CPUCodeGen) (s : String) (hs : body_line s) :
    g.emits (g.emit_code s) [s ++ g.code_suffix] := by
  constructor
  · simp [CPUCodeGen.emit_code]
  · intro l hl
    rw [List.mem_singleton.mp hl]
    exact body_line_append _ _ hs

theorem emits_create_variable (g : CPUCodeGen) : g.emits g.create_variable.2 [] := by
  constructor
  · simp [CPUCodeGen.create_variable]
  · intro l hl; cases hl

theorem emits_emit_immediate (g : CPUCodeGen) (v : String) :
    ∃ lines, g.emits (g.emit_immediate v) lines :=
  ⟨_, emits_emit_code g _
    (by repeat (first | exact body_line_auto | apply body_line_append))⟩

theorem emits_emit_shuffle (g : CPUCodeGen) (v imm : String) :
    ∃ lines, g.emits (g.emit_shuffle v imm) lines :=
  ⟨_, emits_emit_code g _
    (by repeat (first | exact body_line_auto | apply body_line_append))⟩

theorem emits_with_aligned_load (g : CPUCodeGen) (addr : Address) (v a : String) :
    ∃ lines, g.emits (g.with_aligned_load addr v a) lines := by
  refine ⟨g.prefetch_code (addr.align_down g.simd_width) ++
    ["auto " ++ v ++ "_immediate = " ++ g.load_instr ++ "(" ++ a ++ ");" ++ g.code_suffix],
    ⟨by simp [CPUCodeGen.with_aligned_load], ?_⟩⟩
  intro l hl
  rcases List.mem_append.mp hl with hp | hp
  · unfold CPUCodeGen.prefetch_code at hp
    split at hp
    · cases hp
    · split at hp
      · rw [List.mem_singleton.mp hp]
        repeat (first | exact body_line_prefetch | apply body_line_append)
      · cases hp
  · rw [List.mem_singleton.mp hp]
    repeat (first | exact body_line_auto | apply body_line_append)

theorem load_pattern_emits (g : CPUCodeGen) (v : String) (orig : Address)
    (offsets : List Int) (ns : Bool) (r : CPUCodeGen × Bool)
    (hr : g.load_pattern v orig offsets ns = .ok r) : ∃ lines, g.emits r.1 lines := by
  by_cases hsw : g.simd_width = 0
  · obtain ⟨f, hf⟩ := load_pattern_zero_width g v orig offsets ns hsw
    rw [hf] at hr; cases hr
  by_cases h2 : g.group_size = 2
  · cases offsets with
    | nil => simp [CPUCodeGen.load_pattern, TC_ASSERT, c_index, bind, Except.bind] at hr
             split at hr <;> cases hr
    | cons o0 tl =>
      cases tl with
      | nil =>
        simp [CPUCodeGen.load_pattern, TC_ASSERT, c_index, c_mod, hsw, bind, Except.bind] at hr
        split at hr <;> cases hr
      | cons o1 rest =>
        rw [load_pattern_two g v orig o0 o1 rest ns h2 hsw] at hr
        split_ifs at hr <;> cases hr
        · exact emits_emit_immediate g v
        · exact emits_emit_shuffle g v _
        · exact emits_emit_shuffle g v _
  by_cases h4 : g.group_size = 4
  · cases offsets with
    | nil => simp [CPUCodeGen.load_pattern, TC_ASSERT, c_index, bind, Except.bind] at hr
             split at hr <;> cases hr
    | cons o0 tl =>
      cases tl with
      | nil =>
        simp [CPUCodeGen.load_pattern, TC_ASSERT, c_index, c_mod, hsw, bind, Except.bind] at hr
        split at hr <;> cases hr
      | cons o1 rest =>
        rw [load_pattern_four g v orig o0 o1 rest ns h4 hsw] at hr
        split_ifs at hr <;> cases hr
        · exact emits_emit_immediate g v
        · exact emits_emit_shuffle g v _
        · exact emits_emit_shuffle g v _
        · exact emits_emit_shuffle g v _
        · exact emits_emit_shuffle g v _
  by_cases h8 : g.group_size = 8
  · cases offsets with
    | nil => simp [CPUCodeGen.load_pattern, TC_ASSERT, c_index, bind, Except.bind] at hr
             split at hr <;> cases hr
    | cons o0 tl =>
      cases tl with
      | nil =>
        simp [CPUCodeGen.load_pattern, TC_ASSERT, c_index, c_mod, hsw, bind, Except.bind] at hr
        split at hr <;> cases hr
      | cons o1 rest =>
        rw [load_pattern_eight g v orig o0 o1 rest ns h8 hsw] at hr
        by_cases hi1 : o1 - o0 = 1
        · rw [if_pos hi1] at hr
          split_ifs at hr
          cases hr
          exact emits_emit_immediate g v
        · rw [if_neg hi1] at hr
          by_cases hi0 : o1 - o0 = 0
          · rw [if_pos hi0] at hr
            cases ha : g.get_vectorized_address orig 0 with
            | error e => rw [ha] at hr; cases hr
            | ok a =>
              rw [ha] at hr
              cases hr
              exact ⟨_, emits_emit_code g _
                (by repeat (first | exact body_line_auto | apply body_line_append))⟩
          · rw [if_neg hi0] at hr
            cases hr
  · obtain ⟨f, hf⟩ := load_pattern_other g v orig offsets ns h2 h4 h8
    rw [hf] at hr; cases hr

theorem visit_load_emits (g : CPUCodeGen) (addrs : List Address) (addr : Address)
    (v : String) (g' : CPUCodeGen) (hr : g.visit_load addrs addr v = .ok g') :
    ∃ lines, g.emits g' lines := by
  rcases visit_load_error_or g addrs addr v with ⟨f, hf⟩ | ⟨a, hst, hng, hsw, -, ha⟩
  · rw [hf] at hr; cases hr
  · rw [visit_load_eq g addrs addr v a hst hng hsw ha] at hr
    obtain ⟨l1, e1⟩ := emits_with_aligned_load g addr v a
    split at hr
    · cases hr
      obtain ⟨l2, e2⟩ := emits_emit_immediate (g.with_aligned_load addr v a) v
      exact ⟨_, emits_trans _ _ _ _ _ e1 e2⟩
    · split at hr
      · rename_i r hp
        split at hr
        · cases hr
          obtain ⟨l2, e2⟩ := load_pattern_emits _ _ _ _ _ _ hp
          exact ⟨_, emits_trans _ _ _ _ _ e1 e2⟩
        · cases hr
      · cases hr

theorem emit_scalar_binary_emits (h : Heap) (node : Node) (v op : String) (n : Nat) :
    ∀ (g : CPUCodeGen) (i : Int) (g' : CPUCodeGen),
      g.emit_scalar_binary h node v op i n = .ok g' → ∃ lines, g.emits g' lines := by
  induction n with
  | zero =>
    intro g i g' hr
    simp [CPUCodeGen.emit_scalar_binary, pure, Except.pure] at hr
    subst hr
    exact ⟨_, emits_refl g⟩
  | succ n ih =>
    intro g i g' hr
    unfold CPUCodeGen.emit_scalar_binary at hr
    cases h0 : c_index node.ch 0 with
    | error e => simp [h0, bind, Except.bind] at hr
    | ok c0 =>
      cases h1 : c_index node.ch 1 with
      | error e => simp [h0, h1, bind, Except.bind] at hr
      | ok c1 =>
        simp only [h0, h1, bind, Except.bind] at hr
        obtain ⟨l2, e2⟩ := ih _ _ _ hr
        exact ⟨_, emits_trans _ _ _ _ _ (emits_emit_code g _
          (by repeat (first | exact body_line_auto | apply body_line_append))) e2⟩

theorem visit_emit_emits (g : CPUCodeGen) (h : Heap) (node : Node) (v : String)
    (g' : CPUCodeGen) (hr : g.visit_emit h node v = .ok g') : ∃ lines, g.emits g' lines := by
  unfold CPUCodeGen.visit_emit at hr
  split at hr
  · split at hr
    · cases h0 : c_index node.ch 0 with
      | error e => simp [h0, bind, Except.bind] at hr
      | ok c0 =>
        cases h1 : c_index node.ch 1 with
        | error e => simp [h0, h1, bind, Except.bind] at hr
        | ok c1 =>
          simp only [h0, h1, bind, Except.bind, pure, Except.pure] at hr
          cases hr
          exact ⟨_, emits_emit_code g _
            (by repeat (first | exact body_line_auto | apply body_line_append))⟩
    · exact emit_scalar_binary_emits h node v _ _ g 0 g' hr
  · have hc : get_cache_name 0 = .ok ("cache" ++ fmt_0d 4 0) := rfl
    by_cases t1 : node.type = NodeType.cache_load
    · rw [if_pos t1] at hr
      simp only [hc, bind, Except.bind, pure, Except.pure] at hr
      cases hr
      exact ⟨_, emits_emit_code g _
        (by repeat (first | exact body_line_auto | apply body_line_append))⟩
    rw [if_neg t1] at hr
    by_cases t2 : node.type = NodeType.load
    · rw [if_pos t2] at hr
      by_cases hm : g.mode = Mode.vector
      · rw [if_pos hm] at hr
        exact visit_load_emits g _ _ v g' hr
      · rw [if_neg hm] at hr
        cases hr
    rw [if_neg t2] at hr
    by_cases t3 : node.type = NodeType.cache_store
    · rw [if_pos t3] at hr
      cases h0 : c_index node.ch 0 with
      | error e => simp [hc, h0, bind, Except.bind] at hr
      | ok c0 =>
        simp only [hc, h0, bind, Except.bind, pure, Except.pure] at hr
        cases hr
        exact ⟨_, emits_emit_code g _
          (by repeat (first | exact body_line_cache_store | apply body_line_append))⟩
    rw [if_neg t3] at hr
    by_cases t4 : node.type = NodeType.store
    · rw [if_pos t4] at hr
      by_cases hm : g.mode = Mode.vector
      · rw [if_pos hm] at hr
        cases ha : g.get_vectorized_address node.addr 0 with
        | error e => simp [ha, bind, Except.bind] at hr
        | ok a =>
          cases h1 : c_index node.ch 1 with
          | error e => simp [ha, h1, bind, Except.bind] at hr
          | ok c1 =>
            simp only [ha, h1, bind, Except.bind, pure, Except.pure] at hr
            cases hr
            exact ⟨_, emits_emit_code g _
              (by repeat (first | exact body_line_store_instr _ | apply body_line_append))⟩
      · rw [if_neg hm] at hr
        cases hr
    rw [if_neg t4] at hr
    by_cases t5 : node.type = NodeType.combine
    · rw [if_pos t5] at hr
      cases hr
      exact ⟨_, emits_refl g⟩
    rw [if_neg t5] at hr
    by_cases t6 : node.type = NodeType.imm
    · rw [if_pos t6] at hr
      cases hr
      exact ⟨_, emits_refl g⟩
    rw [if_neg t6] at hr
    by_cases t7 : node.type = NodeType.index
    · rw [if_pos t7] at hr
      cases hr
      exact ⟨_, emits_refl g⟩
    rw [if_neg t7] at hr
    by_cases t8 : node.type = NodeType.pointer
    · rw [if_pos t8] at hr
      cases hr
      exact ⟨_, emits_refl g⟩
    rw [if_neg t8] at hr
    cases hr

/-- A node that is an `addr` node or already has a name: `visit` changes
nothing. -/
theorem visit_noop (g : CPUCodeGen) (h : Heap) (expr : Nat)
    (hvec : (h expr).is_vectorized = true)
    (hsize : (h expr).members.length = 0 ∨ ((h expr).members.length : Int) = g.group_size)
    (hdone : (h expr).type = NodeType.addr ∨ (h expr).var_name ≠ "") :
    g.visit h expr = .ok (g, h) := by
  unfold CPUCodeGen.visit
  simp only [hvec, size_guard g (h expr) hsize, TC_ASSERT, if_true, bind, Except.bind, pure,
    Except.pure]
  by_cases htype : (h expr).type = NodeType.addr
  · rw [if_pos htype]
  · rw [if_neg htype]
    rcases hdone with hd | hd
    · exact absurd hd htype
    · rw [if_neg hd]

theorem create_variable_ne_empty (g : CPUCodeGen) : g.create_variable.1 ≠ "" := by
  intro he
  have hd := congrArg String.data he
  simp [CPUCodeGen.create_variable, String.data_append] at hd

/-- A successful `visit` only appends statements and allocates temporaries,
and it changes at most the `var_name` of the visited node, which it sets when
the node had none. -/
theorem visit_emits (g : CPUCodeGen) (h : Heap) (expr : Nat) (g' : CPUCodeGen) (h' : Heap)
    (hr : g.visit h expr = .ok (g', h')) :
    (∃ lines, g.emits g' lines) ∧
      ((((h expr).type = NodeType.addr ∨ (h expr).var_name ≠ "") ∧ h' = h ∧ g' = g) ∨
        ((h expr).var_name = "" ∧ (h expr).type ≠ NodeType.addr ∧
          h' = h.set_var_name expr g.create_variable.1)) ∧
      (h expr).is_vectorized = true ∧
      ((h expr).members.length = 0 ∨ ((h expr).members.length : Int) = g.group_size) := by
  by_cases hvec : (h expr).is_vectorized = true
  swap
  · simp [CPUCodeGen.visit, TC_ASSERT, hvec, bind, Except.bind] at hr
  by_cases hsize : (h expr).members.length = 0 ∨ ((h expr).members.length : Int) = g.group_size
  swap
  · have e : ((h expr).members.length == 0 ||
        ((h expr).members.length : Int) == g.group_size) = false := by
      rw [not_or] at hsize
      simp [hsize.1, hsize.2]
    unfold CPUCodeGen.visit at hr
    simp only [TC_ASSERT, hvec, e, if_true, bind, Except.bind] at hr
    cases hr
  refine ⟨?_, ?_, hvec, hsize⟩
  · by_cases hdone : (h expr).type = NodeType.addr ∨ (h expr).var_name ≠ ""
    · rw [visit_noop g h expr hvec hsize hdone] at hr
      cases hr
      exact ⟨_, emits_refl g⟩
    · rw [not_or, not_not] at hdone
      rw [visit_fresh g h expr hvec hsize hdone.1 hdone.2] at hr
      cases he : g.create_variable.2.visit_emit (h.set_var_name expr g.create_variable.1)
          (h.set_var_name expr g.create_variable.1 expr) g.create_variable.1 with
      | error e => rw [he] at hr; cases hr
      | ok g2 =>
        rw [he] at hr
        cases hr
        obtain ⟨l2, e2⟩ := visit_emit_emits _ _ _ _ _ he
        exact ⟨_, emits_trans _ _ _ _ _ (emits_create_variable g) e2⟩
  · by_cases hdone : (h expr).type = NodeType.addr ∨ (h expr).var_name ≠ ""
    · rw [visit_noop g h expr hvec hsize hdone] at hr
      cases hr
      exact Or.inl ⟨hdone, rfl, rfl⟩
    · rw [not_or, not_not] at hdone
      rw [visit_fresh g h expr hvec hsize hdone.1 hdone.2] at hr
      cases he : g.create_variable.2.visit_emit (h.set_var_name expr g.create_variable.1)
          (h.set_var_name expr g.create_variable.1 expr) g.create_variable.1 with
      | error e => rw [he] at hr; cases hr
      | ok g2 =>
        rw [he] at hr
        cases hr
        exact Or.inr ⟨hdone.2, hdone.1, rfl⟩

theorem emits_group_size (g g' : CPUCodeGen) (lines : List String) (he : g.emits g' lines) :
    g'.group_size = g.group_size := by
  rw [he.1]

theorem accept_children_emits (fuel : Nat)
    (ih : ∀ (g : CPUCodeGen) (h : Heap) (e : Nat) (g' : CPUCodeGen) (h' : Heap),
      g.accept fuel h e = .ok (g', h') → ∃ lines, g.emits g' lines) :
    ∀ (cs : List Nat) (g : CPUCodeGen) (h : Heap) (g' : CPUCodeGen) (h' : Heap),
      cs.foldlM (fun (s : CPUCodeGen × Heap) c => s.1.accept fuel s.2 c) (g, h) = .ok (g', h') →
      ∃ lines, g.emits g' lines := by
  intro cs
  induction cs with
  | nil =>
    intro g h g' h' hr
    simp [List.foldlM, pure, Except.pure] at hr
    rw [← hr.1]
    exact ⟨_, emits_refl g⟩
  | cons c cs ihc =>
    intro g h g' h' hr
    rw [List.foldlM_cons] at hr
    cases hc : g.accept fuel h c with
    | error e => simp [hc, bind, Except.bind] at hr
    | ok r =>
      obtain ⟨g1, h1⟩ := r
      simp only [hc, bind, Except.bind] at hr
      obtain ⟨l1, e1⟩ := ih g h c g1 h1 hc
      obtain ⟨l2, e2⟩ := ihc g1 h1 g' h' hr
      exact ⟨_, emits_trans _ _ _ _ _ e1 e2⟩

/-- A successful traversal only appends statements and allocates
temporaries. -/
theorem accept_emits (fuel : Nat) :
    ∀ (g : CPUCodeGen) (h : Heap) (e : Nat) (g' : CPUCodeGen) (h' : Heap),
      g.accept fuel h e = .ok (g', h') → ∃ lines, g.emits g' lines := by
  induction fuel with
  | zero =>
    intro g h e g' h' hr
    simp [CPUCodeGen.accept] at hr
  | succ fuel ih =>
    intro g h e g' h' hr
    unfold CPUCodeGen.accept at hr
    cases hc : (h e).ch.foldlM (fun (s : CPUCodeGen × Heap) c => s.1.accept fuel s.2 c) (g, h) with
    | error f => simp [hc, bind, Except.bind] at hr
    | ok r =>
      obtain ⟨g1, h1⟩ := r
      simp only [hc, bind, Except.bind] at hr
      obtain ⟨l1, e1⟩ := accept_children_emits fuel ih _ g h g1 h1 hc
      obtain ⟨⟨l2, e2⟩, -⟩ := visit_emits g1 h1 e g' h' hr
      exact ⟨_, emits_trans _ _ _ _ _ e1 e2⟩

theorem end_macro_loop_one (g : CPUCodeGen) :
    g.end_macro_loop 1 =
      { g with
        code_suffix := "\n"
        code := g.code ++ ["\x7d\n\n", "LOOP(0);\n", "#undef LOOP\n\n"] } := by
  simp [CPUCodeGen.end_macro_loop, CPUCodeGen.emit_loop_calls, CPUCodeGen.emit_code]
  decide

theorem end_macro_loop_eight (g : CPUCodeGen) :
    g.end_macro_loop 8 =
      { g with
        code_suffix := "\n"
        code := g.code ++ ["\x7d\n\n", "LOOP(0);\n", "LOOP(1);\n", "LOOP(2);\n", "LOOP(3);\n",
          "LOOP(4);\n", "LOOP(5);\n", "LOOP(6);\n", "LOOP(7);\n", "#undef LOOP\n\n"] } := by
  simp [CPUCodeGen.end_macro_loop, CPUCodeGen.emit_loop_calls, CPUCodeGen.emit_code]
  decide

/-- One macro block: the generator after `start_macro_loop`, a successful
traversal and `end_macro_loop`. -/
theorem macro_block_emitted (g g3 : CPUCodeGen) (fuel : Nat) (h2 h3 : Heap) (v : Nat)
    (hr : g.start_macro_loop.accept fuel h2 v = .ok (g3, h3)) :
    ∃ body, g3.code = g.start_macro_loop.code ++ body ∧ (∀ l ∈ body, body_line l) ∧
      g3.num_groups = g.num_groups ∧ g3.unroll = g.unroll ∧ g3.simd_width = g.simd_width ∧
      (g3.end_macro_loop 1).code =
        g.code ++ macro_block body ["LOOP(0);\n"] ∧
      (g3.end_macro_loop 8).code =
        g.code ++ macro_block body ["LOOP(0);\n", "LOOP(1);\n", "LOOP(2);\n", "LOOP(3);\n",
          "LOOP(4);\n", "LOOP(5);\n", "LOOP(6);\n", "LOOP(7);\n"] := by
  obtain ⟨body, he, hb⟩ := accept_emits fuel _ _ _ _ _ hr
  have hc : g3.code = g.start_macro_loop.code ++ body := by rw [he]
  refine ⟨body, hc, hb, by rw [he]; rfl, by rw [he]; rfl, by rw [he]; rfl, ?_, ?_⟩
  · rw [end_macro_loop_one]
    simp [hc, CPUCodeGen.start_macro_loop, CPUCodeGen.emit_code, macro_block]
  · rw [end_macro_loop_eight]
    simp [hc, CPUCodeGen.start_macro_loop, CPUCodeGen.emit_code, macro_block]

/-- The loop over the caches emits one macro block per cache, in order, each
invoked once. -/
theorem codegen_caches_code (run : VectorizerRun) (fuel : Nat) :
    ∀ (caches : List Cache) (g : CPUCodeGen) (h : Heap) (g' : CPUCodeGen) (h' : Heap),
      g.codegen_caches run fuel h caches = .ok (g', h') →
      ∃ bodies : List (List String),
        List.Forall₂ (fun (cache : Cache) body => is_body_of run fuel 1 cache.stores body)
          caches bodies ∧
        (∀ body ∈ bodies, ∀ l ∈ body, body_line l) ∧
        g'.code = g.code ++ (bodies.map fun body => macro_block body ["LOOP(0);\n"]).flatten ∧
        g'.num_groups = g.num_groups ∧ g'.unroll = g.unroll ∧ g'.simd_width = g.simd_width := by
  intro caches
  induction caches with
  | nil =>
    intro g h g' h' hr
    simp [CPUCodeGen.codegen_caches, pure, Except.pure] at hr
    rw [← hr.1]
    exact ⟨[], List.Forall₂.nil, by simp, by simp, rfl, rfl, rfl⟩
  | cons cache rest ih =>
    intro g h g' h' hr
    unfold CPUCodeGen.codegen_caches at hr
    cases hv : run g.simd_width h cache.stores 1 with
    | error f => simp [hv, bind, Except.bind] at hr
    | ok r =>
      obtain ⟨h2, v⟩ := r
      simp only [hv, bind, Except.bind] at hr
      cases ha : CPUCodeGen.accept fuel
          (CPUCodeGen.start_macro_loop { g with group_size := 1 }) h2 v with
      | error f => simp [ha] at hr
      | ok r =>
        obtain ⟨g3, h3⟩ := r
        simp only [ha] at hr
        obtain ⟨body, hc, hb, hn, hu, hs, hone, -⟩ := macro_block_emitted _ g3 fuel h2 h3 v ha
        obtain ⟨bodies, hf, hbs, hcode, hn', hu', hs'⟩ := ih _ _ _ _ hr
        refine ⟨body :: bodies, List.Forall₂.cons ?_ hf, ?_, ?_, ?_, ?_, ?_⟩
        · exact ⟨{ g with group_size := 1 }, h, h2, v, g3, h3, rfl, hv, ha, hc⟩
        · intro b hb'
          rcases List.mem_cons.mp hb' with e | e
          · rw [e]; exact hb
          · exact hbs b e
        · rw [hcode, hone]
          simp
        · rw [hn', show (g3.end_macro_loop 1).num_groups = g3.num_groups from rfl, hn]
        · rw [hu', show (g3.end_macro_loop 1).unroll = g3.unroll from rfl, hu]
        · rw [hs', show (g3.end_macro_loop 1).simd_width = g3.simd_width from rfl, hs]

theorem except_bind_ok {ε α β : Type} (x : Except ε α) (f : α → Except ε β) (b : β)
    (h : (x >>= f) = .ok b) : ∃ a, x = .ok a ∧ f a = .ok b := by
  cases x with
  | error e => cases h
  | ok a => exact ⟨a, rfl, h⟩

theorem generate_header_ok (g g1 : CPUCodeGen) (hr : g.generate_header = .ok g1) :
    g.mode = Mode.vector ∧ g.group_size ≠ 0 ∧
      g1 = { g with
        num_groups := Int.tdiv g.simd_width g.group_size
        code := g.code ++
          ["#include <common.h>\n using namespace taichi; using namespace Tlang;" ++
              g.code_suffix,
            "extern \"C\" void " ++ g.func_name ++ "(Context context) \x7b\n" ++ g.code_suffix,
            "auto n = context.get_range(0);\n" ++ g.code_suffix,
            "for (int i = 0, g = 0; i < n; ) \x7b\n" ++ g.code_suffix] } := by
  unfold CPUCodeGen.generate_header at hr
  by_cases hm : g.mode = Mode.vector
  swap
  · simp [TC_ASSERT, hm, bind, Except.bind] at hr
  by_cases hg : g.group_size = 0
  · simp [TC_ASSERT, hm, hg, bind, Except.bind] at hr
  · simp only [TC_ASSERT, hm, hg, c_div, bind, Except.bind, pure, Except.pure, beq_self_eq_true,
      if_true, if_false, bne_iff_ne, ne_eq, not_false_eq_true, decide_True] at hr
    cases hr
    refine ⟨hm, hg, ?_⟩
    simp [CPUCodeGen.emit_code, hm]

theorem except_ok_of_isSome {ε α : Type} (x : Except ε α) (h : x.toOption.isSome = true) :
    ∃ r, x = .ok r := by
  cases x with
  | error e => cases h
  | ok a => exact ⟨a, rfl⟩

/-- The source emitted by a successful `codegen`: the header, the cache
declaration, one macro block per cache invoked once, the main macro block
invoked eight times, and the tail. -/
theorem codegen_code (run : VectorizerRun) (fuel : Nat) (g : CPUCodeGen) (h : Heap)
    (prog : Program) (group_size : Int) (g' : CPUCodeGen) (h' : Heap)
    (hr : g.codegen run fuel h prog group_size = .ok (g', h')) :
    ∃ (bodies : List (List String)) (main : List String) (ret : Nat),
      prog.ret = some ret ∧
      List.Forall₂ (fun (cache : Cache) body => is_body_of run fuel 1 cache.stores body)
        prog.caches bodies ∧
      is_body_of run fuel group_size ret main ∧
      (∀ body ∈ bodies, ∀ l ∈ body, body_line l) ∧ (∀ l ∈ main, body_line l) ∧
      g'.code = g.code ++
        ["#include <common.h>\n using namespace taichi; using namespace Tlang;" ++
            g.code_suffix,
          "extern \"C\" void " ++ g.func_name ++ "(Context context) \x7b\n" ++ g.code_suffix,
          "auto n = context.get_range(0);\n" ++ g.code_suffix,
          "for (int i = 0, g = 0; i < n; ) \x7b\n" ++ g.code_suffix,
          "float32 cache0000[128];" ++ g.code_suffix] ++
        (bodies.map fun body => macro_block body ["LOOP(0);\n"]).flatten ++
        macro_block main ["LOOP(0);\n", "LOOP(1);\n", "LOOP(2);\n", "LOOP(3);\n", "LOOP(4);\n",
          "LOOP(5);\n", "LOOP(6);\n", "LOOP(7);\n"] ++
        ["i += " ++ fmt_d (Int.tdiv g.simd_width group_size * g.unroll) ++ "; g += " ++
            fmt_d g.unroll ++ ";",
          "\x7d\n\x7d\n"] := by
  unfold CPUCodeGen.codegen at hr
  obtain ⟨g1, hh, hr⟩ := except_bind_ok _ _ _ hr
  obtain ⟨-, -, e1⟩ := generate_header_ok _ _ hh
  obtain ⟨cache, hc, hr⟩ := except_bind_ok _ _ _ hr
  have hc' : cache = "cache0000" := Except.ok.inj (hc.symm.trans rfl)
  subst hc'
  obtain ⟨⟨g2, h2⟩, hcs, hr⟩ := except_bind_ok _ _ _ hr
  obtain ⟨bodies, hf, hbs, hcode, hn, hu, hs⟩ := codegen_caches_code run fuel _ _ _ _ _ hcs
  cases hret : prog.ret with
  | none => simp [hret] at hr
  | some ret =>
            simp only [hret] at hr
            obtain ⟨⟨h3, v⟩, hv, hr⟩ := except_bind_ok _ _ _ hr
            obtain ⟨⟨g4, h4⟩, ha, hr⟩ := except_bind_ok _ _ _ hr
            simp only [pure, Except.pure] at hr
            cases hr
            obtain ⟨main, hc4, hb, hn4, hu4, hs4, -, height⟩ :=
              macro_block_emitted _ g4 fuel h3 h' v ha
            refine ⟨bodies, main, ret, rfl, hf, ?_, hbs, hb, ?_⟩
            · exact ⟨{ g2 with group_size := group_size }, h2, h3, v, g4, h', rfl, hv, ha, hc4⟩
            · have hng : g4.num_groups = Int.tdiv g.simd_width group_size := by
                rw [hn4]
                show g2.num_groups = _
                rw [hn]
                show g1.num_groups = _
                rw [e1]
              have hun : g4.unroll = g.unroll := by
                rw [hu4]
                show g2.unroll = _
                rw [hu]
                show g1.unroll = _
                rw [e1]
              have hcode2 : g2.code = g.code ++
                  ["#include <common.h>\n using namespace taichi; using namespace Tlang;" ++
                      g.code_suffix,
                    "extern \"C\" void " ++ g.func_name ++ "(Context context) \x7b\n" ++
                      g.code_suffix,
                    "auto n = context.get_range(0);\n" ++ g.code_suffix,
                    "for (int i = 0, g = 0; i < n; ) \x7b\n" ++ g.code_suffix,
                    "float32 cache0000[128];" ++ g.code_suffix] ++
                  (bodies.map fun body => macro_block body ["LOOP(0);\n"]).flatten := by
                rw [hcode, e1]
                simp [CPUCodeGen.emit_code]
              simp only [CPUCodeGen.generate_tail, CPUCodeGen.emit_code]
              show (g4.end_macro_loop 8).code ++ _ ++ _ = _
              rw [height]
              show g2.code ++ _ ++ _ ++ _ = _
              rw [hcode2]
              have en : (g4.end_macro_loop 8).num_groups = g4.num_groups := rfl
              have eu : (g4.end_macro_loop 8).unroll = g4.unroll := rfl
              simp [en, eu, hng, hun]

theorem body_line_not_scaffold (l : String) (hl : body_line l) :
    l ≠ "#define LOOP(loop_index) \x7b \\\n" ∧ l ≠ "#undef LOOP\n\n" := by
  obtain ⟨c, rest, hd, hc⟩ := hl
  constructor
  · intro he
    rw [he] at hd
    have h0 := congrArg (fun l => l.head?) hd
    simp at h0
    rcases hc with e | e | e <;> rw [e] at h0 <;> revert h0 <;> decide
  · intro he
    rw [he] at hd
    have h0 := congrArg (fun l => l.head?) hd
    simp at h0
    rcases hc with e | e | e <;> rw [e] at h0 <;> revert h0 <;> decide

theorem count_body_zero (d : String)
    (hd : d = "#define LOOP(loop_index) \x7b \\\n" ∨ d = "#undef LOOP\n\n")
    (body : List String) (hb : ∀ l ∈ body, body_line l) : body.count d = 0 := by
  rw [List.count_eq_zero]
  intro hmem
  rcases hd with e | e
  · exact (body_line_not_scaffold d (hb d hmem)).1 e
  · exact (body_line_not_scaffold d (hb d hmem)).2 e

theorem count_macro_block (d : String)
    (hd : d = "#define LOOP(loop_index) \x7b \\\n" ∨ d = "#undef LOOP\n\n")
    (body calls : List String) (hb : ∀ l ∈ body, body_line l) (hc : calls.count d = 0) :
    (macro_block body calls).count d = 1 := by
  unfold macro_block
  simp only [List.count_append, count_body_zero d hd body hb, hc]
  rcases hd with e | e <;> rw [e] <;> decide

theorem count_cache_blocks (d : String)
    (hd : d = "#define LOOP(loop_index) \x7b \\\n" ∨ d = "#undef LOOP\n\n") :
    ∀ (bodies : List (List String)), (∀ body ∈ bodies, ∀ l ∈ body, body_line l) →
      ((bodies.map fun body => macro_block body ["LOOP(0);\n"]).flatten).count d =
        bodies.length := by
  intro bodies
  induction bodies with
  | nil => intro _; rfl
  | cons b bs ih =>
    intro hb
    have h1 : (macro_block b ["LOOP(0);\n"]).count d = 1 :=
      count_macro_block d hd b _ (hb b (List.mem_cons_self _ _))
        (by rcases hd with e | e <;> rw [e] <;> decide)
    have h2 := ih (fun body hm => hb body (List.mem_cons_of_mem _ hm))
    simp only [List.map_cons, List.flatten_cons, List.count_append, h1, h2, List.length_cons]
    omega

theorem count_header_zero (d : String)
    (hd : d = "#define LOOP(loop_index) \x7b \\\n" ∨ d = "#undef LOOP\n\n")
    (name sfx : String) :
    List.count d
      ["#include <common.h>\n using namespace taichi; using namespace Tlang;" ++ sfx,
        "extern \"C\" void " ++ name ++ "(Context context) \x7b\n" ++ sfx,
        "auto n = context.get_range(0);\n" ++ sfx,
        "for (int i = 0, g = 0; i < n; ) \x7b\n" ++ sfx,
        "float32 cache0000[128];" ++ sfx] = 0 := by
  rw [List.count_eq_zero]
  intro hmem
  simp only [List.mem_cons, List.mem_singleton, List.not_mem_nil, or_false] at hmem
  rcases hd with e | e <;> subst e <;> rcases hmem with h | h | h | h | h <;>
    · have hdat := congrArg String.data h
      simp only [String.data_append] at hdat
      have h2 := congrArg (fun l => l.take 2) hdat
      simp at h2

theorem count_tail_zero (d : String)
    (hd : d = "#define LOOP(loop_index) \x7b \\\n" ∨ d = "#undef LOOP\n\n")
    (a b : String) :
    List.count d ["i += " ++ a ++ "; g += " ++ b ++ ";", "\x7d\n\x7d\n"] = 0 := by
  rw [List.count_eq_zero]
  intro hmem
  simp only [List.mem_cons, List.mem_singleton, List.not_mem_nil, or_false] at hmem
  rcases hd with e | e <;> subst e <;> rcases hmem with h | h <;>
    · have hdat := congrArg String.data h
      simp only [String.data_append] at hdat
      have h2 := congrArg (fun l => l.take 1) hdat
      simp at h2

theorem same_type_iff (a b : Address) :
    a.same_type b = true ↔
      a.coeff_i = b.coeff_i ∧ a.coeff_imax = b.coeff_imax ∧
        a.coeff_aosoa_group_size = b.coeff_aosoa_group_size ∧
        a.coeff_aosoa_stride = b.coeff_aosoa_stride := by
  simp [Address.same_type, and_assoc]

theorem adjacent_same_type_head :
    ∀ (l : List Address) (a : Address), adjacent_same_type (a :: l) = true →
      ∀ b ∈ l, a.same_type b = true := by
  intro l
  induction l with
  | nil => intro a _ b hb; cases hb
  | cons c l ih =>
    intro a ha b hb
    simp only [adjacent_same_type, Bool.and_eq_true] at ha
    rcases List.mem_cons.mp hb with e | e
    · rw [e]; exact ha.1
    · have hcb := ih c ha.2 b e
      rw [same_type_iff] at hcb ⊢
      have hac := (same_type_iff a c).mp ha.1
      exact ⟨hac.1.trans hcb.1, hac.2.1.trans hcb.2.1, hac.2.2.1.trans hcb.2.2.1,
        hac.2.2.2.trans hcb.2.2.2⟩

theorem adjacent_same_type_all (l : List Address) (hl : adjacent_same_type l = true) :
    ∀ a ∈ l, ∀ b ∈ l, a.same_type b = true := by
  cases l with
  | nil => intro a ha; cases ha
  | cons c l =>
    have hc := adjacent_same_type_head l c hl
    have hcc : ∀ a ∈ c :: l, c.same_type a = true := by
      intro a ha
      rcases List.mem_cons.mp ha with e | e
      · rw [e, same_type_iff]; exact ⟨rfl, rfl, rfl, rfl⟩
      · exact hc a e
    intro a ha b hb
    have h1 := (same_type_iff c a).mp (hcc a ha)
    have h2 := (same_type_iff c b).mp (hcc b hb)
    rw [same_type_iff]
    exact ⟨h1.1.symm.trans h2.1, h1.2.1.symm.trans h2.2.1, h1.2.2.1.symm.trans h2.2.2.1,
      h1.2.2.2.symm.trans h2.2.2.2⟩

/-- The guards that hold when the visit of a load node without a name succeeds
in vector mode, with the text `a` of the aligned address. -/
theorem visit_load_ok_guards (g : CPUCodeGen) (h : Heap) (expr : Nat) (g' : CPUCodeGen)
    (h' : Heap) (hmode : g.mode = Mode.vector) (htype : (h expr).type = NodeType.load)
    (hname : (h expr).var_name = "") (hr : g.visit h expr = .ok (g', h')) :
    (h expr).is_vectorized = true ∧
      ((h expr).members.length = 0 ∨ ((h expr).members.length : Int) = g.group_size) ∧
      ∃ a, adjacent_same_type ((h expr).members.map fun m => (h m).addr) = true ∧
        g.num_groups = (h expr).addr.coeff_aosoa_group_size ∧ g.simd_width ≠ 0 ∧
        (h expr).addr.buffer_id ≠ -1 ∧
        g.get_vectorized_address ((h expr).addr.align_down g.simd_width) 0 = .ok a := by
  obtain ⟨-, -, hvec, hsize⟩ := visit_emits g h expr g' h' hr
  refine ⟨hvec, hsize, ?_⟩
  rw [visit_fresh_load g h expr hvec hsize htype hname hmode] at hr
  rcases visit_load_error_or g.create_variable.2 ((h expr).members.map fun m => (h m).addr)
    (h expr).addr g.create_variable.1 with ⟨f, hf⟩ | ⟨a, hst, hng, hsw, hb, ha⟩
  · rw [hf] at hr; cases hr
  · exact ⟨a, hst, hng, hsw, hb,
      by rw [← get_vectorized_address_congr g g.create_variable.2 _ 0 rfl]; exact ha⟩

theorem appends_refl (g : CPUCodeGen) : g.appends g [] := by
  constructor
  · simp
  · intro l hl; cases hl

theorem appends_trans (g g1 g2 : CPUCodeGen) (l1 l2 : List String) (h1 : g.appends g1 l1)
    (h2 : g1.appends g2 l2) : g.appends g2 (l1 ++ l2) := by
  obtain ⟨e1, b1⟩ := h1
  obtain ⟨e2, b2⟩ := h2
  have hs : g1.code_suffix = g.code_suffix := by rw [e1]
  constructor
  · rw [e2, e1]
    simp
  · intro l hl
    rcases List.mem_append.mp hl with h | h
    · exact b1 l h
    · rw [← hs]; exact b2 l h

theorem appends_emit_code (g : CPUCodeGen) (s : String) :
    g.appends (g.emit_code s) [s ++ g.code_suffix] := by
  constructor
  · simp [CPUCodeGen.emit_code]
  · intro l hl
    exact ⟨s, List.mem_singleton.mp hl⟩

theorem appends_create_variable (g : CPUCodeGen) : g.appends g.create_variable.2 [] := by
  constructor
  · simp [CPUCodeGen.create_variable]
  · intro l hl; cases hl

theorem appends_emit_immediate (g : CPUCodeGen) (v : String) :
    ∃ lines, g.appends (g.emit_immediate v) lines :=
  ⟨_, appends_emit_code g _⟩

theorem appends_emit_shuffle (g : CPUCodeGen) (v imm : String) :
    ∃ lines, g.appends (g.emit_shuffle v imm) lines :=
  ⟨_, appends_emit_code g _⟩

theorem appends_with_aligned_load (g : CPUCodeGen) (addr : Address) (v a : String) :
    ∃ lines, g.appends (g.with_aligned_load addr v a) lines := by
  refine ⟨g.prefetch_code (addr.align_down g.simd_width) ++
    ["auto " ++ v ++ "_immediate = " ++ g.load_instr ++ "(" ++ a ++ ");" ++ g.code_suffix],
    ⟨by simp [CPUCodeGen.with_aligned_load], ?_⟩⟩
  intro l hl
  rcases List.mem_append.mp hl with hp | hp
  · unfold CPUCodeGen.prefetch_code at hp
    split at hp
    · cases hp
    · split at hp
      · exact ⟨_, List.mem_singleton.mp hp⟩
      · cases hp
  · exact ⟨_, List.mem_singleton.mp hp⟩

theorem load_pattern_appends (g : CPUCodeGen) (v : String) (orig : Address)
    (offsets : List Int) (ns : Bool) (r : CPUCodeGen × Bool)
    (hr : g.load_pattern v orig offsets ns = .ok r) : ∃ lines, g.appends r.1 lines := by
  by_cases hsw : g.simd_width = 0
  · obtain ⟨f, hf⟩ := load_pattern_zero_width g v orig offsets ns hsw
    rw [hf] at hr; cases hr
  by_cases h2 : g.group_size = 2
  · cases offsets with
    | nil => simp [CPUCodeGen.load_pattern, TC_ASSERT, c_index, bind, Except.bind] at hr
             split at hr <;> cases hr
    | cons o0 tl =>
      cases tl with
      | nil =>
        simp [CPUCodeGen.load_pattern, TC_ASSERT, c_index, c_mod, hsw, bind, Except.bind] at hr
        split at hr <;> cases hr
      | cons o1 rest =>
        rw [load_pattern_two g v orig o0 o1 rest ns h2 hsw] at hr
        split_ifs at hr <;> cases hr
        · exact appends_emit_immediate g v
        · exact appends_emit_shuffle g v _
        · exact appends_emit_shuffle g v _
  by_cases h4 : g.group_size = 4
  · cases offsets with
    | nil => simp [CPUCodeGen.load_pattern, TC_ASSERT, c_index, bind, Except.bind] at hr
             split at hr <;> cases hr
    | cons o0 tl =>
      cases tl with
      | nil =>
        simp [CPUCodeGen.load_pattern, TC_ASSERT, c_index, c_mod, hsw, bind, Except.bind] at hr
        split at hr <;> cases hr
      | cons o1 rest =>
        rw [load_pattern_four g v orig o0 o1 rest ns h4 hsw] at hr
        split_ifs at hr <;> cases hr
        · exact appends_emit_immediate g v
        · exact appends_emit_shuffle g v _
        · exact appends_emit_shuffle g v _
        · exact appends_emit_shuffle g v _
        · exact appends_emit_shuffle g v _
  by_cases h8 : g.group_size = 8
  · cases offsets with
    | nil => simp [CPUCodeGen.load_pattern, TC_ASSERT, c_index, bind, Except.bind] at hr
             split at hr <;> cases hr
    | cons o0 tl =>
      cases tl with
      | nil =>
        simp [CPUCodeGen.load_pattern, TC_ASSERT, c_index, c_mod, hsw, bind, Except.bind] at hr
        split at hr <;> cases hr
      | cons o1 rest =>
        rw [load_pattern_eight g v orig o0 o1 rest ns h8 hsw] at hr
        by_cases hi1 : o1 - o0 = 1
        · rw [if_pos hi1] at hr
          split_ifs at hr
          cases hr
          exact appends_emit_immediate g v
        · rw [if_neg hi1] at hr
          by_cases hi0 : o1 - o0 = 0
          · rw [if_pos hi0] at hr
            cases ha : g.get_vectorized_address orig 0 with
            | error e => rw [ha] at hr; cases hr
            | ok a =>
              rw [ha] at hr
              cases hr
              exact ⟨_, appends_emit_code g _⟩
          · rw [if_neg hi0] at hr
            cases hr
  · obtain ⟨f, hf⟩ := load_pattern_other g v orig offsets ns h2 h4 h8
    rw [hf] at hr; cases hr

theorem visit_load_appends (g : CPUCodeGen) (addrs : List Address) (addr : Address)
    (v : String) (g' : CPUCodeGen) (hr : g.visit_load addrs addr v = .ok g') :
    ∃ lines, g.appends g' lines := by
  rcases visit_load_error_or g addrs addr v with ⟨f, hf⟩ | ⟨a, hst, hng, hsw, -, ha⟩
  · rw [hf] at hr; cases hr
  · rw [visit_load_eq g addrs addr v a hst hng hsw ha] at hr
    obtain ⟨l1, e1⟩ := appends_with_aligned_load g addr v a
    split at hr
    · cases hr
      obtain ⟨l2, e2⟩ := appends_emit_immediate (g.with_aligned_load addr v a) v
      exact ⟨_, appends_trans _ _ _ _ _ e1 e2⟩
    · split at hr
      · rename_i r hp
        split at hr
        · cases hr
          obtain ⟨l2, e2⟩ := load_pattern_appends _ _ _ _ _ _ hp
          exact ⟨_, appends_trans _ _ _ _ _ e1 e2⟩
        · cases hr
      · cases hr

theorem emit_scalar_binary_appends (h : Heap) (node : Node) (v op : String) (n : Nat) :
    ∀ (g : CPUCodeGen) (i : Int) (g' : CPUCodeGen),
      g.emit_scalar_binary h node v op i n = .ok g' → ∃ lines, g.appends g' lines := by
  induction n with
  | zero =>
    intro g i g' hr
    simp [CPUCodeGen.emit_scalar_binary, pure, Except.pure] at hr
    subst hr
    exact ⟨_, appends_refl g⟩
  | succ n ih =>
    intro g i g' hr
    unfold CPUCodeGen.emit_scalar_binary at hr
    cases h0 : c_index node.ch 0 with
    | error e => simp [h0, bind, Except.bind] at hr
    | ok c0 =>
      cases h1 : c_index node.ch 1 with
      | error e => simp [h0, h1, bind, Except.bind] at hr
      | ok c1 =>
        simp only [h0, h1, bind, Except.bind] at hr
        obtain ⟨l2, e2⟩ := ih _ _ _ hr
        exact ⟨_, appends_trans _ _ _ _ _ (appends_emit_code g _) e2⟩

theorem visit_emit_appends (g : CPUCodeGen) (h : Heap) (node : Node) (v : String)
    (g' : CPUCodeGen) (hr : g.visit_emit h node v = .ok g') : ∃ lines, g.appends g' lines := by
  unfold CPUCodeGen.visit_emit at hr
  split at hr
  · split at hr
    · cases h0 : c_index node.ch 0 with
      | error e => simp [h0, bind, Except.bind] at hr
      | ok c0 =>
        cases h1 : c_index node.ch 1 with
        | error e => simp [h0, h1, bind, Except.bind] at hr
        | ok c1 =>
          simp only [h0, h1, bind, Except.bind, pure, Except.pure] at hr
          cases hr
          exact ⟨_, appends_emit_code g _⟩
    · exact emit_scalar_binary_appends h node v _ _ g 0 g' hr
  · have hc : get_cache_name 0 = .ok ("cache" ++ fmt_0d 4 0) := rfl
    by_cases t1 : node.type = NodeType.cache_load
    · rw [if_pos t1] at hr
      simp only [hc, bind, Except.bind, pure, Except.pure] at hr
      cases hr
      exact ⟨_, appends_emit_code g _⟩
    rw [if_neg t1] at hr
    by_cases t2 : node.type = NodeType.load
    · rw [if_pos t2] at hr
      by_cases hm : g.mode = Mode.vector
      · rw [if_pos hm] at hr
        exact visit_load_appends g _ _ v g' hr
      · rw [if_neg hm] at hr
        cases hr
    rw [if_neg t2] at hr
    by_cases t3 : node.type = NodeType.cache_store
    · rw [if_pos t3] at hr
      cases h0 : c_index node.ch 0 with
      | error e => simp [hc, h0, bind, Except.bind] at hr
      | ok c0 =>
        simp only [hc, h0, bind, Except.bind, pure, Except.pure] at hr
        cases hr
        exact ⟨_, appends_emit_code g _⟩
    rw [if_neg t3] at hr
    by_cases t4 : node.type = NodeType.store
    · rw [if_pos t4] at hr
      by_cases hm : g.mode = Mode.vector
      · rw [if_pos hm] at hr
        cases ha : g.get_vectorized_address node.addr 0 with
        | error e => simp [ha, bind, Except.bind] at hr
        | ok a =>
          cases h1 : c_index node.ch 1 with
          | error e => simp [ha, h1, bind, Except.bind] at hr
          | ok c1 =>
            simp only [ha, h1, bind, Except.bind, pure, Except.pure] at hr
            cases hr
            exact ⟨_, appends_emit_code g _⟩
      · rw [if_neg hm] at hr
        cases hr
    rw [if_neg t4] at hr
    by_cases t5 : node.type = NodeType.combine
    · rw [if_pos t5] at hr
      cases hr
      exact ⟨_, appends_refl g⟩
    rw [if_neg t5] at hr
    by_cases t6 : node.type = NodeType.imm
    · rw [if_pos t6] at hr
      cases hr
      exact ⟨_, appends_refl g⟩
    rw [if_neg t6] at hr
    by_cases t7 : node.type = NodeType.index
    · rw [if_pos t7] at hr
      cases hr
      exact ⟨_, appends_refl g⟩
    rw [if_neg t7] at hr
    by_cases t8 : node.type = NodeType.pointer
    · rw [if_pos t8] at hr
      cases hr
      exact ⟨_, appends_refl g⟩
    rw [if_neg t8] at hr
    cases hr


/-- A successful `visit` only appends pieces that end with the line suffix. -/
theorem visit_appends (g : CPUCodeGen) (h : Heap) (expr : Nat) (g' : CPUCodeGen) (h' : Heap)
    (hr : g.visit h expr = .ok (g', h')) : ∃ lines, g.appends g' lines := by
  obtain ⟨-, hh, hvec, hsize⟩ := visit_emits g h expr g' h' hr
  rcases hh with ⟨-, -, e2⟩ | ⟨hname, htype, -⟩
  · rw [e2]
    exact ⟨_, appends_refl g⟩
  · rw [visit_fresh g h expr hvec hsize htype hname] at hr
    cases he : g.create_variable.2.visit_emit (h.set_var_name expr g.create_variable.1)
        (h.set_var_name expr g.create_variable.1 expr) g.create_variable.1 with
    | error e => rw [he] at hr; cases hr
    | ok g2 =>
      rw [he] at hr
      cases hr
      obtain ⟨l2, e2⟩ := visit_emit_appends _ _ _ _ _ he
      exact ⟨_, appends_trans _ _ _ _ _ (appends_create_variable g) e2⟩

theorem accept_children_appends (fuel : Nat)
    (ih : ∀ (g : CPUCodeGen) (h : Heap) (e : Nat) (g' : CPUCodeGen) (h' : Heap),
      g.accept fuel h e = .ok (g', h') → ∃ lines, g.appends g' lines) :
    ∀ (cs : List Nat) (g : CPUCodeGen) (h : Heap) (g' : CPUCodeGen) (h' : Heap),
      cs.foldlM (fun (s : CPUCodeGen × Heap) c => s.1.accept fuel s.2 c) (g, h) = .ok (g', h') →
      ∃ lines, g.appends g' lines := by
  intro cs
  induction cs with
  | nil =>
    intro g h g' h' hr
    simp [List.foldlM, pure, Except.pure] at hr
    rw [← hr.1]
    exact ⟨_, appends_refl g⟩
  | cons c cs ihc =>
    intro g h g' h' hr
    rw [List.foldlM_cons] at hr
    cases hc : g.accept fuel h c with
    | error e => simp [hc, bind, Except.bind] at hr
    | ok r =>
      obtain ⟨g1, h1⟩ := r
      simp only [hc, bind, Except.bind] at hr
      obtain ⟨l1, e1⟩ := ih g h c g1 h1 hc
      obtain ⟨l2, e2⟩ := ihc g1 h1 g' h' hr
      exact ⟨_, appends_trans _ _ _ _ _ e1 e2⟩

/-- A successful traversal only appends pieces that end with the line suffix. -/
theorem accept_appends (fuel : Nat) :
    ∀ (g : CPUCodeGen) (h : Heap) (e : Nat) (g' : CPUCodeGen) (h' : Heap),
      g.accept fuel h e = .ok (g', h') → ∃ lines, g.appends g' lines := by
  induction fuel with
  | zero =>
    intro g h e g' h' hr
    simp [CPUCodeGen.accept] at hr
  | succ fuel ih =>
    intro g h e g' h' hr
    unfold CPUCodeGen.accept at hr
    cases hc : (h e).ch.foldlM (fun (s : CPUCodeGen × Heap) c => s.1.accept fuel s.2 c) (g, h) with
    | error f => simp [hc, bind, Except.bind] at hr
    | ok r =>
      obtain ⟨g1, h1⟩ := r
      simp only [hc, bind, Except.bind] at hr
      obtain ⟨l1, e1⟩ := accept_children_appends fuel ih _ g h g1 h1 hc
      obtain ⟨l2, e2⟩ := visit_appends g1 h1 e g' h' hr
      exact ⟨_, appends_trans _ _ _ _ _ e1 e2⟩

theorem emit_loop_calls_code (n : Nat) :
    ∀ (g : CPUCodeGen) (i : Int),
      (g.emit_loop_calls i n).code =
          g.code ++ (List.range n).map
            (fun j : Nat => "LOOP(" ++ fmt_d (i + (j : Int)) ++ ");" ++ g.code_suffix) ∧
        (g.emit_loop_calls i n).code_suffix = g.code_suffix := by
  induction n with
  | zero => intro g i; simp [CPUCodeGen.emit_loop_calls]
  | succ n ih =>
    intro g i
    unfold CPUCodeGen.emit_loop_calls
    obtain ⟨h1, h2⟩ := ih (g.emit_code ("LOOP(" ++ fmt_d i ++ ");")) (i + 1)
    refine ⟨?_, by rw [h2]; rfl⟩
    rw [h1, List.range_succ_eq_map]
    simp only [CPUCodeGen.emit_code, List.map_cons, List.map_map, List.append_assoc,
      List.singleton_append, Nat.cast_zero, add_zero]
    congr 2
    apply List.map_congr_left
    intro j _
    simp only [Function.comp, Nat.cast_succ]
    rw [show i + 1 + (j : Int) = i + ((j : Int) + 1) by ring]

theorem accept_simd_width (fuel : Nat) (g : CPUCodeGen) (h : Heap) (e : Nat) (g' : CPUCodeGen)
    (h' : Heap) (hr : g.accept fuel h e = .ok (g', h')) :
    g'.simd_width = g.simd_width ∧ g'.mode = g.mode ∧ g'.group_size = g.group_size ∧
      g'.num_groups = g.num_groups := by
  obtain ⟨lines, he, -⟩ := accept_emits fuel g h e g' h' hr
  rw [he]
  exact ⟨rfl, rfl, rfl, rfl⟩

/-- The loop over the caches leaves the mode unchanged. -/
theorem codegen_caches_mode (run : VectorizerRun) (fuel : Nat) :
    ∀ (caches : List Cache) (g : CPUCodeGen) (h : Heap) (g' : CPUCodeGen) (h' : Heap),
      g.codegen_caches run fuel h caches = .ok (g', h') → g'.mode = g.mode := by
  intro caches
  induction caches with
  | nil =>
    intro g h g' h' hr
    simp [CPUCodeGen.codegen_caches, pure, Except.pure] at hr
    rw [← hr.1]
  | cons cache rest ih =>
    intro g h g' h' hr
    unfold CPUCodeGen.codegen_caches at hr
    obtain ⟨⟨h2, v⟩, -, hr⟩ := except_bind_ok _ _ _ hr
    obtain ⟨⟨g3, h3⟩, ha, hr⟩ := except_bind_ok _ _ _ hr
    rw [ih _ _ _ _ hr]
    exact (accept_simd_width fuel _ _ _ _ _ ha).2.1

/-- The fields of the generator after a successful `codegen`. -/
theorem codegen_fields (run : VectorizerRun) (fuel : Nat) (g : CPUCodeGen) (h : Heap)
    (prog : Program) (group_size : Int) (g' : CPUCodeGen) (h' : Heap)
    (hr : g.codegen run fuel h prog group_size = .ok (g', h')) :
    g'.group_size = group_size ∧ g'.simd_width = g.simd_width ∧
      g'.num_groups = Int.tdiv g.simd_width group_size ∧ g'.mode = g.mode ∧
      g.mode = Mode.vector := by
  unfold CPUCodeGen.codegen at hr
  obtain ⟨g1, hh, hr⟩ := except_bind_ok _ _ _ hr
  obtain ⟨hm, -, e1⟩ := generate_header_ok _ _ hh
  obtain ⟨cache, -, hr⟩ := except_bind_ok _ _ _ hr
  obtain ⟨⟨g2, h2⟩, hcs, hr⟩ := except_bind_ok _ _ _ hr
  obtain ⟨-, -, -, -, hn, -, hs⟩ := codegen_caches_code run fuel _ _ _ _ _ hcs
  have hmo := codegen_caches_mode run fuel _ _ _ _ _ hcs
  cases hret : prog.ret with
  | none => simp [hret] at hr
  | some ret =>
    simp only [hret] at hr
    obtain ⟨⟨h3, v⟩, -, hr⟩ := except_bind_ok _ _ _ hr
    obtain ⟨⟨g4, h4⟩, ha, hr⟩ := except_bind_ok _ _ _ hr
    simp only [pure, Except.pure] at hr
    cases hr
    obtain ⟨a1, a2, a3, a4⟩ := accept_simd_width fuel _ _ _ _ _ ha
    have hs1 : g1.simd_width = g.simd_width := by rw [e1]
    have hn1 : g1.num_groups = Int.tdiv g.simd_width group_size := by rw [e1]
    have hm1 : g1.mode = g.mode := by rw [e1]
    refine ⟨?_, ?_, ?_, ?_, hm⟩
    · show g4.group_size = _
      rw [a3]; rfl
    · show g4.simd_width = _
      rw [a1]
      show g2.simd_width = _
      rw [hs]; exact hs1
    · show g4.num_groups = _
      rw [a4]
      show g2.num_groups = _
      rw [hn]; exact hn1
    · show g4.mode = _
      rw [a2]
      show g2.mode = _
      rw [hmo]; exact hm1

/-- The loop over the caches calls the vectorizer with the generator's
`simd_width` and group size 1 only. -/
theorem codegen_caches_congr (run run' : VectorizerRun) (fuel : Nat) (w : Int)
    (hrun : ∀ h e, run' w h e 1 = run w h e 1) :
    ∀ (caches : List Cache) (g : CPUCodeGen) (h : Heap), g.simd_width = w →
      g.codegen_caches run' fuel h caches = g.codegen_caches run fuel h caches := by
  intro caches
  induction caches with
  | nil => intro g h _; rfl
  | cons cache rest ih =>
    intro g h hw
    subst hw
    unfold CPUCodeGen.codegen_caches
    simp only [hrun]
    cases run g.simd_width h cache.stores 1 with
    | error f => rfl
    | ok r =>
      obtain ⟨h2, v⟩ := r
      simp only [bind, Except.bind]
      cases ha : CPUCodeGen.accept fuel
          (CPUCodeGen.start_macro_loop { g with group_size := 1 }) h2 v with
      | error f => rfl
      | ok r =>
        obtain ⟨g3, h3⟩ := r
        simp only []
        apply ih
        exact (accept_simd_width fuel _ _ _ _ _ ha).1

theorem except_bind_congr {ε α β : Type} (x x' : Except ε α) (f f' : α → Except ε β)
    (hx : x = x') (h : ∀ a, x' = .ok a → f a = f' a) : (x >>= f) = (x' >>= f') := by
  subst hx
  cases x with
  | error e => rfl
  | ok a => exact h a rfl

/-- Where `codegen` calls the vectorizer: with the generator's `simd_width` and
group size 1 only. -/
theorem codegen_congr (run run' : VectorizerRun) (fuel : Nat) (g : CPUCodeGen) (h : Heap)
    (prog : Program) (group_size : Int)
    (hrun : ∀ h e, run' g.simd_width h e 1 = run g.simd_width h e 1) :
    g.codegen run' fuel h prog group_size = g.codegen run fuel h prog group_size := by
  unfold CPUCodeGen.codegen
  refine except_bind_congr _ _ _ _ rfl ?_
  intro g1 hh
  obtain ⟨-, -, e1⟩ := generate_header_ok _ _ hh
  have hs1 : g1.simd_width = g.simd_width := by rw [e1]
  refine except_bind_congr _ _ _ _ rfl ?_
  intro cache _
  refine except_bind_congr _ _ _ _
    (codegen_caches_congr run run' fuel g.simd_width hrun prog.caches _ h hs1) ?_
  rintro ⟨g2, h2⟩ hcs
  obtain ⟨-, -, -, -, -, -, hs⟩ := codegen_caches_code run fuel _ _ _ _ _ hcs
  have hs2 : g2.simd_width = g.simd_width := by rw [hs]; exact hs1
  cases prog.ret with
  | none => rfl
  | some ret =>
    simp only [hs2, hrun]

theorem except_bind_eq_ok {ε α β : Type} (x : Except ε α) (f : α → Except ε β) (a : α) (b : β)
    (hx : x = .ok a) (hf : f a = .ok b) : (x >>= f) = .ok b := by
  subst hx
  exact hf

/-- The visit of a not-yet-emitted load node succeeds in vector mode only. -/
theorem visit_load_ok_mode (g : CPUCodeGen) (h : Heap) (expr : Nat) (g' : CPUCodeGen)
    (h' : Heap) (htype : (h expr).type = NodeType.load) (hname : (h expr).var_name = "")
    (hr : g.visit h expr = .ok (g', h')) : g.mode = Mode.vector := by
  by_contra hm
  obtain ⟨f, hf⟩ := visit_error_of_load_error g h expr htype hname (fun hv => absurd hv hm)
  rw [hf] at hr
  cases hr

/-- The steps of `codegen`: it succeeds exactly when the header is generated,
the loop over the caches succeeds, the program has a return root, the
vectorizer succeeds on it for the generator's SIMD width and group size 1, and
the traversal of the vectorized graph succeeds; the result is the generator of
the traversal after the end of the macro block and the tail. -/
theorem codegen_steps (run : VectorizerRun) (fuel : Nat) (g : CPUCodeGen) (h : Heap)
    (prog : Program) (group_size : Int) (g' : CPUCodeGen) (h' : Heap) :
    g.codegen run fuel h prog group_size = .ok (g', h') ↔
      ∃ (g1 g2 : CPUCodeGen) (h2 : Heap) (ret : Nat) (h3 : Heap) (v : Nat) (g4 : CPUCodeGen),
        CPUCodeGen.generate_header { g with group_size := group_size } = .ok g1 ∧
        (g1.emit_code "float32 cache0000[128];").codegen_caches run fuel h prog.caches =
          .ok (g2, h2) ∧
        prog.ret = some ret ∧
        run g2.simd_width h2 ret 1 = .ok (h3, v) ∧
        CPUCodeGen.accept fuel (CPUCodeGen.start_macro_loop { g2 with group_size := group_size })
          h3 v = .ok (g4, h') ∧
        g' = CPUCodeGen.generate_tail { g4.end_macro_loop 8 with code_suffix := "" } := by
  constructor
  · intro hr
    unfold CPUCodeGen.codegen at hr
    obtain ⟨g1, hh, hr⟩ := except_bind_ok _ _ _ hr
    obtain ⟨cache, hc, hr⟩ := except_bind_ok _ _ _ hr
    have hc' : cache = "cache0000" := Except.ok.inj (hc.symm.trans rfl)
    subst hc'
    obtain ⟨⟨g2, h2⟩, hcs, hr⟩ := except_bind_ok _ _ _ hr
    cases hret : prog.ret with
    | none => simp [hret] at hr
    | some ret =>
      simp only [hret] at hr
      obtain ⟨⟨h3, v⟩, hv, hr⟩ := except_bind_ok _ _ _ hr
      obtain ⟨⟨g4, h4⟩, ha, hr⟩ := except_bind_ok _ _ _ hr
      simp only [pure, Except.pure] at hr
      cases hr
      exact ⟨g1, g2, h2, ret, h3, v, g4, hh, hcs, rfl, hv, ha, rfl⟩
  · rintro ⟨g1, g2, h2, ret, h3, v, g4, hh, hcs, hret, hv, ha, rfl⟩
    unfold CPUCodeGen.codegen
    refine except_bind_eq_ok _ _ _ _ hh ?_
    refine except_bind_eq_ok _ _ "cache0000" _ rfl ?_
    refine except_bind_eq_ok _ _ _ _ hcs ?_
    simp only [hret]
    refine except_bind_eq_ok _ _ _ _ hv ?_
    refine except_bind_eq_ok _ _ _ _ ha ?_
    rfl

/-! ## The claims of the specification -/

/-- Claim C1: for an address with `buffer_id != -1` and a non-zero
`coeff_aosoa_group_size` that divides `num_groups`, `get_vectorized_address`
returns the text `&context.get_buffer<float32>(BB)[A * n + S * (g + loop_index)
+ C + E]` with `S = coeff_i * num_groups + (num_groups / coeff_aosoa_group_size)
* coeff_aosoa_stride`, and the result is the same for every generator with the
same `num_groups`. -/
theorem C1_get_vectorized_address_text (g : CPUCodeGen) (addr : Address) (extra_offset : Int)
    (hb : addr.buffer_id ≠ -1) (hz : addr.coeff_aosoa_group_size ≠ 0)
    (hd : addr.coeff_aosoa_group_size ∣ g.num_groups) :
    g.get_vectorized_address addr extra_offset =
        .ok ("&context.get_buffer<float32>(" ++ fmt_0d 2 addr.buffer_id ++ ")[" ++
          fmt_d addr.coeff_imax ++ " * n + " ++
          fmt_d (addr.coeff_i * g.num_groups +
            g.num_groups / addr.coeff_aosoa_group_size * addr.coeff_aosoa_stride) ++
          " * (g + loop_index) + " ++ fmt_d addr.coeff_const ++ " + " ++ fmt_d extra_offset ++
          "]") ∧
      ∀ g' : CPUCodeGen, g'.num_groups = g.num_groups →
        g'.get_vectorized_address addr extra_offset =
          g.get_vectorized_address addr extra_offset := by
  refine ⟨?_, fun g' hn => get_vectorized_address_congr g g' addr extra_offset hn⟩
  rw [get_vectorized_address_ok g addr extra_offset hb hz, Int.tdiv_eq_ediv_of_dvd hd]
  have e1 : "&context.get_buffer<float32>(" = "&" ++ "context.get_buffer<float32>(" := by decide
  have e2 : ")[" = ")" ++ "[" := by decide
  rw [e1, e2]
  simp only [String.append_assoc]

theorem C1_get_vectorized_address_text_witness :
    (example_codegen 2 4).get_vectorized_address (example_address 3 4 8) 16 =
      .ok "&context.get_buffer<float32>(03)[0 * n + 4 * (g + loop_index) + 8 + 16]" :=
  (C1_get_vectorized_address_text (example_codegen 2 4) (example_address 3 4 8) 16
    (by decide) (by decide) (by decide)).1

/-- Claim C2, as amended: in vector mode with `simd_width = 8`, `group_size = 2`
and `num_groups = 4 = coeff_aosoa_group_size`, a not-yet-emitted vectorized
load node that is bound to a buffer (`buffer_id != -1`), has two same-type
members and constant offset `k` is visited successfully: with member offsets
`[k, k + 1]` and `k % 8 == 0` the emitted text is the aligned load followed by
`auto v = v_immediate;`, with no shuffle; with member offsets `[k, k]` it is
the aligned load followed by exactly one `_mm256_shuffle_ps`, with immediate
`0xA0` when `k % 8 == 0` and `0xF5` when `k % 8 == 1`. -/
theorem C2_group2_load_patterns (g : CPUCodeGen) (h : Heap) (expr m0 m1 : Nat) (k : Int)
    (hmode : g.mode = Mode.vector) (hsw : g.simd_width = 8) (hgs : g.group_size = 2)
    (hng : g.num_groups = 4) (haos : (h expr).addr.coeff_aosoa_group_size = 4)
    (htype : (h expr).type = NodeType.load) (hvec : (h expr).is_vectorized = true)
    (hname : (h expr).var_name = "") (hmem : (h expr).members = [m0, m1])
    (hst : (h m0).addr.same_type (h m1).addr = true)
    (hk : (h expr).addr.coeff_const = k) (h0 : (h m0).addr.offset = k)
    (hb : (h expr).addr.buffer_id ≠ -1) :
    ∃ a, g.get_vectorized_address ((h expr).addr.align_down 8) 0 = .ok a ∧
      ((h m1).addr.offset = k + 1 → Int.tmod k 8 = 0 →
        g.visit h expr = .ok
          ({ g with
              var_count := g.var_count + 1
              code := g.code ++ g.prefetch_code ((h expr).addr.align_down 8) ++
                ["auto " ++ g.create_variable.1 ++ "_immediate = " ++ "_mm256_load_ps" ++ "(" ++
                    a ++ ");" ++ g.code_suffix,
                  "auto " ++ g.create_variable.1 ++ " = " ++ g.create_variable.1 ++
                    "_immediate;" ++ g.code_suffix] },
            h.set_var_name expr g.create_variable.1)) ∧
      ((h m1).addr.offset = k → Int.tmod k 8 = 0 →
        g.visit h expr = .ok
          ({ g with
              var_count := g.var_count + 1
              code := g.code ++ g.prefetch_code ((h expr).addr.align_down 8) ++
                ["auto " ++ g.create_variable.1 ++ "_immediate = " ++ "_mm256_load_ps" ++ "(" ++
                    a ++ ");" ++ g.code_suffix,
                  "auto " ++ g.create_variable.1 ++ " = _mm256_shuffle_ps(" ++
                    g.create_variable.1 ++ "_immediate, " ++ g.create_variable.1 ++
                    "_immediate, " ++ "0xA0" ++ ");" ++ g.code_suffix] },
            h.set_var_name expr g.create_variable.1)) ∧
      ((h m1).addr.offset = k → Int.tmod k 8 = 1 →
        g.visit h expr = .ok
          ({ g with
              var_count := g.var_count + 1
              code := g.code ++ g.prefetch_code ((h expr).addr.align_down 8) ++
                ["auto " ++ g.create_variable.1 ++ "_immediate = " ++ "_mm256_load_ps" ++ "(" ++
                    a ++ ");" ++ g.code_suffix,
                  "auto " ++ g.create_variable.1 ++ " = _mm256_shuffle_ps(" ++
                    g.create_variable.1 ++ "_immediate, " ++ g.create_variable.1 ++
                    "_immediate, " ++ "0xF5" ++ ");" ++ g.code_suffix] },
            h.set_var_name expr g.create_variable.1)) := by
  have hz : ((h expr).addr.align_down 8).coeff_aosoa_group_size ≠ 0 := by
    rw [align_down_group_size, haos]; decide
  obtain ⟨a, ha⟩ : ∃ a, g.get_vectorized_address ((h expr).addr.align_down 8) 0 = .ok a :=
    ⟨_, get_vectorized_address_ok g _ 0 hb hz⟩
  have hsw0 : g.simd_width ≠ 0 := by rw [hsw]; decide
  have hv := visit_load_node g h expr a hmode htype hvec hname
    (Or.inr (by rw [hmem, hgs]; rfl)) (by simp [hmem, adjacent_same_type, hst])
    (by rw [hng, haos]) hsw0 (by rw [hsw]; exact ha)
  rw [hmem, hk, if_neg (by rw [hgs]; decide)] at hv
  simp only [List.map, h0] at hv
  rw [load_pattern_two (g.create_variable.2.with_aligned_load (h expr).addr g.create_variable.1 a)
    _ _ _ _ _ _ hgs hsw0] at hv
  have e8 : (g.create_variable.2.with_aligned_load (h expr).addr g.create_variable.1
      a).simd_width = 8 := hsw
  rw [e8] at hv
  refine ⟨a, ha, ?_, ?_, ?_⟩
  · intro h1 hal
    rw [hv, h1]
    simp [hal, hsw, Except.map, after_load_immediate, load_instr_eight g hsw]
  · intro h1 hal
    rw [hv, h1]
    simp [hal, hsw, Except.map, after_load_shuffle, load_instr_eight g hsw]
  · intro h1 hal
    rw [hv, h1]
    simp [hal, hsw, Except.map, after_load_shuffle, load_instr_eight g hsw]

theorem C2_group2_load_patterns_witness :
    ∃ r, (example_codegen 2 4).visit (example_load_heap (example_address 3 4 8) [8, 9]) 0 = .ok r ∧
      r.1.code =
        ["auto var_0000_immediate = _mm256_load_ps(&context.get_buffer<float32>(03)[0 * n + 4 * (g + loop_index) + 8 + 0]);\n",
          "auto var_0000 = var_0000_immediate;\n"] := by
  obtain ⟨a, ha, h1, -, -⟩ := C2_group2_load_patterns (example_codegen 2 4)
    (example_load_heap (example_address 3 4 8) [8, 9]) 0 1 2 8 rfl rfl rfl rfl rfl rfl rfl rfl rfl
    rfl rfl rfl (by decide)
  have e : a = "&context.get_buffer<float32>(03)[0 * n + 4 * (g + loop_index) + 8 + 0]" :=
    Except.ok.inj (ha.symm.trans rfl)
  subst e
  exact ⟨_, h1 rfl (by decide), rfl⟩

/-- Claim C2 fails as stated: a load node that meets every condition of the
claim (vector mode, `simd_width = 8`, `group_size = 2`, `num_groups = 4 =
coeff_aosoa_group_size`, no name yet, vectorized, two same-type members with
offsets `[8, 9]`, own offset `8`) but is not bound to a buffer
(`buffer_id == -1`) is not visited successfully: the assertion of
`get_vectorized_address` stops the run. -/
theorem C2_unbound_counterexample :
    (example_codegen 2 4).mode = Mode.vector ∧ (example_codegen 2 4).simd_width = 8 ∧
      (example_codegen 2 4).group_size = 2 ∧ (example_codegen 2 4).num_groups = 4 ∧
      (example_load_heap (example_address (-1) 4 8) [8, 9] 0).addr.coeff_aosoa_group_size = 4 ∧
      (example_load_heap (example_address (-1) 4 8) [8, 9] 0).type = NodeType.load ∧
      (example_load_heap (example_address (-1) 4 8) [8, 9] 0).is_vectorized = true ∧
      (example_load_heap (example_address (-1) 4 8) [8, 9] 0).var_name = "" ∧
      (example_load_heap (example_address (-1) 4 8) [8, 9] 0).members = [1, 2] ∧
      (example_load_heap (example_address (-1) 4 8) [8, 9] 1).addr.same_type
        (example_load_heap (example_address (-1) 4 8) [8, 9] 2).addr = true ∧
      (example_load_heap (example_address (-1) 4 8) [8, 9] 0).addr.coeff_const = 8 ∧
      (example_load_heap (example_address (-1) 4 8) [8, 9] 1).addr.offset = 8 ∧
      (example_load_heap (example_address (-1) 4 8) [8, 9] 2).addr.offset = 8 + 1 ∧
      Int.tmod 8 8 = 0 ∧
      (example_codegen 2 4).visit (example_load_heap (example_address (-1) 4 8) [8, 9]) 0 =
        .error Fatal.assertion :=
  ⟨rfl, rfl, rfl, rfl, rfl, rfl, rfl, rfl, rfl, rfl, rfl, rfl, rfl, rfl, rfl⟩

/-- Claim C3, as amended: in vector mode with `simd_width = 8`, `group_size = 4`
and `num_groups = 2 = coeff_aosoa_group_size`, a not-yet-emitted vectorized
load node that is bound to a buffer (`buffer_id != -1`) and whose four
same-type members all have the constant offset `k`, with `p = k % 8` in
`{0, 1, 2, 3}`, is visited successfully, and the emitted text is the aligned
load followed by exactly one `_mm256_shuffle_ps` on the `_immediate` value,
with immediate `0x00`, `0x55`, `0xAA`, `0xFF` for `p = 0, 1, 2, 3`. -/
theorem C3_group4_uniform_shuffle (g : CPUCodeGen) (h : Heap) (expr m0 m1 m2 m3 : Nat)
    (k : Int) (imm : String)
    (hmode : g.mode = Mode.vector) (hsw : g.simd_width = 8) (hgs : g.group_size = 4)
    (hng : g.num_groups = 2) (haos : (h expr).addr.coeff_aosoa_group_size = 2)
    (htype : (h expr).type = NodeType.load) (hvec : (h expr).is_vectorized = true)
    (hname : (h expr).var_name = "") (hmem : (h expr).members = [m0, m1, m2, m3])
    (hst : adjacent_same_type [(h m0).addr, (h m1).addr, (h m2).addr, (h m3).addr] = true)
    (hk : ∀ m ∈ (h expr).members, (h m).addr.offset = k)
    (hb : (h expr).addr.buffer_id ≠ -1)
    (hp : (Int.tmod k 8 = 0 ∧ imm = "0x00") ∨ (Int.tmod k 8 = 1 ∧ imm = "0x55") ∨
      (Int.tmod k 8 = 2 ∧ imm = "0xAA") ∨ (Int.tmod k 8 = 3 ∧ imm = "0xFF")) :
    ∃ a, g.get_vectorized_address ((h expr).addr.align_down 8) 0 = .ok a ∧
      g.visit h expr = .ok
        ({ g with
            var_count := g.var_count + 1
            code := g.code ++ g.prefetch_code ((h expr).addr.align_down 8) ++
              ["auto " ++ g.create_variable.1 ++ "_immediate = " ++ "_mm256_load_ps" ++ "(" ++
                  a ++ ");" ++ g.code_suffix,
                "auto " ++ g.create_variable.1 ++ " = _mm256_shuffle_ps(" ++
                  g.create_variable.1 ++ "_immediate, " ++ g.create_variable.1 ++
                  "_immediate, " ++ imm ++ ");" ++ g.code_suffix] },
          h.set_var_name expr g.create_variable.1) := by
  have hz : ((h expr).addr.align_down 8).coeff_aosoa_group_size ≠ 0 := by
    rw [align_down_group_size, haos]; decide
  obtain ⟨a, ha⟩ : ∃ a, g.get_vectorized_address ((h expr).addr.align_down 8) 0 = .ok a :=
    ⟨_, get_vectorized_address_ok g _ 0 hb hz⟩
  have hsw0 : g.simd_width ≠ 0 := by rw [hsw]; decide
  have hv := visit_load_node g h expr a hmode htype hvec hname
    (Or.inr (by rw [hmem, hgs]; rfl)) (by rw [hmem]; exact hst)
    (by rw [hng, haos]) hsw0 (by rw [hsw]; exact ha)
  have k0 : (h m0).addr.offset = k := hk m0 (by rw [hmem]; simp)
  have k1 : (h m1).addr.offset = k := hk m1 (by rw [hmem]; simp)
  rw [hmem, if_neg (by rw [hgs]; decide)] at hv
  simp only [List.map, k0, k1] at hv
  rw [load_pattern_four (g.create_variable.2.with_aligned_load (h expr).addr g.create_variable.1 a)
    _ _ _ _ _ _ hgs hsw0] at hv
  have e8 : (g.create_variable.2.with_aligned_load (h expr).addr g.create_variable.1
      a).simd_width = 8 := hsw
  rw [e8] at hv
  refine ⟨a, ha, ?_⟩
  rw [hv]
  rcases hp with ⟨hp, hi⟩ | ⟨hp, hi⟩ | ⟨hp, hi⟩ | ⟨hp, hi⟩ <;>
    simp [hp, hi, hsw, Except.map, after_load_shuffle, load_instr_eight g hsw]

theorem C3_group4_uniform_shuffle_witness :
    ∃ r, (example_codegen 4 2).visit (example_load_heap (example_address 3 2 9) [9, 9, 9, 9]) 0 =
        .ok r ∧
      r.1.code =
        ["auto var_0000_immediate = _mm256_load_ps(&context.get_buffer<float32>(03)[0 * n + 2 * (g + loop_index) + 8 + 0]);\n",
          "auto var_0000 = _mm256_shuffle_ps(var_0000_immediate, var_0000_immediate, 0x55);\n"] := by
  obtain ⟨a, ha, h1⟩ := C3_group4_uniform_shuffle (example_codegen 4 2)
    (example_load_heap (example_address 3 2 9) [9, 9, 9, 9]) 0 1 2 3 4 9 "0x55" rfl rfl rfl rfl rfl
    rfl rfl rfl rfl rfl (by decide) (by decide) (by decide)
  have e : a = "&context.get_buffer<float32>(03)[0 * n + 2 * (g + loop_index) + 8 + 0]" :=
    Except.ok.inj (ha.symm.trans rfl)
  subst e
  exact ⟨_, h1, rfl⟩

/-- Claim C3 fails as stated: a load node that meets every condition of the
claim (vector mode, `simd_width = 8`, `group_size = 4`, `num_groups = 2 =
coeff_aosoa_group_size`, no name yet, vectorized, four same-type members that
share the offset `1`) but is not bound to a buffer (`buffer_id == -1`) is not
visited successfully. -/
theorem C3_unbound_counterexample :
    (example_codegen 4 2).mode = Mode.vector ∧ (example_codegen 4 2).simd_width = 8 ∧
      (example_codegen 4 2).group_size = 4 ∧ (example_codegen 4 2).num_groups = 2 ∧
      (example_load_heap (example_address (-1) 2 1) [1, 1, 1, 1] 0).addr.coeff_aosoa_group_size
        = 2 ∧
      (example_load_heap (example_address (-1) 2 1) [1, 1, 1, 1] 0).type = NodeType.load ∧
      (example_load_heap (example_address (-1) 2 1) [1, 1, 1, 1] 0).is_vectorized = true ∧
      (example_load_heap (example_address (-1) 2 1) [1, 1, 1, 1] 0).var_name = "" ∧
      (example_load_heap (example_address (-1) 2 1) [1, 1, 1, 1] 0).members = [1, 2, 3, 4] ∧
      adjacent_same_type
        (((example_load_heap (example_address (-1) 2 1) [1, 1, 1, 1] 0).members).map fun m =>
          (example_load_heap (example_address (-1) 2 1) [1, 1, 1, 1] m).addr) = true ∧
      (∀ m ∈ (example_load_heap (example_address (-1) 2 1) [1, 1, 1, 1] 0).members,
        (example_load_heap (example_address (-1) 2 1) [1, 1, 1, 1] m).addr.offset = 1) ∧
      Int.tmod 1 8 = 1 ∧
      (example_codegen 4 2).visit (example_load_heap (example_address (-1) 2 1) [1, 1, 1, 1]) 0 =
        .error Fatal.assertion :=
  ⟨rfl, rfl, rfl, rfl, rfl, rfl, rfl, rfl, rfl, rfl, by decide, rfl, rfl⟩

/-- Claim C4, as amended: in vector mode with `simd_width = 8`, `group_size = 8`
and `num_groups = 1 = coeff_aosoa_group_size`, for a not-yet-emitted vectorized
load node with eight same-type members, with `offset_const = offsets[0] % 8`
and `offset_inc = offsets[1] - offsets[0]`: if the node is bound to a buffer
(`buffer_id != -1`), then with `offset_inc == 1`, `offset_const == 0` and an
aligned base offset the visit succeeds and emits the aligned load followed by
`auto v = v_immediate;`, with no shuffle, and with `offset_inc == 0` it
succeeds and defines the variable by `_mm256_broadcast_ss` of the node's own
address, with no shuffle; and whether bound or not, with `offset_inc == 1` and
`offset_const != 0`, or `offset_inc` neither 0 nor 1, the visit fails. -/
theorem C4_group8_load_patterns (g : CPUCodeGen) (h : Heap) (expr m0 m1 : Nat)
    (rest : List Nat)
    (hmode : g.mode = Mode.vector) (hsw : g.simd_width = 8) (hgs : g.group_size = 8)
    (hng : g.num_groups = 1) (haos : (h expr).addr.coeff_aosoa_group_size = 1)
    (htype : (h expr).type = NodeType.load) (hvec : (h expr).is_vectorized = true)
    (hname : (h expr).var_name = "") (hmem : (h expr).members = m0 :: m1 :: rest)
    (hlen : rest.length = 6)
    (hst : adjacent_same_type ((h expr).members.map fun m => (h m).addr) = true) :
    ((h expr).addr.buffer_id ≠ -1 →
      ∃ a b, g.get_vectorized_address ((h expr).addr.align_down 8) 0 = .ok a ∧
        g.get_vectorized_address (h expr).addr 0 = .ok b ∧
        ((h m1).addr.offset - (h m0).addr.offset = 1 → Int.tmod (h m0).addr.offset 8 = 0 →
          Int.tmod (h expr).addr.coeff_const 8 = 0 →
          g.visit h expr = .ok
            ({ g with
                var_count := g.var_count + 1
                code := g.code ++ g.prefetch_code ((h expr).addr.align_down 8) ++
                  ["auto " ++ g.create_variable.1 ++ "_immediate = " ++ "_mm256_load_ps" ++
                      "(" ++ a ++ ");" ++ g.code_suffix,
                    "auto " ++ g.create_variable.1 ++ " = " ++ g.create_variable.1 ++
                      "_immediate;" ++ g.code_suffix] },
              h.set_var_name expr g.create_variable.1)) ∧
        ((h m1).addr.offset - (h m0).addr.offset = 0 →
          g.visit h expr = .ok
            ({ g with
                var_count := g.var_count + 1
                code := g.code ++ g.prefetch_code ((h expr).addr.align_down 8) ++
                  ["auto " ++ g.create_variable.1 ++ "_immediate = " ++ "_mm256_load_ps" ++
                      "(" ++ a ++ ");" ++ g.code_suffix,
                    "auto " ++ g.create_variable.1 ++ " = _mm256_broadcast_ss(" ++ b ++ ");" ++
                      g.code_suffix] },
              h.set_var_name expr g.create_variable.1))) ∧
      (((h m1).addr.offset - (h m0).addr.offset = 1 ∧ Int.tmod (h m0).addr.offset 8 ≠ 0) ∨
          ((h m1).addr.offset - (h m0).addr.offset ≠ 0 ∧
            (h m1).addr.offset - (h m0).addr.offset ≠ 1) →
        ∃ f, g.visit h expr = .error f) := by
  have hsw0 : g.simd_width ≠ 0 := by rw [hsw]; decide
  have hoff : ((h expr).members.map fun m => (h m).addr).map Address.offset =
      (h m0).addr.offset :: (h m1).addr.offset :: rest.map fun m => (h m).addr.offset := by
    rw [hmem]; simp
  constructor
  · intro hb
    have hz : ((h expr).addr.align_down 8).coeff_aosoa_group_size ≠ 0 := by
      rw [align_down_group_size, haos]; decide
    have hz' : (h expr).addr.coeff_aosoa_group_size ≠ 0 := by rw [haos]; decide
    obtain ⟨a, ha⟩ : ∃ a, g.get_vectorized_address ((h expr).addr.align_down 8) 0 = .ok a :=
      ⟨_, get_vectorized_address_ok g _ 0 hb hz⟩
    obtain ⟨b, hb'⟩ : ∃ b, g.get_vectorized_address (h expr).addr 0 = .ok b :=
      ⟨_, get_vectorized_address_ok g _ 0 hb hz'⟩
    have hv := visit_load_node g h expr a hmode htype hvec hname
      (Or.inr (by rw [hmem, hgs]; simp [hlen])) hst (by rw [hng, haos]) hsw0
      (by rw [hsw]; exact ha)
    rw [hmem, if_neg (by rw [hgs]; decide)] at hv
    simp only [List.map] at hv
    rw [load_pattern_eight
      (g.create_variable.2.with_aligned_load (h expr).addr g.create_variable.1 a)
      _ _ _ _ _ _ hgs hsw0,
      get_vectorized_address_congr g
        (g.create_variable.2.with_aligned_load (h expr).addr g.create_variable.1 a) _ 0 rfl,
      hb'] at hv
    have e8 : (g.create_variable.2.with_aligned_load (h expr).addr g.create_variable.1
        a).simd_width = 8 := hsw
    rw [e8] at hv
    refine ⟨a, b, ha, hb', ?_, ?_⟩
    · intro hinc hconst hal
      rw [hv]
      simp [hinc, hconst, hal, hsw, Except.map, after_load_immediate, load_instr_eight g hsw]
    · intro hinc
      rw [hv]
      simp [hinc, hsw, Except.map, after_load_broadcast, load_instr_eight g hsw]
  · intro hbad
    apply visit_error_of_load_error g h expr htype hname
    intro _
    apply visit_load_error_of_pattern_error _ _ _ _
      (by show g.group_size ≠ 1; rw [hgs]; decide)
    intro g' ns hg hs
    have hg8 : g'.group_size = 8 := by rw [hg]; exact hgs
    have hs8 : g'.simd_width = 8 := by rw [hs]; exact hsw
    rw [hoff, load_pattern_eight g' _ _ _ _ _ _ hg8 (by rw [hs8]; decide), hs8]
    rcases hbad with ⟨h1, h2⟩ | ⟨h1, h2⟩
    · exact ⟨Fatal.assertion, by simp [h1, h2]⟩
    · exact ⟨Fatal.assertion, by simp [h1, h2]⟩

theorem C4_group8_load_patterns_witness :
    ∃ r, (example_codegen 8 1).visit
        (example_load_heap (example_address 3 1 8) [8, 9, 10, 11, 12, 13, 14, 15]) 0 = .ok r ∧
      r.1.code =
        ["auto var_0000_immediate = _mm256_load_ps(&context.get_buffer<float32>(03)[0 * n + 1 * (g + loop_index) + 8 + 0]);\n",
          "auto var_0000 = var_0000_immediate;\n"] := by
  obtain ⟨a, b, ha, -, h1, -⟩ := (C4_group8_load_patterns (example_codegen 8 1)
    (example_load_heap (example_address 3 1 8) [8, 9, 10, 11, 12, 13, 14, 15]) 0 1 2
    [3, 4, 5, 6, 7, 8] rfl rfl rfl rfl rfl rfl rfl rfl rfl rfl rfl).1 (by decide)
  have e : a = "&context.get_buffer<float32>(03)[0 * n + 1 * (g + loop_index) + 8 + 0]" :=
    Except.ok.inj (ha.symm.trans rfl)
  subst e
  exact ⟨_, h1 (by decide) (by decide) (by decide), rfl⟩

/-- Claim C4 fails as stated: a load node that meets every condition of the
claim for the broadcast case (vector mode, `simd_width = 8`, `group_size = 8`,
`num_groups = 1 = coeff_aosoa_group_size`, no name yet, vectorized, eight
same-type members with equal offsets, so `offset_inc == 0`) but is not bound to
a buffer (`buffer_id == -1`) is not visited successfully. -/
theorem C4_unbound_counterexample :
    (example_codegen 8 1).mode = Mode.vector ∧ (example_codegen 8 1).simd_width = 8 ∧
      (example_codegen 8 1).group_size = 8 ∧ (example_codegen 8 1).num_groups = 1 ∧
      (example_load_heap (example_address (-1) 1 0) [0, 0, 0, 0, 0, 0, 0, 0]
        0).addr.coeff_aosoa_group_size = 1 ∧
      (example_load_heap (example_address (-1) 1 0) [0, 0, 0, 0, 0, 0, 0, 0] 0).type =
        NodeType.load ∧
      (example_load_heap (example_address (-1) 1 0) [0, 0, 0, 0, 0, 0, 0, 0] 0).is_vectorized =
        true ∧
      (example_load_heap (example_address (-1) 1 0) [0, 0, 0, 0, 0, 0, 0, 0] 0).var_name = "" ∧
      (example_load_heap (example_address (-1) 1 0) [0, 0, 0, 0, 0, 0, 0, 0] 0).members =
        [1, 2, 3, 4, 5, 6, 7, 8] ∧
      adjacent_same_type
        (((example_load_heap (example_address (-1) 1 0) [0, 0, 0, 0, 0, 0, 0, 0] 0).members).map
          fun m => (example_load_heap (example_address (-1) 1 0) [0, 0, 0, 0, 0, 0, 0, 0] m).addr)
        = true ∧
      (example_load_heap (example_address (-1) 1 0) [0, 0, 0, 0, 0, 0, 0, 0] 2).addr.offset -
        (example_load_heap (example_address (-1) 1 0) [0, 0, 0, 0, 0, 0, 0, 0] 1).addr.offset
        = 0 ∧
      (example_codegen 8 1).visit
        (example_load_heap (example_address (-1) 1 0) [0, 0, 0, 0, 0, 0, 0, 0]) 0 =
        .error Fatal.assertion :=
  ⟨rfl, rfl, rfl, rfl, rfl, rfl, rfl, rfl, rfl, rfl, rfl, rfl⟩

/-- Claim C5: for a not-yet-emitted load node, with `offset_const = offsets[0] %
simd_width` and `offset_inc = offsets[1] - offsets[0]`: when `group_size` is 2
or 4 and the pair is neither (`offset_const == 0`, `offset_inc == 1`) nor
(`offset_inc == 0` with `offset_const` in `0 .. group_size - 1`), the visit
fails; and when `group_size` is 3, 5, 6, 7 or greater than 8, the visit of any
such load node fails. -/
theorem C5_unsupported_patterns_fail (g : CPUCodeGen) (h : Heap) (expr : Nat)
    (htype : (h expr).type = NodeType.load) (hname : (h expr).var_name = "") :
    (∀ (m0 m1 : Nat) (rest : List Nat), (h expr).members = m0 :: m1 :: rest →
        g.group_size = 2 ∨ g.group_size = 4 →
        ¬ (Int.tmod (h m0).addr.offset g.simd_width = 0 ∧
          (h m1).addr.offset - (h m0).addr.offset = 1) →
        ¬ ((h m1).addr.offset - (h m0).addr.offset = 0 ∧
          0 ≤ Int.tmod (h m0).addr.offset g.simd_width ∧
          Int.tmod (h m0).addr.offset g.simd_width < g.group_size) →
        ∃ f, g.visit h expr = .error f) ∧
      (g.group_size = 3 ∨ g.group_size = 5 ∨ g.group_size = 6 ∨ g.group_size = 7 ∨
          8 < g.group_size →
        ∃ f, g.visit h expr = .error f) := by
  constructor
  · intro m0 m1 rest hmem hgs hcontig huniform
    apply visit_error_of_load_error g h expr htype hname
    intro _
    apply visit_load_error_of_pattern_error _ _ _ _
      (by show g.group_size ≠ 1; rcases hgs with e | e <;> rw [e] <;> decide)
    intro g' ns hg hs
    have hoff : ((h expr).members.map fun m => (h m).addr).map Address.offset =
        (h m0).addr.offset :: (h m1).addr.offset :: rest.map fun m => (h m).addr.offset := by
      rw [hmem]; simp
    rw [hoff]
    by_cases hsw : g'.simd_width = 0
    · exact load_pattern_zero_width g' _ _ _ ns hsw
    rw [show g.create_variable.2.simd_width = g.simd_width from rfl] at hs
    rw [show g.create_variable.2.group_size = g.group_size from rfl] at hg
    rw [← hs] at hcontig huniform
    rcases hgs with e | e
    · rw [load_pattern_two g' _ _ _ _ _ _ (by rw [hg]; exact e) hsw, if_neg hcontig]
      by_cases hinc : (h m1).addr.offset - (h m0).addr.offset = 0
      · have hc : ¬ (0 ≤ Int.tmod (h m0).addr.offset g'.simd_width ∧
            Int.tmod (h m0).addr.offset g'.simd_width < 2) := by
          rw [e] at huniform
          exact fun hc => huniform ⟨hinc, hc⟩
        have c0 : Int.tmod (h m0).addr.offset g'.simd_width ≠ 0 := fun c => hc (by rw [c]; decide)
        have c1 : Int.tmod (h m0).addr.offset g'.simd_width ≠ 1 := fun c => hc (by rw [c]; decide)
        exact ⟨Fatal.not_implemented, by simp [hinc, c0, c1]⟩
      · exact ⟨Fatal.not_implemented, by simp [hinc]⟩
    · rw [load_pattern_four g' _ _ _ _ _ _ (by rw [hg]; exact e) hsw, if_neg hcontig]
      by_cases hinc : (h m1).addr.offset - (h m0).addr.offset = 0
      · have hc : ¬ (0 ≤ Int.tmod (h m0).addr.offset g'.simd_width ∧
            Int.tmod (h m0).addr.offset g'.simd_width < 4) := by
          rw [e] at huniform
          exact fun hc => huniform ⟨hinc, hc⟩
        have c0 : Int.tmod (h m0).addr.offset g'.simd_width ≠ 0 := fun c => hc (by rw [c]; decide)
        have c1 : Int.tmod (h m0).addr.offset g'.simd_width ≠ 1 := fun c => hc (by rw [c]; decide)
        have c2 : Int.tmod (h m0).addr.offset g'.simd_width ≠ 2 := fun c => hc (by rw [c]; decide)
        have c3 : Int.tmod (h m0).addr.offset g'.simd_width ≠ 3 := fun c => hc (by rw [c]; decide)
        exact ⟨Fatal.not_implemented, by simp [hinc, c0, c1, c2, c3]⟩
      · exact ⟨Fatal.not_implemented, by simp [hinc]⟩
  · intro hgs
    apply visit_error_of_load_error g h expr htype hname
    intro _
    apply visit_load_error_of_pattern_error _ _ _ _
      (by show g.group_size ≠ 1; omega)
    intro g' ns hg _
    rw [show g.create_variable.2.group_size = g.group_size from rfl] at hg
    exact load_pattern_other g' _ _ _ ns (by omega) (by omega) (by omega)

theorem C5_unsupported_patterns_fail_witness :
    ∃ f, (example_codegen 2 4).visit (example_load_heap (example_address 3 4 0) [0, 2]) 0 =
      .error f :=
  (C5_unsupported_patterns_fail (example_codegen 2 4)
    (example_load_heap (example_address 3 4 0) [0, 2]) 0 rfl rfl).1 1 2 [] rfl (Or.inl rfl)
    (by decide) (by decide)

/-- Claim C6, what the code does: with `group_size = 4` the member offsets
`[0, 1, 5, 9]`, which are not contiguous, are accepted on the contiguous path
(the node variable is the aligned vector unchanged), and the member offsets
`[0, 0, 5, 9]`, which are not all equal, are accepted on the uniform path (one
shuffle with immediate `0x00`): only `offsets[0]` and `offsets[1]` are
inspected. -/
theorem C6_only_first_two_offsets_checked :
    ((example_codegen 4 2).visit (example_load_heap (example_address 3 2 0) [0, 1, 5, 9])
        0).toOption.map (fun r => r.1.code) =
      some ["auto var_0000_immediate = _mm256_load_ps(&context.get_buffer<float32>(03)[0 * n + 2 * (g + loop_index) + 0 + 0]);\n",
        "auto var_0000 = var_0000_immediate;\n"] ∧
    ((example_codegen 4 2).visit (example_load_heap (example_address 3 2 0) [0, 0, 5, 9])
        0).toOption.map (fun r => r.1.code) =
      some ["auto var_0000_immediate = _mm256_load_ps(&context.get_buffer<float32>(03)[0 * n + 2 * (g + loop_index) + 0 + 0]);\n",
        "auto var_0000 = _mm256_shuffle_ps(var_0000_immediate, var_0000_immediate, 0x00);\n"] := by
  constructor <;> decide

/-- Claim C7: for a vectorized node whose members list is empty or of size
`group_size`: if its `var_name` is already non-empty, `visit` is a no-op (the
generator, hence the source text and the temporary counter, and the heap,
hence the `var_name`, are returned unchanged); and after any successful visit
of the node, a second visit in a row returns the state of the first unchanged,
a node other than `addr` has a non-empty `var_name`, and no other node was
touched, so a later visit through another parent emits nothing. -/
theorem C7_visit_memoized (g : CPUCodeGen) (h : Heap) (expr : Nat)
    (hvec : (h expr).is_vectorized = true)
    (hsize : (h expr).members.length = 0 ∨ ((h expr).members.length : Int) = g.group_size) :
    ((h expr).var_name ≠ "" → g.visit h expr = .ok (g, h)) ∧
      ∀ (g' : CPUCodeGen) (h' : Heap), g.visit h expr = .ok (g', h') →
        g'.visit h' expr = .ok (g', h') ∧
        ((h expr).type ≠ NodeType.addr → (h' expr).var_name ≠ "") ∧
        ∀ e', e' ≠ expr → h' e' = h e' := by
  constructor
  · intro hname
    exact visit_noop g h expr hvec hsize (Or.inr hname)
  · intro g' h' hr
    obtain ⟨⟨lines, he⟩, hh, -, -⟩ := visit_emits g h expr g' h' hr
    have hgs : g'.group_size = g.group_size := emits_group_size g g' lines he
    rcases hh with ⟨hdone, e1, e2⟩ | ⟨hname, htype, e1⟩
    · subst e1 e2
      refine ⟨hr, ?_, fun _ _ => rfl⟩
      intro htype
      rcases hdone with hd | hd
      · exact absurd hd htype
      · exact hd
    · subst e1
      refine ⟨?_, fun _ => ?_, fun e' he' => set_var_name_other h expr _ e' he'⟩
      · apply visit_noop
        · rw [set_var_name_is_vectorized]; exact hvec
        · rw [set_var_name_members, hgs]; exact hsize
        · right
          rw [set_var_name_same]
          exact create_variable_ne_empty g
      · rw [set_var_name_same]
        exact create_variable_ne_empty g

theorem C7_visit_memoized_witness :
    (example_codegen 2 4).visit
        ((example_load_heap (example_address 3 4 8) [8, 9]).set_var_name 0 "var_0000") 0 =
      .ok (example_codegen 2 4,
        (example_load_heap (example_address 3 4 8) [8, 9]).set_var_name 0 "var_0000") :=
  (C7_visit_memoized (example_codegen 2 4)
    ((example_load_heap (example_address 3 4 8) [8, 9]).set_var_name 0 "var_0000") 0 rfl
    (Or.inr rfl)).1 (by decide)

/-- Claim C8, what the code does: whenever the `x86_64` branch of
`Program::compile` (which sets `unroll = 4`) generates source, the source
ends with the eight invocations `LOOP(0);` ... `LOOP(7);` of the main body
followed by a tail that advances `i` by 32 (`num_groups * unroll = 8 * 4`) and
`g` by 4: the main body is invoked eight times but the counters skip only four
lane groups. -/
theorem C8_main_body_invocations_and_tail (run : VectorizerRun) (fuel : Nat)
    (base : CPUCodeGen) (h : Heap) (prog : Program) (g' : CPUCodeGen) (h' : Heap)
    (hr : Program.compile_x86_64 run fuel base h prog = .ok (g', h')) :
    ∃ pre : List String,
      g'.code = pre ++ ["\x7d\n\n", "LOOP(0);\n", "LOOP(1);\n", "LOOP(2);\n", "LOOP(3);\n",
        "LOOP(4);\n", "LOOP(5);\n", "LOOP(6);\n", "LOOP(7);\n", "#undef LOOP\n\n",
        "i += 32; g += 4;", "\x7d\n\x7d\n"] := by
  unfold Program.compile_x86_64 CPUCodeGen.get at hr
  obtain ⟨bodies, main, ret, -, -, -, -, -, hcode⟩ := codegen_code run fuel _ h prog 1 g' h' hr
  refine ⟨base.code ++
    ["#include <common.h>\n using namespace taichi; using namespace Tlang;" ++ base.code_suffix,
      "extern \"C\" void " ++ base.func_name ++ "(Context context) \x7b\n" ++ base.code_suffix,
      "auto n = context.get_range(0);\n" ++ base.code_suffix,
      "for (int i = 0, g = 0; i < n; ) \x7b\n" ++ base.code_suffix,
      "float32 cache0000[128];" ++ base.code_suffix] ++
    (bodies.map fun body => macro_block body ["LOOP(0);\n"]).flatten ++
    (["#define LOOP(loop_index) \x7b \\\n"] ++ main), ?_⟩
  rw [hcode]
  have e : "i += " ++ fmt_d (Int.tdiv 8 1 * 4) ++ "; g += " ++ fmt_d 4 ++ ";" =
      "i += 32; g += 4;" := by decide
  simp only [CPUCodeGen.init, macro_block, e, List.append_assoc, List.singleton_append,
    List.cons_append, List.nil_append]

theorem C8_main_body_invocations_and_tail_witness :
    ∃ (r : CPUCodeGen × Heap) (pre : List String),
      Program.compile_x86_64 example_vectorizer 8 example_base example_store_heap
        (example_program []) = .ok r ∧
      r.1.code = pre ++ ["\x7d\n\n", "LOOP(0);\n", "LOOP(1);\n", "LOOP(2);\n", "LOOP(3);\n",
        "LOOP(4);\n", "LOOP(5);\n", "LOOP(6);\n", "LOOP(7);\n", "#undef LOOP\n\n",
        "i += 32; g += 4;", "\x7d\n\x7d\n"] := by
  obtain ⟨⟨g', h'⟩, hr⟩ := except_ok_of_isSome
    (Program.compile_x86_64 example_vectorizer 8 example_base example_store_heap
      (example_program [])) (by decide)
  obtain ⟨pre, hpre⟩ := C8_main_body_invocations_and_tail example_vectorizer 8 example_base
    example_store_heap (example_program []) g' h' hr
  exact ⟨_, pre, hr, hpre⟩

/-- Claim C9: given a non-zero `coeff_aosoa_group_size`,
`get_vectorized_address` fails if and only if `addr.buffer_id == -1`, and then
by its assertion; hence in vector mode the visit of a not-yet-emitted load or
store node whose address is unbound fails, so that no load or store instruction
is emitted for it. -/
theorem C9_unbound_address_fails (g : CPUCodeGen) (addr : Address) (extra_offset : Int)
    (hz : addr.coeff_aosoa_group_size ≠ 0) :
    ((∃ f, g.get_vectorized_address addr extra_offset = .error f) ↔ addr.buffer_id = -1) ∧
      (g.get_vectorized_address addr extra_offset = .error Fatal.assertion ↔
        addr.buffer_id = -1) ∧
      ∀ (h : Heap) (expr : Nat), g.mode = Mode.vector → (h expr).var_name = "" →
        (h expr).type = NodeType.load ∨ (h expr).type = NodeType.store →
        (h expr).addr.buffer_id = -1 → ∃ f, g.visit h expr = .error f := by
  refine ⟨⟨?_, ?_⟩, ⟨?_, ?_⟩, ?_⟩
  · rintro ⟨f, hf⟩
    by_contra hb
    rw [get_vectorized_address_ok g addr extra_offset hb hz] at hf
    cases hf
  · intro hb
    exact ⟨_, get_vectorized_address_unbound g addr extra_offset hb⟩
  · intro hf
    by_contra hb
    rw [get_vectorized_address_ok g addr extra_offset hb hz] at hf
    cases hf
  · exact get_vectorized_address_unbound g addr extra_offset
  · intro h expr hmode hname htype hb
    rcases htype with htype | htype
    · apply visit_error_of_load_error g h expr htype hname
      intro _
      rcases visit_load_error_or g.create_variable.2 ((h expr).members.map fun m => (h m).addr)
        (h expr).addr g.create_variable.1 with he | ⟨a, -, -, -, hb', -⟩
      · exact he
      · exact absurd hb hb'
    · apply visit_error_of_emit_error g h expr (by rw [htype]; decide) hname
      have ht : (h.set_var_name expr g.create_variable.1 expr).type = NodeType.store := by
        rw [set_var_name_type]; exact htype
      have hm : g.create_variable.2.mode = Mode.vector := hmode
      refine ⟨Fatal.assertion, ?_⟩
      simp [CPUCodeGen.visit_emit, CPUCodeGen.find_binary_op, ht, hm, set_var_name_addr,
        get_vectorized_address_unbound _ _ _ hb, bind, Except.bind]

theorem C9_unbound_address_fails_witness :
    (example_codegen 1 8).get_vectorized_address (example_address (-1) 8 0) 0 =
        .error Fatal.assertion ∧
      ∃ f, (example_codegen 1 8).visit (example_load_heap (example_address (-1) 8 0) [0]) 0 =
        .error f :=
  ⟨(C9_unbound_address_fails (example_codegen 1 8) (example_address (-1) 8 0) 0
      (by decide)).2.1.2 rfl,
    (C9_unbound_address_fails (example_codegen 1 8) (example_address (-1) 8 0) 0
      (by decide)).2.2 (example_load_heap (example_address (-1) 8 0) [0]) 0 rfl rfl
      (Or.inl rfl) rfl⟩

/-- Claim C10: when `codegen` succeeds for a program with `k` caches and a
non-null return root, the text it appends consists of the header and the cache
declaration, then `k` macro blocks `#define LOOP(loop_index) {` ... `#undef
LOOP`, one per cache in cache order, each holding the statements emitted for
that cache's store graph and followed by exactly the invocation `LOOP(0);`,
then the macro block of the main body, then the tail; so it contains exactly
`k + 1` `#define LOOP` lines and `k + 1` `#undef LOOP` lines, and every cache
block precedes the main block. -/
theorem C10_cache_blocks_precede_main (run : VectorizerRun) (fuel : Nat) (g : CPUCodeGen)
    (h : Heap) (prog : Program) (group_size : Int) (g' : CPUCodeGen) (h' : Heap)
    (hr : g.codegen run fuel h prog group_size = .ok (g', h')) :
    ∃ (bodies : List (List String)) (main : List String) (ret : Nat) (emitted : List String),
      prog.ret = some ret ∧ bodies.length = prog.caches.length ∧
      List.Forall₂ (fun (cache : Cache) body => is_body_of run fuel 1 cache.stores body)
        prog.caches bodies ∧
      is_body_of run fuel group_size ret main ∧
      g'.code = g.code ++ emitted ∧
      emitted =
        ["#include <common.h>\n using namespace taichi; using namespace Tlang;" ++
            g.code_suffix,
          "extern \"C\" void " ++ g.func_name ++ "(Context context) \x7b\n" ++ g.code_suffix,
          "auto n = context.get_range(0);\n" ++ g.code_suffix,
          "for (int i = 0, g = 0; i < n; ) \x7b\n" ++ g.code_suffix,
          "float32 cache0000[128];" ++ g.code_suffix] ++
        (bodies.map fun body => macro_block body ["LOOP(0);\n"]).flatten ++
        macro_block main ["LOOP(0);\n", "LOOP(1);\n", "LOOP(2);\n", "LOOP(3);\n", "LOOP(4);\n",
          "LOOP(5);\n", "LOOP(6);\n", "LOOP(7);\n"] ++
        ["i += " ++ fmt_d (Int.tdiv g.simd_width group_size * g.unroll) ++ "; g += " ++
            fmt_d g.unroll ++ ";",
          "\x7d\n\x7d\n"] ∧
      emitted.count "#define LOOP(loop_index) \x7b \\\n" = prog.caches.length + 1 ∧
      emitted.count "#undef LOOP\n\n" = prog.caches.length + 1 := by
  obtain ⟨bodies, main, ret, hret, hf, hm, hbs, hb, hcode⟩ :=
    codegen_code run fuel g h prog group_size g' h' hr
  have hlen : bodies.length = prog.caches.length := (List.Forall₂.length_eq hf).symm
  refine ⟨bodies, main, ret, _, hret, hlen, hf, hm, ?_, rfl, ?_, ?_⟩
  · rw [hcode]
    simp only [List.append_assoc]
  · simp only [List.count_append, count_header_zero _ (Or.inl rfl),
      count_cache_blocks _ (Or.inl rfl) bodies hbs,
      count_macro_block _ (Or.inl rfl) main ["LOOP(0);\n", "LOOP(1);\n", "LOOP(2);\n",
        "LOOP(3);\n", "LOOP(4);\n", "LOOP(5);\n", "LOOP(6);\n", "LOOP(7);\n"] hb (by decide), count_tail_zero _ (Or.inl rfl),
      hlen]
    omega
  · simp only [List.count_append, count_header_zero _ (Or.inr rfl),
      count_cache_blocks _ (Or.inr rfl) bodies hbs,
      count_macro_block _ (Or.inr rfl) main ["LOOP(0);\n", "LOOP(1);\n", "LOOP(2);\n",
        "LOOP(3);\n", "LOOP(4);\n", "LOOP(5);\n", "LOOP(6);\n", "LOOP(7);\n"] hb (by decide), count_tail_zero _ (Or.inr rfl),
      hlen]
    omega

theorem C10_cache_blocks_precede_main_witness :
    ∃ (r : CPUCodeGen × Heap) (emitted : List String),
      (example_codegen 1 8).codegen example_vectorizer 8 example_store_heap (example_program [1])
        1 = .ok r ∧
      r.1.code = (example_codegen 1 8).code ++ emitted ∧
      emitted.count "#define LOOP(loop_index) \x7b \\\n" = 1 + 1 := by
  obtain ⟨⟨g', h'⟩, hr⟩ := except_ok_of_isSome
    ((example_codegen 1 8).codegen example_vectorizer 8 example_store_heap (example_program [1])
      1) (by decide)
  obtain ⟨_, _, _, emitted, _, _, _, _, hcode, _, hcount, _⟩ :=
    C10_cache_blocks_precede_main example_vectorizer 8 (example_codegen 1 8) example_store_heap
      (example_program [1]) 1 g' h' hr
  exact ⟨_, emitted, hr, hcode, hcount⟩

/-- Claim C11: `Program::compile` fails with `function` unset whenever
`config.group_size <= 0` (by the assertion) or `config.arch` is not `x86_64`
(`gpu` included); the CPU code generator is reached exactly when
`group_size > 0` and `arch == x86_64`, and then decides the outcome; and in
every run `config.simd_width` becomes the architecture default when it was
`-1` and is unchanged otherwise, while nothing else of the program changes. -/
theorem C11_compile_dispatch (materialize_layout : Heap → Heap)
    (default_simd_width : Arch → Int) (run : VectorizerRun) (fuel : Nat) (base : CPUCodeGen)
    (h : Heap) (prog : Program) :
    (prog.config.group_size ≤ 0 →
        (Program.compile materialize_layout default_simd_width run fuel base h prog).2 =
          .error Fatal.assertion) ∧
      (0 < prog.config.group_size → prog.config.arch ≠ Arch.x86_64 →
        (Program.compile materialize_layout default_simd_width run fuel base h prog).2 =
          .error Fatal.not_implemented) ∧
      (0 < prog.config.group_size → prog.config.arch = Arch.x86_64 →
        (Program.compile materialize_layout default_simd_width run fuel base h prog).2 =
          Program.compile_x86_64 run fuel base (materialize_layout h)
            (Program.compile materialize_layout default_simd_width run fuel base h prog).1) ∧
      ((∃ r, (Program.compile materialize_layout default_simd_width run fuel base h prog).2 =
          .ok r) → 0 < prog.config.group_size ∧ prog.config.arch = Arch.x86_64) ∧
      (Program.compile materialize_layout default_simd_width run fuel base h prog).1.config.simd_width
        = (if prog.config.simd_width = -1 then default_simd_width prog.config.arch
          else prog.config.simd_width) ∧
      (Program.compile materialize_layout default_simd_width run fuel base h prog).1.config.arch
        = prog.config.arch ∧
      (Program.compile materialize_layout default_simd_width run fuel base h prog).1.config.group_size
        = prog.config.group_size ∧
      (Program.compile materialize_layout default_simd_width run fuel base h prog).1.caches
        = prog.caches ∧
      (Program.compile materialize_layout default_simd_width run fuel base h prog).1.ret
        = prog.ret := by
  have hcfg : (Program.compile materialize_layout default_simd_width run fuel base h
      prog).1.config.group_size = prog.config.group_size ∧
      (Program.compile materialize_layout default_simd_width run fuel base h
        prog).1.config.arch = prog.config.arch := by
    unfold Program.compile
    by_cases hs : prog.config.simd_width = -1 <;> simp [hs]
  have h1 : prog.config.group_size ≤ 0 →
      (Program.compile materialize_layout default_simd_width run fuel base h prog).2 =
        .error Fatal.assertion := by
    intro hg
    unfold Program.compile
    by_cases hs : prog.config.simd_width = -1 <;>
      simp [hs, TC_ASSERT, not_lt.mpr hg, bind, Except.bind]
  have h2 : 0 < prog.config.group_size → prog.config.arch ≠ Arch.x86_64 →
      (Program.compile materialize_layout default_simd_width run fuel base h prog).2 =
        .error Fatal.not_implemented := by
    intro hg ha
    unfold Program.compile
    by_cases hs : prog.config.simd_width = -1 <;>
      simp [hs, TC_ASSERT, hg, ha, bind, Except.bind]
  refine ⟨h1, h2, ?_, ?_, ?_, hcfg.2, hcfg.1, ?_, ?_⟩
  · intro hg ha
    unfold Program.compile
    by_cases hs : prog.config.simd_width = -1 <;>
      simp [hs, TC_ASSERT, hg, ha, bind, Except.bind]
  · rintro ⟨r, hr⟩
    by_cases hg : 0 < prog.config.group_size
    · by_cases ha : prog.config.arch = Arch.x86_64
      · exact ⟨hg, ha⟩
      · rw [h2 hg ha] at hr; cases hr
    · rw [h1 (not_lt.mp hg)] at hr; cases hr
  · unfold Program.compile
    by_cases hs : prog.config.simd_width = -1 <;> simp [hs]
  · unfold Program.compile
    by_cases hs : prog.config.simd_width = -1 <;> simp [hs]
  · unfold Program.compile
    by_cases hs : prog.config.simd_width = -1 <;> simp [hs]

theorem C11_compile_dispatch_witness :
    (Program.compile id (fun _ => 8) example_vectorizer 8 example_base example_store_heap
        { example_program [] with
          config := { arch := Arch.gpu, simd_width := -1, group_size := 1 } }).2 =
        .error Fatal.not_implemented ∧
      (Program.compile id (fun _ => 8) example_vectorizer 8 example_base example_store_heap
        { example_program [] with
          config := { arch := Arch.gpu, simd_width := -1, group_size := 1 } }).1.config.simd_width
        = 8 :=
  ⟨(C11_compile_dispatch id (fun _ => 8) example_vectorizer 8 example_base example_store_heap
      { example_program [] with
        config := { arch := Arch.gpu, simd_width := -1, group_size := 1 } }).2.1
      (by decide) (by decide),
    (C11_compile_dispatch id (fun _ => 8) example_vectorizer 8 example_base example_store_heap
      { example_program [] with
        config := { arch := Arch.gpu, simd_width := -1, group_size := 1 } }).2.2.2.2.1⟩

/-- Claim C12, what the code does: with `group_size = 1` a load node whose
base constant offset `3` is not a multiple of `simd_width = 8` is visited
successfully in vector mode, and the emitted code is the aligned load from the
rounded offset `0` followed by `auto v = v_immediate;`: no shuffle and no
broadcast is emitted, and the shuffle mark is never examined. -/
theorem C12_single_lane_unaligned_load :
    Int.tmod (example_load_heap (example_address 3 8 3) [3] 0).addr.coeff_const
        (example_codegen 1 8).simd_width ≠ 0 ∧
      (example_codegen 1 8).mode = Mode.vector ∧ (example_codegen 1 8).group_size = 1 ∧
      ((example_codegen 1 8).visit (example_load_heap (example_address 3 8 3) [3])
          0).toOption.map (fun r => r.1.code) =
        some ["auto var_0000_immediate = _mm256_load_ps(&context.get_buffer<float32>(03)[0 * n + 8 * (g + loop_index) + 0 + 0]);\n",
          "auto var_0000 = var_0000_immediate;\n"] := by
  refine ⟨by decide, rfl, rfl, by decide⟩

/-- Claim C13, what the code does: for the base constant offset `c = -3` and
`simd_width = 8` the aligned load is emitted for the constant offset `0`
(`c - c % 8` with the truncating remainder `-3`), which is greater than `c`
and is not `8 * floor(c / 8) = -8`. -/
theorem C13_negative_offset_rounds_towards_zero :
    ((example_codegen 8 1).visit
          (example_load_heap (example_address 3 1 (-3)) [-3, -3, -3, -3, -3, -3, -3, -3])
          0).toOption.map (fun r => r.1.code) =
        some ["auto var_0000_immediate = _mm256_load_ps(&context.get_buffer<float32>(03)[0 * n + 1 * (g + loop_index) + 0 + 0]);\n",
          "auto var_0000 = _mm256_broadcast_ss(&context.get_buffer<float32>(03)[0 * n + 1 * (g + loop_index) + -3 + 0]);\n"] ∧
      ¬ ((0 : Int) ≤ -3) ∧ (8 : Int) * Int.floor ((-3 : ℚ) / 8) = -8 := by
  refine ⟨by decide, by decide, ?_⟩
  norm_num [Int.floor_eq_iff]

/-- Claim C14, as amended: when the visit of a not-yet-emitted load node
succeeds in vector mode, the addresses of every two members, adjacent or not,
are of the same type, where `same_type` holds exactly when all coefficients
other than `coeff_const` are equal; the generator evaluates `same_type` on
adjacent members only. -/
theorem C14_members_pairwise_same_type (g : CPUCodeGen) (h : Heap) (expr : Nat)
    (g' : CPUCodeGen) (h' : Heap) (hmode : g.mode = Mode.vector)
    (htype : (h expr).type = NodeType.load) (hname : (h expr).var_name = "")
    (hr : g.visit h expr = .ok (g', h')) :
    (∀ m1 ∈ (h expr).members, ∀ m2 ∈ (h expr).members,
        (h m1).addr.same_type (h m2).addr = true) ∧
      (∀ a b : Address, a.same_type b = true ↔
        a.coeff_i = b.coeff_i ∧ a.coeff_imax = b.coeff_imax ∧
          a.coeff_aosoa_group_size = b.coeff_aosoa_group_size ∧
          a.coeff_aosoa_stride = b.coeff_aosoa_stride) ∧
      ∀ a b c : Address, adjacent_same_type [a, b, c] = (a.same_type b && b.same_type c) := by
  obtain ⟨-, -, a, hst, -⟩ := visit_load_ok_guards g h expr g' h' hmode htype hname hr
  refine ⟨?_, same_type_iff, ?_⟩
  · intro m1 hm1 m2 hm2
    exact adjacent_same_type_all _ hst _ (List.mem_map_of_mem _ hm1) _
      (List.mem_map_of_mem _ hm2)
  · intro a b c
    simp [adjacent_same_type]

theorem C14_members_pairwise_same_type_witness :
    (example_load_heap (example_address 3 2 9) [9, 9, 9, 9] 1).addr.same_type
      (example_load_heap (example_address 3 2 9) [9, 9, 9, 9] 4).addr = true := by
  obtain ⟨⟨g', h'⟩, hr⟩ := except_ok_of_isSome
    ((example_codegen 4 2).visit (example_load_heap (example_address 3 2 9) [9, 9, 9, 9]) 0)
    (by decide)
  exact (C14_members_pairwise_same_type (example_codegen 4 2)
    (example_load_heap (example_address 3 2 9) [9, 9, 9, 9]) 0 g' h' rfl rfl rfl hr).1
    1 (by decide) 4 (by decide)

/-- Claim C14 fails as stated: the visit, in vector mode, of a vectorized load
node that has a name already returns at once, before the members are looked
at, and so succeeds on a node whose two members have addresses of different
types (`coeff_i` is 1 for the first and 2 for the second). -/
theorem C14_named_node_counterexample :
    (example_codegen 2 4).mode = Mode.vector ∧
      (example_named_heap 0).type = NodeType.load ∧
      (example_named_heap 0).is_vectorized = true ∧
      (example_named_heap 0).var_name = "var_0000" ∧
      (example_named_heap 0).members = [1, 2] ∧
      (example_codegen 2 4).visit example_named_heap 0 =
        .ok (example_codegen 2 4, example_named_heap) ∧
      (example_named_heap 1).addr.coeff_i = 1 ∧ (example_named_heap 2).addr.coeff_i = 2 ∧
      (example_named_heap 1).addr.same_type (example_named_heap 2).addr = false := by
  refine ⟨rfl, rfl, rfl, rfl, rfl, ?_, rfl, rfl, by decide⟩
  exact visit_noop _ _ 0 rfl (Or.inr rfl) (Or.inr (by decide))

/-- Claim C15, as amended: when the visit of a not-yet-emitted load node with
`group_size = 8` and `offset_inc == 0` succeeds, the code emitted for the node
is the prefetch statement, if a prefetch distance is set, then the aligned
vector load (`_mm256_load_ps` or `_mm512_load_ps`) into the `_immediate`
temporary, then the `_mm256_broadcast_ss` of the node's own address that
defines the node's variable: the broadcast is emitted, and the aligned load is
emitted before it all the same. -/
theorem C15_broadcast_follows_aligned_load (g : CPUCodeGen) (h : Heap) (expr m0 m1 : Nat)
    (rest : List Nat) (g' : CPUCodeGen) (h' : Heap) (hgs : g.group_size = 8)
    (htype : (h expr).type = NodeType.load) (hname : (h expr).var_name = "")
    (hmem : (h expr).members = m0 :: m1 :: rest)
    (hinc : (h m1).addr.offset - (h m0).addr.offset = 0)
    (hr : g.visit h expr = .ok (g', h')) :
    ∃ a b, g.get_vectorized_address ((h expr).addr.align_down g.simd_width) 0 = .ok a ∧
      g.get_vectorized_address (h expr).addr 0 = .ok b ∧
      (g.load_instr = "_mm256_load_ps" ∨ g.load_instr = "_mm512_load_ps") ∧
      g'.code = g.code ++ g.prefetch_code ((h expr).addr.align_down g.simd_width) ++
        ["auto " ++ g.create_variable.1 ++ "_immediate = " ++ g.load_instr ++ "(" ++ a ++ ");" ++
            g.code_suffix,
          "auto " ++ g.create_variable.1 ++ " = _mm256_broadcast_ss(" ++ b ++ ");" ++
            g.code_suffix] := by
  have hmode : g.mode = Mode.vector := visit_load_ok_mode g h expr g' h' htype hname hr
  obtain ⟨hvec, hsize, a, hst, hng, hsw, hb, ha⟩ :=
    visit_load_ok_guards g h expr g' h' hmode htype hname hr
  have hz : (h expr).addr.coeff_aosoa_group_size ≠ 0 :=
    (get_vectorized_address_inv g _ 0 a ha).2
  obtain ⟨b, hb'⟩ : ∃ b, g.get_vectorized_address (h expr).addr 0 = .ok b :=
    ⟨_, get_vectorized_address_ok g _ 0 hb hz⟩
  have hv := visit_load_node g h expr a hmode htype hvec hname hsize hst hng hsw ha
  rw [hmem, if_neg (by rw [hgs]; decide)] at hv
  simp only [List.map] at hv
  rw [load_pattern_eight
    (g.create_variable.2.with_aligned_load (h expr).addr g.create_variable.1 a)
    _ _ _ _ _ _ hgs hsw,
    get_vectorized_address_congr g
      (g.create_variable.2.with_aligned_load (h expr).addr g.create_variable.1 a) _ 0 rfl,
    hb'] at hv
  have hne : ¬ ((0 : Int) = 1) := by decide
  simp only [hinc, hne, if_true, if_false, Except.map, after_load_broadcast] at hv
  rw [hv] at hr
  cases hr
  refine ⟨a, b, ha, hb', ?_, rfl⟩
  unfold CPUCodeGen.load_instr
  split
  · exact Or.inl rfl
  · exact Or.inr rfl

theorem C15_broadcast_follows_aligned_load_witness :
    ∃ r a b, (example_codegen 8 1).visit
        (example_load_heap (example_address 3 1 0) [0, 0, 0, 0, 0, 0, 0, 0]) 0 = .ok r ∧
      r.1.code = ["auto var_0000_immediate = " ++ "_mm256_load_ps" ++ "(" ++ a ++ ");" ++ "\n",
        "auto var_0000 = _mm256_broadcast_ss(" ++ b ++ ");" ++ "\n"] := by
  obtain ⟨⟨g', h'⟩, hr⟩ := except_ok_of_isSome
    ((example_codegen 8 1).visit
      (example_load_heap (example_address 3 1 0) [0, 0, 0, 0, 0, 0, 0, 0]) 0) (by decide)
  obtain ⟨a, b, -, -, -, hcode⟩ := C15_broadcast_follows_aligned_load (example_codegen 8 1)
    (example_load_heap (example_address 3 1 0) [0, 0, 0, 0, 0, 0, 0, 0]) 0 1 2 [3, 4, 5, 6, 7, 8]
    g' h' rfl rfl rfl rfl (by decide) hr
  exact ⟨_, a, b, hr, hcode⟩

/-- Claim C15 fails as stated, in three ways, each for a vectorized load node
with `group_size = 8` and the uniform member offsets `[0, 0, 0, 0, 0, 0, 0, 0]`.
For a node without a name that is bound to buffer 3 the visit emits the aligned
vector load `_mm256_load_ps` into the `_immediate` temporary ahead of the
`_mm256_broadcast_ss`.  For the same node with the name `var_0000` already set
the visit succeeds and emits nothing, so no broadcast.  For the node without a
name that is not bound to a buffer (`buffer_id == -1`) the visit fails, and no
code is returned. -/
theorem C15_aligned_load_counterexample :
    (example_codegen 8 1).mode = Mode.vector ∧ (example_codegen 8 1).group_size = 8 ∧
      ((example_codegen 8 1).visit
          (example_load_heap (example_address 3 1 0) [0, 0, 0, 0, 0, 0, 0, 0])
          0).toOption.map (fun r => r.1.code) =
        some ["auto var_0000_immediate = _mm256_load_ps(&context.get_buffer<float32>(03)[0 * n + 1 * (g + loop_index) + 0 + 0]);\n",
          "auto var_0000 = _mm256_broadcast_ss(&context.get_buffer<float32>(03)[0 * n + 1 * (g + loop_index) + 0 + 0]);\n"] ∧
      ((example_codegen 8 1).visit
          ((example_load_heap (example_address 3 1 0) [0, 0, 0, 0, 0, 0, 0, 0]).set_var_name 0
            "var_0000") 0).toOption.map (fun r => r.1.code) = some [] ∧
      ((example_codegen 8 1).visit
          (example_load_heap (example_address (-1) 1 0) [0, 0, 0, 0, 0, 0, 0, 0])
          0).toOption.map (fun r => r.1.code) = none := by
  refine ⟨rfl, rfl, by decide, by decide, by decide⟩

/-- Claim C16: for `u >= 0`, `end_macro_loop(u)` appends the closing brace,
then exactly `u` invocations `LOOP(0);`, ..., `LOOP(u - 1);` with ascending,
hence pairwise distinct, indices, then `#undef LOOP`, each ending with a plain
newline; `start_macro_loop` appends the `#define` line with the continuation
suffix, and every piece that a traversal appends between the two ends with the
continuation suffix ` \` followed by a newline. -/
theorem C16_macro_loop_scaffolding (g : CPUCodeGen) (u : Int) (hu : 0 ≤ u) :
    (g.end_macro_loop u).code =
        g.code ++ ["\x7d\n" ++ "\n"] ++
          (List.range u.toNat).map (fun i : Nat => "LOOP(" ++ fmt_d (i : Int) ++ ");" ++ "\n") ++
          ["#undef LOOP\n" ++ "\n"] ∧
      ((List.range u.toNat).length : Int) = u ∧
      List.Pairwise (fun i j => i < j) (List.range u.toNat) ∧
      g.start_macro_loop.code = g.code ++ ["#define LOOP(loop_index) \x7b" ++ " \\\n"] ∧
      ∀ (fuel : Nat) (h : Heap) (expr : Nat) (g3 : CPUCodeGen) (h3 : Heap),
        g.start_macro_loop.accept fuel h expr = .ok (g3, h3) →
        ∃ lines, g3.code = g.start_macro_loop.code ++ lines ∧
          ∀ l ∈ lines, ∃ s, l = s ++ " \\\n" := by
  refine ⟨?_, ?_, List.pairwise_lt_range _, rfl, ?_⟩
  · unfold CPUCodeGen.end_macro_loop
    obtain ⟨h1, h2⟩ := emit_loop_calls_code u.toNat
      (CPUCodeGen.emit_code { g with code_suffix := "\n" } "\x7d\n") 0
    simp only [CPUCodeGen.emit_code] at h1 h2 ⊢
    rw [h1, h2]
    simp
  · rw [List.length_range]
    exact Int.toNat_of_nonneg hu
  · intro fuel h expr g3 h3 hr
    obtain ⟨lines, he, hl⟩ := accept_appends fuel _ _ _ _ _ hr
    exact ⟨lines, by rw [he], hl⟩

theorem C16_macro_loop_scaffolding_witness :
    ((example_codegen 1 8).end_macro_loop 3).code =
      ["\x7d\n\n", "LOOP(0);\n", "LOOP(1);\n", "LOOP(2);\n", "#undef LOOP\n\n"] :=
  (C16_macro_loop_scaffolding (example_codegen 1 8) 3 (by decide)).1

/-- Claim C17: `get` reads only the caches and the return root of the
program, so for two programs that differ in nothing but their configuration
(group size, SIMD width) it gives the same result, source text included; when
it succeeds the generator has `group_size = 1`, `simd_width = 8`,
`num_groups = 8` and vector mode; the vectorizer is only ever called with SIMD
width 8 and group size 1.  What `get` runs is pinned step by step: it succeeds
exactly when the header generation for vector mode, `simd_width = 8` and
`group_size = 1` succeeds (which sets `num_groups = 8`), the loop over the
caches succeeds, the program has a return root, the vectorizer called with SIMD
width 8 and group size 1 on that root succeeds, and the traversal of the
vectorized graph with `group_size = 1`, `simd_width = 8` and `num_groups = 8`
succeeds; its result is then the generator of that traversal after the end of
the macro block and the tail.  The emitted source is the header, the cache
declaration, one macro block per cache, the main macro block and the tail
`i += 8 * unroll; g += unroll;`. -/
theorem C17_get_ignores_config (run : VectorizerRun) (fuel : Nat) (g : CPUCodeGen) (h : Heap)
    (prog1 prog2 : Program) (hc : prog1.caches = prog2.caches) (hret : prog1.ret = prog2.ret) :
    g.get run fuel h prog1 = g.get run fuel h prog2 ∧
      (∀ (g' : CPUCodeGen) (h' : Heap), g.get run fuel h prog1 = .ok (g', h') →
        g'.group_size = 1 ∧ g'.simd_width = 8 ∧ g'.num_groups = 8 ∧ g'.mode = Mode.vector) ∧
      (∀ run' : VectorizerRun, (∀ h0 e, run' 8 h0 e 1 = run 8 h0 e 1) →
        g.get run' fuel h prog1 = g.get run fuel h prog1) ∧
      (∀ (g' : CPUCodeGen) (h' : Heap), g.get run fuel h prog1 = .ok (g', h') ↔
        ∃ (g1 g2 : CPUCodeGen) (h2 : Heap) (ret : Nat) (h3 : Heap) (v : Nat) (g4 : CPUCodeGen),
          CPUCodeGen.generate_header
              { g with mode := Mode.vector, simd_width := 8, group_size := 1 } = .ok g1 ∧
            g1.group_size = 1 ∧ g1.simd_width = 8 ∧ g1.num_groups = 8 ∧
            (g1.emit_code "float32 cache0000[128];").codegen_caches run fuel h prog1.caches =
              .ok (g2, h2) ∧
            prog1.ret = some ret ∧
            run 8 h2 ret 1 = .ok (h3, v) ∧
            g2.simd_width = 8 ∧ g2.num_groups = 8 ∧ g2.mode = Mode.vector ∧
            CPUCodeGen.accept fuel (CPUCodeGen.start_macro_loop { g2 with group_size := 1 })
              h3 v = .ok (g4, h') ∧
            g' = CPUCodeGen.generate_tail { g4.end_macro_loop 8 with code_suffix := "" }) ∧
      ∀ (g' : CPUCodeGen) (h' : Heap), g.get run fuel h prog1 = .ok (g', h') →
        ∃ (bodies : List (List String)) (main : List String) (ret : Nat),
          prog1.ret = some ret ∧ bodies.length = prog1.caches.length ∧
          is_body_of run fuel 1 ret main ∧
          g'.code = g.code ++
            ["#include <common.h>\n using namespace taichi; using namespace Tlang;" ++
                g.code_suffix,
              "extern \"C\" void " ++ g.func_name ++ "(Context context) \x7b\n" ++ g.code_suffix,
              "auto n = context.get_range(0);\n" ++ g.code_suffix,
              "for (int i = 0, g = 0; i < n; ) \x7b\n" ++ g.code_suffix,
              "float32 cache0000[128];" ++ g.code_suffix] ++
            (bodies.map fun body => macro_block body ["LOOP(0);\n"]).flatten ++
            macro_block main ["LOOP(0);\n", "LOOP(1);\n", "LOOP(2);\n", "LOOP(3);\n",
              "LOOP(4);\n", "LOOP(5);\n", "LOOP(6);\n", "LOOP(7);\n"] ++
            ["i += " ++ fmt_d (8 * g.unroll) ++ "; g += " ++ fmt_d g.unroll ++ ";",
              "\x7d\n\x7d\n"] := by
  refine ⟨?_, ?_, ?_, ?_, ?_⟩
  · unfold CPUCodeGen.get CPUCodeGen.codegen
    rw [hc, hret]
  · intro g' h' hr
    unfold CPUCodeGen.get at hr
    obtain ⟨h1, h2, h3, h4, -⟩ := codegen_fields run fuel _ h prog1 1 g' h' hr
    refine ⟨h1, h2, ?_, h4⟩
    rw [h3]
    show Int.tdiv 8 1 = 8
    decide
  · intro run' hrun
    unfold CPUCodeGen.get
    exact codegen_congr run run' fuel _ h prog1 1 hrun
  · intro g' h'
    unfold CPUCodeGen.get
    rw [codegen_steps]
    constructor
    · rintro ⟨g1, g2, h2, ret, h3, v, g4, hh, hcs, hr, hv, ha, hg⟩
      obtain ⟨-, -, e1⟩ := generate_header_ok _ _ hh
      obtain ⟨-, -, -, -, hn, -, hs⟩ := codegen_caches_code run fuel _ _ _ _ _ hcs
      have hmo := codegen_caches_mode run fuel _ _ _ _ _ hcs
      have hg1 : g1.group_size = 1 := by rw [e1]
      have hs1 : g1.simd_width = 8 := by rw [e1]
      have hn1 : g1.num_groups = 8 := by
        rw [e1]
        show Int.tdiv 8 1 = 8
        decide
      have hm1 : g1.mode = Mode.vector := by rw [e1]
      have hs2 : g2.simd_width = 8 := by rw [hs]; exact hs1
      have hn2 : g2.num_groups = 8 := by rw [hn]; exact hn1
      have hm2 : g2.mode = Mode.vector := by rw [hmo]; exact hm1
      rw [hs2] at hv
      exact ⟨g1, g2, h2, ret, h3, v, g4, hh, hg1, hs1, hn1, hcs, hr, hv, hs2, hn2, hm2, ha, hg⟩
    · rintro ⟨g1, g2, h2, ret, h3, v, g4, hh, -, -, -, hcs, hr, hv, hs2, -, -, ha, hg⟩
      rw [← hs2] at hv
      exact ⟨g1, g2, h2, ret, h3, v, g4, hh, hcs, hr, hv, ha, hg⟩
  · intro g' h' hr
    unfold CPUCodeGen.get at hr
    obtain ⟨bodies, main, ret, hr1, hf, hb, -, -, hcode⟩ :=
      codegen_code run fuel _ h prog1 1 g' h' hr
    refine ⟨bodies, main, ret, hr1, hf.length_eq.symm, hb, ?_⟩
    rw [hcode]
    rfl

theorem C17_get_ignores_config_witness :
    ∃ r, (example_codegen 4 2).get example_vectorizer 8 example_store_heap (example_program []) =
        .ok r ∧
      (example_codegen 4 2).get example_vectorizer 8 example_store_heap
        { example_program [] with
          config := { arch := Arch.x86_64, simd_width := 16, group_size := 4 } } = .ok r ∧
      r.1.group_size = 1 ∧ r.1.simd_width = 8 ∧ r.1.num_groups = 8 ∧
      r.1.code =
        ["#include <common.h>\n using namespace taichi; using namespace Tlang;\n",
          "extern \"C\" void func(Context context) \x7b\n\n",
          "auto n = context.get_range(0);\n\n",
          "for (int i = 0, g = 0; i < n; ) \x7b\n\n",
          "float32 cache0000[128];\n",
          "#define LOOP(loop_index) \x7b \\\n",
          "auto var_0000_immediate = _mm256_load_ps(&context.get_buffer<float32>(01)[0 * n + 8 * (g + loop_index) + 0 + 0]); \\\n",
          "auto var_0000 = var_0000_immediate; \\\n",
          "auto var_0001 = var_0000 + var_0000; \\\n",
          "_mm256_store_ps(&context.get_buffer<float32>(02)[0 * n + 8 * (g + loop_index) + 0 + 0], var_0001); \\\n",
          "\x7d\n\n", "LOOP(0);\n", "LOOP(1);\n", "LOOP(2);\n", "LOOP(3);\n", "LOOP(4);\n",
          "LOOP(5);\n", "LOOP(6);\n", "LOOP(7);\n", "#undef LOOP\n\n", "i += 8; g += 1;",
          "\x7d\n\x7d\n"] := by
  obtain ⟨⟨g', h'⟩, hr⟩ := except_ok_of_isSome
    ((example_codegen 4 2).get example_vectorizer 8 example_store_heap (example_program []))
    (by decide)
  have key := C17_get_ignores_config example_vectorizer 8 (example_codegen 4 2)
    example_store_heap (example_program [])
    { example_program [] with
      config := { arch := Arch.x86_64, simd_width := 16, group_size := 4 } } rfl rfl
  obtain ⟨f1, f2, f3, -⟩ := key.2.1 g' h' hr
  have hd : ((example_codegen 4 2).get example_vectorizer 8 example_store_heap
      (example_program [])).toOption.map (fun r => r.1.code) = some _ :=
    (by decide : _ = some
        ["#include <common.h>\n using namespace taichi; using namespace Tlang;\n",
          "extern \"C\" void func(Context context) \x7b\n\n",
          "auto n = context.get_range(0);\n\n",
          "for (int i = 0, g = 0; i < n; ) \x7b\n\n",
          "float32 cache0000[128];\n",
          "#define LOOP(loop_index) \x7b \\\n",
          "auto var_0000_immediate = _mm256_load_ps(&context.get_buffer<float32>(01)[0 * n + 8 * (g + loop_index) + 0 + 0]); \\\n",
          "auto var_0000 = var_0000_immediate; \\\n",
          "auto var_0001 = var_0000 + var_0000; \\\n",
          "_mm256_store_ps(&context.get_buffer<float32>(02)[0 * n + 8 * (g + loop_index) + 0 + 0], var_0001); \\\n",
          "\x7d\n\n", "LOOP(0);\n", "LOOP(1);\n", "LOOP(2);\n", "LOOP(3);\n", "LOOP(4);\n",
          "LOOP(5);\n", "LOOP(6);\n", "LOOP(7);\n", "#undef LOOP\n\n", "i += 8; g += 1;",
          "\x7d\n\x7d\n"])
  rw [hr] at hd
  exact ⟨(g', h'), hr, key.1 ▸ hr, f1, f2, f3, Option.some.inj hd⟩

end Tlang
